import Mathlib

/-
Verification of the mock ZFS dataset engine (lib/mock-dataset.js) and the
mock facade (lib/mock-zfs.js) of node-zfs.

The engine is a mutable object graph of Dataset nodes.  We embed it as an
arena: an association list from numeric object identities to Dataset
records, held inside an Engine record together with the process-wide
state (the pools root children, the mount table, the transaction-group
counter and the pending-txg window).  JavaScript object identity becomes
the numeric arena key; JavaScript exceptions become an Except value
returned together with the engine state at the moment of the throw, so a
throw that happens after a mutation faithfully keeps the mutation.

The host (mocked) filesystem that archive/restore/mount touch is external
to the engine (node fs module plus mock-fs).  It is modelled as a HostFs
record of read capabilities; write effects on the host filesystem
(restore, clearDir, mkdir) are not tracked because the engine never reads
them back except through the archive capability.

Randomness (guid) and wall-clock time (creation) are not modelled; no
claim mentions them.  Collections that are undefined in JavaScript for a
variant (for example _children of a snapshot) are modelled as empty
lists, which has the same observable behavior in every place the source
reads them.
-/

namespace MockZfs

/-- Error taxonomy of the engine and facade.  Each constructor corresponds
to the symbolic name field of a raised VError, plus a few extra outcomes:
assertError for assert-plus assertion failures and JavaScript TypeError
crashes, notImplementedE for plain not-implemented Errors, hostError for
failures raised by the host filesystem (archive on a missing path),
fuelOut for the fuel exhaustion of the embedding (unreachable on
well-formed graphs, where the source loops terminate). -/
inductive Err where
  | datasetName
  | datasetType
  | datasetExists
  | inactiveDataset
  | invalidArgument
  | invalidFileType
  | unmountable
  | overlayMount
  | filesystemBusy
  | snapshotHold
  | descendant
  | dependant
  | readOnlyProperty
  | unsupportedProperty
  | badHumanNumber
  | noSuchPool
  | assertError
  | notImplementedE
  | hostError
  | fuelOut
  deriving DecidableEq, Repr

/-- Dataset variant tag (the type property stored in _local.type). -/
inductive DsType where
  | filesystem
  | volume
  | snapshot
  deriving DecidableEq, Repr, Inhabited

/-- Lifecycle state (_state). -/
inductive DsState where
  | creating
  | active
  | destroyed
  | pool_destroyed
  deriving DecidableEq, Repr, Inhabited

/-- A Dataset node of the engine graph (class Dataset of mock-dataset.js).
dname is the relative _name; parent is the owning node, none standing for
the pools root sentinel.  children and snapshots are the _children and
_snapshots name-to-object maps (insertion ordered, as JavaScript object
keys are); holds is the _holds set; clones the _clones array; origin the
_local.origin back-edge.  The localX fields model presence of the
corresponding key in the _local property map. -/
structure Dataset where
  dname : String
  parent : Option Nat
  dtype : DsType
  state : DsState
  createtxg : Nat
  mounted : Bool
  fscontent : Option Nat
  children : List (String × Nat)
  snapshots : List (String × Nat)
  holds : List String
  clones : List Nat
  origin : Option Nat
  localMountpoint : Option String
  localCanmount : Option String
  localAtime : Option String
  localChecksum : Option String
  localCompression : Option String
  localCopies : Option Nat
  localQuota : Option Nat
  localVolblocksize : Option Nat
  deriving DecidableEq, Repr, Inhabited

/-- Process-wide engine state: the arena of all Dataset objects ever
constructed (the heap), the next fresh identity, the children map of the
pools root sentinel, the txg counter, the pending-txg window and the
mount table (mnttab: mountpoint path to Dataset). -/
structure Engine where
  ds : List (Nat × Dataset)
  nextId : Nat
  rootChildren : List (String × Nat)
  txg : Nat
  pendingTxg : Nat
  mnttab : List (String × Nat)
  deriving DecidableEq, Repr

/-- The read capabilities the engine consumes from the host (mocked)
filesystem: the mock-fs membership test, directory listing size (none
models ENOENT) and the archive operation (none models an lstat failure or
an unsupported file type). -/
structure HostFs where
  isUnderMockFs : String → Bool
  readdirCount : String → Option Nat
  archiveAt : String → Option Nat

instance {ε α : Type} [DecidableEq ε] [DecidableEq α] :
    DecidableEq (Except ε α)
  | .error x, .error y =>
    if h : x = y then .isTrue (by subst h; rfl)
    else .isFalse (by intro hc; injection hc with h2; exact h h2)
  | .error _, .ok _ => .isFalse (by intro hc; exact Except.noConfusion hc)
  | .ok _, .error _ => .isFalse (by intro hc; exact Except.noConfusion hc)
  | .ok x, .ok y =>
    if h : x = y then .isTrue (by subst h; rfl)
    else .isFalse (by intro hc; injection hc with h2; exact h h2)

/- Character-list implementations of the string operations the engine
uses (prefix test, split on a character, join); the core byte-indexed
versions do not reduce inside the kernel. -/

/-- Is the first list a prefix of the second? -/
def listPre : List Char → List Char → Bool
  | [], _ => true
  | _ :: _, [] => false
  | a :: as, b :: bs => a == b && listPre as bs

/-- String prefix test. -/
def strStarts (s pre : String) : Bool :=
  listPre pre.data s.data

/-- Split a character list at every occurrence of a separator character;
always at least one (possibly empty) piece, like String.splitOn with a
single-character separator. -/
def splitCh (c : Char) : List Char → List (List Char)
  | [] => [[]]
  | x :: rest =>
    match splitCh c rest with
    | [] => if x == c then [[], []] else [[x]]
    | h :: t => if x == c then [] :: h :: t else (x :: h) :: t

/-- String split at a separator character. -/
def strSplit (c : Char) (s : String) : List String :=
  (splitCh c s.data).map String.mk

/-- Join with the slash separator (join of an array in JavaScript). -/
def joinSlash (l : List String) : String :=
  match l with
  | [] => ""
  | h :: t => t.foldl (fun acc s => acc ++ "/" ++ s) h

/-- The engine state produced by reset(). -/
def emptyEngine : Engine :=
  { ds := [], nextId := 0, rootChildren := [], txg := 1, pendingTxg := 0,
    mnttab := [] }

/- Association-list helpers modelling JavaScript object maps keyed by
strings (hasOwnProperty / read / write / delete, insertion ordered). -/

def alGet (l : List (String × Nat)) (k : String) : Option Nat :=
  (l.find? (fun p => p.1 == k)).map (fun p => p.2)

def alPut (l : List (String × Nat)) (k : String) (v : Nat) : List (String × Nat) :=
  if (l.find? (fun p => p.1 == k)).isSome then
    l.map (fun p => if p.1 == k then (k, v) else p)
  else
    l ++ [(k, v)]

def alDel (l : List (String × Nat)) (k : String) : List (String × Nat) :=
  l.filter (fun p => !(p.1 == k))

/- Arena helpers. -/

def lookupA (l : List (Nat × Dataset)) (i : Nat) : Option Dataset :=
  (l.find? (fun p => p.1 == i)).map (fun p => p.2)

def Engine.find? (e : Engine) (i : Nat) : Option Dataset :=
  lookupA e.ds i

/-- Update the record at identity i (a field mutation of one object). -/
def updDs (e : Engine) (i : Nat) (f : Dataset → Dataset) : Engine :=
  { e with ds := e.ds.map (fun p => if p.1 == i then (p.1, f p.2) else p) }

/-- namecheck from mock-dataset.js: the component character set of the
regular expression there. -/
def allowedChar (c : Char) : Bool :=
  ('a' ≤ c && c ≤ 'z') || ('A' ≤ c && c ≤ 'Z') || ('0' ≤ c && c ≤ '9') ||
    c == '-' || c == '_' || c == '.' || c == ':' || c == ' '

/-- namecheck(name).  The not-a-string arm of the source is enforced by
typing here.  The length test precedes the character-class test, as in
the source. -/
def namecheck (name : String) : Except Err Unit :=
  if name.length == 0 || name.length > 255 then .error .datasetName
  else if !(name.data.all allowedChar) then .error .datasetName
  else .ok ()

/-- _assertActive(): state must be active or creating. -/
def Dataset.assertActive (d : Dataset) : Except Err Unit :=
  if d.state = .active ∨ d.state = .creating then .ok ()
  else .error .inactiveDataset

/-- _parent_types membership, by variant (constructor switch). -/
def parentTypesHas (t : DsType) (pt : DsType) : Bool :=
  match t with
  | .filesystem => pt == .filesystem
  | .volume => pt == .filesystem
  | .snapshot => pt == .filesystem || pt == .volume

/-- _child_types.has of the snapshot token, by variant. -/
def childTypesHasSnapshot (t : DsType) : Bool :=
  match t with
  | .filesystem => true
  | .volume => true
  | .snapshot => false

/-- The string token of a variant, as compared against the types argument
of iterDescendants. -/
def typeTok (t : DsType) : String :=
  match t with
  | .filesystem => "filesystem"
  | .volume => "volume"
  | .snapshot => "snapshot"

/- Property getters.  getInheritableValue walks the _parent chain until a
node has the property in its local map; reaching the pools root sentinel
yields the default.  The walk is fueled: the source would loop forever on
a cyclic parent chain, the embedding returns none. -/

def inheritWalk (l : List (Nat × Dataset)) (sel : Dataset → Option α)
    (dflt : α) : Nat → Nat → Option α
  | 0, _ => none
  | fuel + 1, i =>
    match lookupA l i with
    | none => none
    | some d =>
      match sel d with
      | some v => some v
      | none =>
        match d.parent with
        | none => some dflt
        | some p => inheritWalk l sel dflt fuel p

/-- The canmount getter (assertActive, then inheritable lookup; the pools
root default for canmount is the string on). -/
def getCanmount (e : Engine) (i : Nat) : Except Err String :=
  match e.find? i with
  | none => .error .assertError
  | some d =>
    match d.assertActive with
    | .error er => .error er
    | .ok _ =>
      match inheritWalk e.ds (fun d => d.localCanmount) "on" (e.ds.length + 1) i with
      | some v => .ok v
      | none => .error .assertError

/-- The while loop of the mountpoint getter: walk from self toward the
pools root, pushing each _name, until a node has a local mountpoint or
the root sentinel is reached (the root is checked first, so its default
local mountpoint is never consulted).  Returns the found local
mountpoint (or none for the root case) together with the collected
trail; the outer none is fuel exhaustion. -/
def mpWalk (l : List (Nat × Dataset)) :
    Nat → Nat → List String → Option (Option String × List String)
  | 0, _, _ => none
  | fuel + 1, i, trail =>
    match lookupA l i with
    | none => none
    | some d =>
      match d.localMountpoint with
      | some mp => some (some mp, trail)
      | none =>
        match d.parent with
        | none => some (none, trail ++ [d.dname])
        | some p => mpWalk l fuel p (trail ++ [d.dname])

/-- Join a base path with segments the way [base].concat(segs).join(the
slash) does. -/
def joinSegs (base : String) (segs : List String) : String :=
  segs.foldl (fun acc s => acc ++ "/" ++ s) base

/-- The mountpoint getter.  Snapshots and volumes return null (none);
otherwise the mpWalk result is assembled exactly as in the source. -/
def mountpointGet (e : Engine) (i : Nat) : Except Err (Option String) :=
  match e.find? i with
  | none => .error .assertError
  | some d =>
    match d.assertActive with
    | .error er => .error er
    | .ok _ =>
      if d.dtype ≠ .filesystem then .ok none
      else
        match mpWalk e.ds (e.ds.length + 1) i [] with
        | none => .error .assertError
        | some (none, trail) =>
          .ok (some ("/" ++ joinSlash trail.reverse))
        | some (some mp, trail) =>
          if strStarts mp "/" then .ok (some (joinSegs mp trail.reverse))
          else .ok (some mp)

/-- The mounted getter: the one getter with no _assertActive guard. -/
def mountedGet (e : Engine) (i : Nat) : Except Err Bool :=
  match e.find? i with
  | none => .error .assertError
  | some d => .ok d.mounted

/-- The type getter (guards with _assertActive). -/
def typeGet (e : Engine) (i : Nat) : Except Err DsType :=
  match e.find? i with
  | none => .error .assertError
  | some d =>
    match d.assertActive with
    | .error er => .error er
    | .ok _ => .ok d.dtype

/-- The createtxg getter (guards with _assertActive). -/
def createtxgGet (e : Engine) (i : Nat) : Except Err Nat :=
  match e.find? i with
  | none => .error .assertError
  | some d =>
    match d.assertActive with
    | .error er => .error er
    | .ok _ => .ok d.createtxg

/-- The name getter: parent.name + sep + own name, the root children being
their own full names.  Fueled parent walk; asserts active at every level
like the source (each level is a name getter call). -/
def fullName (l : List (Nat × Dataset)) : Nat → Nat → Option String
  | 0, _ => none
  | fuel + 1, i =>
    match lookupA l i with
    | none => none
    | some d =>
      if d.state = .active ∨ d.state = .creating then
        match d.parent with
        | none => some d.dname
        | some p =>
          (fullName l fuel p).map (fun pn =>
            pn ++ (if d.dtype = .snapshot then "@" else "/") ++ d.dname)
      else none

/- iterDescendants.  The generator is modelled eagerly: the full list of
yielded identities is computed up front.  This is faithful wherever the
engine consumes the iterator, because iteration itself never mutates the
graph and the consuming loops either do not mutate (check passes) or
mutate only state the remaining traversal does not read (see the do-pass
comments at each caller).  Traversal is fueled by nesting depth; every
productive frame adds a fresh arena identity to the visited list, so any
fuel above the arena size plus one is enough on well-formed graphs. -/

/-- Valid type tokens of iterDescendants. -/
def oktype (t : String) : Bool :=
  t == "all" || t == "filesystem" || t == "volume" || t == "snapshot" ||
    t == "clones"

/-- The _clones array of an identity (empty when absent). -/
def clonesOf (l : List (Nat × Dataset)) (s : Nat) : List Nat :=
  match lookupA l s with
  | none => []
  | some d => d.clones

/-- The child-call order of one frame: every snapshot followed (when the
clones token is present) by the clones of that snapshot, then the child
filesystems and volumes; exactly the yield-star order of the source. -/
def frameOrder (l : List (Nat × Dataset)) (types : List String) (d : Dataset) :
    List Nat :=
  (if types.contains "all" || types.contains "snapshot" ||
      types.contains "clones" then
    (d.snapshots.map (fun p => p.2)).foldr
      (fun s acc =>
        s :: (if types.contains "clones" then clonesOf l s else []) ++ acc) []
  else []) ++ d.children.map (fun p => p.2)

/-- The pure head of one generator frame: the lookup of the identity, the
active assertion, the argument validation re-run by every nested call
and the visited test.  Returns none for a frame that yields nothing and
recurses nowhere (an already-visited identity, or a dangling one, which
cannot occur on well-formed graphs); otherwise the self yield, the
child-call order and the grown visited list. -/
def framePre (l : List (Nat × Dataset)) (types : List String) (i : Nat)
    (visited : List Nat) :
    Except Err (Option (List Nat × List Nat × List Nat)) :=
  match lookupA l i with
  | none => .ok none
  | some d =>
    match d.assertActive with
    | .error er => .error er
    | .ok _ =>
      if !(types.all oktype) then .error .invalidArgument
      else if !(types.contains "all" || types.contains "filesystem" ||
          types.contains "volume" || types.contains "snapshot") then
        .error .invalidArgument
      else if visited.contains i then .ok none
      else
        let selfYield :=
          if types.contains "all" || types.contains (typeTok d.dtype) then
            [i]
          else []
        .ok (some (selfYield, frameOrder l types d, visited ++ [i]))

/-- The traversal engine of iterDescendants over a worklist of pending
nested calls: process the head identity as one generator frame (framePre,
then the nested calls of the frame order), then the rest of the
worklist.  Structural recursion on fuel, each step consuming one unit,
so that the definition computes by kernel reduction. -/
def iterGo (l : List (Nat × Dataset)) (types : List String) :
    Nat → List Nat → List Nat → Except Err (List Nat × List Nat)
  | 0, _, _ => .error .fuelOut
  | _ + 1, [], visited => .ok ([], visited)
  | fuel + 1, i :: rest, visited =>
    match framePre l types i visited with
    | .error er => .error er
    | .ok none =>
      iterGo l types fuel rest visited
    | .ok (some (selfYield, order, vis1)) =>
      match iterGo l types fuel order vis1 with
      | .error er => .error er
      | .ok (ys, v2) =>
        match iterGo l types fuel rest v2 with
        | .error er => .error er
        | .ok (ys2, v3) => .ok (selfYield ++ ys ++ ys2, v3)

/-- One iterDescendants generator, consumed eagerly into its yield list
(and the final visited set threaded through the state argument). -/
def iterDesc (l : List (Nat × Dataset)) (types : List String) (fuel : Nat)
    (i : Nat) (visited : List Nat) : Except Err (List Nat × List Nat) :=
  iterGo l types fuel [i] visited

/-- The fuel every caller passes: one unit per worklist step, bounded by
the total number of graph edges (children, snapshots twice for the clone
expansion, clones) plus the arena size, plus slack; enough for any
well-formed graph, where the source traversal terminates. -/
def defaultFuel (l : List (Nat × Dataset)) : Nat :=
  l.foldr
    (fun p acc =>
      p.2.children.length + 2 * p.2.snapshots.length + p.2.clones.length +
        acc + 2) 0 + l.length + 2

/-- Run an engine action over a list, stopping at the first error; the
engine at the error is whatever the failing element produced. -/
def stepList (f : α → Engine → Except Err Unit × Engine) :
    List α → Engine → Except Err Unit × Engine
  | [], e => (.ok (), e)
  | x :: rest, e =>
    match f x e with
    | (.error er, e1) => (.error er, e1)
    | (.ok _, e1) => stepList f rest e1

/-- Run a pure per-element check over a list, returning the first error. -/
def firstErr (chk : α → Except Err Unit) : List α → Except Err Unit
  | [] => .ok ()
  | x :: rest =>
    match chk x with
    | .error er => .error er
    | .ok _ => firstErr chk rest

/-- _doDescendants(types, checkcb, docb, filtercb): a check pass over the
iterator, then a do pass.  Both passes run over the same yield list
computed on the incoming engine: the check pass cannot mutate, and at
both call sites (recursive snapshot, recursive hold/release) the do-pass
mutations touch only state the remaining lazy traversal never reads
(snapshot maps are not traversed under filesystem/volume types; hold
sets are not traversed at all), so the lazy source iteration and this
eager one agree.  The filter is likewise evaluated on the incoming
engine; at every call site it reads only _name, which the do pass never
changes. -/
def doDescendants (types : List String)
    (chk : Nat → Engine → Except Err Unit)
    (act : Nat → Engine → Except Err Unit × Engine)
    (filt : Option (Nat → Engine → Bool)) (i : Nat) (e : Engine) :
    Except Err Unit × Engine :=
  match iterDesc e.ds types (defaultFuel e.ds) i [] with
  | .error er => (.error er, e)
  | .ok (ys, _) =>
    let l :=
      match filt with
      | some f => ys.filter (fun x => f x e)
      | none => ys
    match firstErr (fun x => chk x e) l with
    | .error er => (.error er, e)
    | .ok _ => stepList act l e

/-- Anything mounted strictly below this directory? (hasSubmounts) -/
def hasSubmounts (e : Engine) (dirname : String) : Bool :=
  e.mnttab.any (fun p => strStarts p.1 (dirname ++ "/"))

/-- The not_mountable escape of Dataset.mount: silent return under
opts.ignore_not_mountable, UnmountableError otherwise. -/
def notMountableRes (ignore : Bool) (e : Engine) :
    Except Err Unit × Engine :=
  if ignore then (.ok (), e) else (.error .unmountable, e)

/-- Dataset.mount(opts).  ignore is opts.ignore_not_mountable.  The
restore of fscontent writes to the host filesystem only; the engine
effect is clearing the fscontent slot and registering in mnttab. -/
def mount (host : HostFs) (ignore : Bool) (i : Nat) (e : Engine) :
    Except Err Unit × Engine :=
  match e.find? i with
  | none => (.error .assertError, e)
  | some d =>
    match d.assertActive with
    | .error er => (.error er, e)
    | .ok _ =>
      if d.dtype ≠ .filesystem then notMountableRes ignore e
      else if d.mounted then notMountableRes ignore e
      else
        match getCanmount e i with
        | .error er => (.error er, e)
        | .ok cm =>
          if cm == "off" then notMountableRes ignore e
          else
            match mountpointGet e i with
            | .error er => (.error er, e)
            | .ok none => (.error .assertError, e)
            | .ok (some mp) =>
              if !(strStarts mp "/") then notMountableRes ignore e
              else if !(host.isUnderMockFs mp) then notMountableRes ignore e
              else
                match host.readdirCount mp with
                | some n =>
                  if n ≠ 0 then (.error .overlayMount, e)
                  else
                    let e1 := { e with mnttab := alPut e.mnttab mp i }
                    (.ok (), updDs e1 i (fun d =>
                      { d with mounted := true, fscontent := none }))
                | none =>
                  -- ENOENT: the directory is created on the host.
                  let e1 := { e with mnttab := alPut e.mnttab mp i }
                  (.ok (), updDs e1 i (fun d =>
                    { d with mounted := true, fscontent := none }))

/-- Dataset.unmount().  Archives the mountpoint into fscontent (an error
of the host archive operation leaves the engine untouched, as in the
source where the throw happens before any engine mutation), clears the
host directory, then removes the mnttab entry. -/
def unmount (host : HostFs) (i : Nat) (e : Engine) :
    Except Err Unit × Engine :=
  match e.find? i with
  | none => (.error .assertError, e)
  | some d =>
    match d.assertActive with
    | .error er => (.error er, e)
    | .ok _ =>
      if !d.mounted then (.ok (), e)
      else
        match mountpointGet e i with
        | .error er => (.error er, e)
        | .ok none => (.error .assertError, e)
        | .ok (some mp) =>
          if hasSubmounts e mp then (.error .filesystemBusy, e)
          else
            match host.archiveAt mp with
            | none => (.error .hostError, e)
            | some c =>
              let e1 := { e with mnttab := alDel e.mnttab mp }
              (.ok (), updDs e1 i (fun d =>
                { d with mounted := false, fscontent := some c }))

/-- A property value: string or integer (JavaScript values reaching the
modelled setters). -/
inductive PVal where
  | s (v : String)
  | n (v : Nat)
  deriving DecidableEq, Repr

/-- A property assignment list, as passed to the constructor or zfs.set. -/
abbrev Props := List (String × PVal)

/-- parseHumanNumber.  The source throws with an undefined identifier in
the error-info object on a parse failure (a ReferenceError at throw
time); either way the call throws, modelled as badHumanNumber. -/
def parseHumanNumber (hnum : String) : Except Err Nat :=
  match hnum.data.takeWhile (fun c => c.isDigit) with
  | [] => .error .badHumanNumber
  | dh :: dt =>
    match hnum.data.drop (dh :: dt).length with
    | [] => .ok ((dh :: dt).foldl (fun acc c => acc * 10 + (c.toNat - 48)) 0)
    | [c] =>
      match ['b', 'k', 'm', 'g', 't', 'p', 'e'].indexOf? c.toLower with
      | some exp =>
        .ok ((dh :: dt).foldl (fun acc c => acc * 10 + (c.toNat - 48)) 0 *
          2 ^ (exp * 10))
      | none => .error .badHumanNumber
    | _ => .error .badHumanNumber

/-- The property names whose get/set pairs in the source simply throw a
plain not-implemented Error. -/
def notImplProps : List String :=
  ["aclinherit", "acltype", "casesensitivity", "context", "dedup",
   "defcontext", "devices", "dnodesize", "encryption", "exec",
   "filesystem_count", "filesystem_limit", "fscontext", "keyformat",
   "keylocation", "logbias", "logicalreferenced", "logicalused",
   "mlslabel", "nmbmand", "normalization", "objsetid", "overlay",
   "pbkdf2iters", "primarycache", "readonly", "recordize",
   "redundant_metadata", "refcompressratio", "referenced", "refquota",
   "refreservation", "relatime", "reservation", "rootcontext",
   "secondarycache", "setuid", "size", "sharenfs", "sharesmb", "snapdev",
   "snapdir", "snapshot_count", "snapshot_limit", "special_small_blocks",
   "sync", "usedbychildren", "usedbydataset", "usedbyrefreservation",
   "usedbysnapshots", "utf8only", "version", "volblocksize", "volmode",
   "vscan", "written", "xattr", "zoned"]

/-- The read-only properties: their setters assert active then raise
ReadOnlyPropertyError. -/
def readOnlyProps : List String :=
  ["type", "name", "guid", "creation", "createtxg", "mounted", "origin"]

/-- A setter that validates a string value against a list and stores it
locally (the shape of the atime, canmount, checksum and compression
setters: assert active, assert the value valid, write the local map). -/
def setEnumProp (valid : List String) (upd : String → Dataset → Dataset)
    (i : Nat) (v : PVal) (e : Engine) : Except Err Unit × Engine :=
  match e.find? i with
  | none => (.error .assertError, e)
  | some d =>
    match d.assertActive with
    | .error er => (.error er, e)
    | .ok _ =>
      match v with
      | .s sv =>
        if valid.contains sv then (.ok (), updDs e i (upd sv))
        else (.error .assertError, e)
      | .n _ => (.error .assertError, e)

/-- The copies setter: an integer between 1 and 3. -/
def setCopies (i : Nat) (v : PVal) (e : Engine) :
    Except Err Unit × Engine :=
  match e.find? i with
  | none => (.error .assertError, e)
  | some d =>
    match d.assertActive with
    | .error er => (.error er, e)
    | .ok _ =>
      match v with
      | .n nv =>
        if 1 ≤ nv ∧ nv ≤ 3 then
          (.ok (), updDs e i (fun d => { d with localCopies := some nv }))
        else (.error .assertError, e)
      | .s _ => (.error .assertError, e)

/-- The mountpoint setter: assert active, filesystems only, value
absolute or none or legacy; unmount, write the local value, remount with
ignore_not_mountable. -/
def setMountpoint (host : HostFs) (i : Nat) (v : PVal) (e : Engine) :
    Except Err Unit × Engine :=
  match e.find? i with
  | none => (.error .assertError, e)
  | some d =>
    match d.assertActive with
    | .error er => (.error er, e)
    | .ok _ =>
      if d.dtype ≠ .filesystem then (.error .assertError, e)
      else
        match v with
        | .s sv =>
          if strStarts sv "/" || sv == "none" || sv == "legacy" then
            match unmount host i e with
            | (.error er, e1) => (.error er, e1)
            | (.ok _, e1) =>
              let e2 := updDs e1 i (fun d =>
                { d with localMountpoint := some sv })
              mount host true i e2
          else (.error .assertError, e)
        | .n _ => (.error .assertError, e)

/-- The quota setter: no own active assertion (the type getter guards),
filesystems only, none deletes the local value, other values go through
parseHumanNumber. -/
def setQuota (i : Nat) (v : PVal) (e : Engine) :
    Except Err Unit × Engine :=
  match typeGet e i with
  | .error er => (.error er, e)
  | .ok t =>
    if t ≠ .filesystem then (.error .unsupportedProperty, e)
    else
      match v with
      | .s sv =>
        if sv == "none" then
          (.ok (), updDs e i (fun d => { d with localQuota := none }))
        else
          match parseHumanNumber sv with
          | .error er => (.error er, e)
          | .ok q =>
            (.ok (), updDs e i (fun d => { d with localQuota := some q }))
      | .n _ => (.error .badHumanNumber, e)

/-- A read-only setter: assert active then ReadOnlyPropertyError. -/
def setReadOnlyProp (i : Nat) (e : Engine) : Except Err Unit × Engine :=
  match e.find? i with
  | none => (.error .assertError, e)
  | some d =>
    match d.assertActive with
    | .error er => (.error er, e)
    | .ok _ => (.error .readOnlyProperty, e)

/-- One property assignment through the class setters (the self[prop] =
value loop of the constructor, and zfs.set).  A name with no accessor in
the class is a plain own-property write with no engine effect (during
creation the object is not yet sealed; after sealing the module is
non-strict so the write fails silently), modelled as ok with no change.
Assertion failures of assert-plus (invalid enum values and so on) are
assertError. -/
def setProp (host : HostFs) (i : Nat) (pname : String) (v : PVal)
    (e : Engine) : Except Err Unit × Engine :=
  if pname == "atime" then
    setEnumProp ["on", "off"]
      (fun sv d => { d with localAtime := some sv }) i v e
  else if pname == "canmount" then
    setEnumProp ["on", "off", "noauto"]
      (fun sv d => { d with localCanmount := some sv }) i v e
  else if pname == "checksum" then
    setEnumProp ["on", "off", "fletcher2", "fletcher4", "sha256",
      "noparity", "sha512", "skein", "edonr"]
      (fun sv d => { d with localChecksum := some sv }) i v e
  else if pname == "compression" then
    setEnumProp ["on", "off"]
      (fun sv d => { d with localCompression := some sv }) i v e
  else if pname == "copies" then setCopies i v e
  else if pname == "mountpoint" then setMountpoint host i v e
  else if pname == "quota" then setQuota i v e
  else if readOnlyProps.contains pname then setReadOnlyProp i e
  else if notImplProps.contains pname then (.error .notImplementedE, e)
  else (.ok (), e)

/-- The property loop of the constructor (and of zfs.set). -/
def applyProps (host : HostFs) (i : Nat) (props : Props) (e : Engine) :
    Except Err Unit × Engine :=
  stepList (fun pv e => setProp host i pv.1 pv.2 e) props e

/-- Register the new object in the sibling collection captured in the
constructor switch (_children of the parent, _snapshots for snapshots,
the pools root children for a top-level dataset). -/
def register (parent : Option Nat) (dtype : DsType) (name : String)
    (nid : Nat) (e : Engine) : Engine :=
  match parent with
  | none => { e with rootChildren := alPut e.rootChildren name nid }
  | some p =>
    updDs e p (fun pd =>
      if dtype = .snapshot then
        { pd with snapshots := alPut pd.snapshots name nid }
      else
        { pd with children := alPut pd.children name nid })

/-- Read the sibling collection used by the duplicate-name check. -/
def siblingsOf (e : Engine) (parent : Option Nat) (dtype : DsType) :
    List (String × Nat) :=
  match parent with
  | none => e.rootChildren
  | some p =>
    match e.find? p with
    | none => []
    | some pd => if dtype = .snapshot then pd.snapshots else pd.children

/-- The Dataset constructor.  Follows the source statement order: namecheck,
top-level-type check, field initialisation (creating an object in the
heap), the property loop in state creating, the flip to active, the
parent-type check (which reads the type getter of the parent, asserting
the parent active), the duplicate-sibling check, registration, the txg
bump outside a pending window, and the canmount=on auto-mount of
filesystems with ignore_not_mountable.  Returns the new identity. -/
def mkDataset (host : HostFs) (parent : Option Nat) (name : String)
    (dtype : DsType) (props : Props) (fscontent : Option Nat) (e : Engine) :
    Except Err Nat × Engine :=
  match namecheck name with
  | .error er => (.error er, e)
  | .ok _ =>
    if parent = none ∧ dtype ≠ .filesystem then (.error .datasetType, e)
    else
      let d0 : Dataset :=
        { dname := name, parent := parent, dtype := dtype,
          state := .creating, createtxg := e.txg, mounted := false,
          fscontent := fscontent, children := [], snapshots := [],
          holds := [], clones := [], origin := none,
          localMountpoint := none, localCanmount := none,
          localAtime := none, localChecksum := none,
          localCompression := none, localCopies := none, localQuota := none,
          localVolblocksize :=
            if dtype = .volume then some 8192 else none }
      let nid := e.nextId
      let e1 : Engine := { e with ds := e.ds ++ [(nid, d0)], nextId := nid + 1 }
      match applyProps host nid props e1 with
      | (.error er, e2) => (.error er, e2)
      | (.ok _, e2) =>
        let e3 := updDs e2 nid (fun d => { d with state := .active })
        match
          (match parent with
           | none => Except.ok ()
           | some p =>
             match e3.find? p with
             | none => Except.error Err.assertError
             | some pd =>
               match pd.assertActive with
               | .error er => Except.error er
               | .ok _ =>
                 if parentTypesHas dtype pd.dtype then Except.ok ()
                 else Except.error Err.datasetType) with
        | .error er => (.error er, e3)
        | .ok _ =>
          if (alGet (siblingsOf e3 parent dtype) name).isSome then
            (.error .datasetExists, e3)
          else
            let e4 := register parent dtype name nid e3
            let e5 :=
              if e4.pendingTxg = 0 then { e4 with txg := e4.txg + 1 } else e4
            if dtype = .filesystem then
              match getCanmount e5 nid with
              | .error er => (.error er, e5)
              | .ok cm =>
                if cm == "on" then
                  match mount host true nid e5 with
                  | (.error er, e6) => (.error er, e6)
                  | (.ok _, e6) => (.ok nid, e6)
                else (.ok nid, e5)
            else (.ok nid, e5)

/-- check_destroy(check): a held snapshot raises SnapshotHoldError; a
non-recursive destroy of a node with children or snapshots raises
DescendantError (the hold check comes first, as in the source). -/
def checkDestroy (recursive : Bool) (d : Dataset) : Except Err Unit :=
  if d.dtype = .snapshot ∧ d.holds ≠ [] then .error .snapshotHold
  else if ¬recursive ∧ (d.children ≠ [] ∨ d.snapshots ≠ []) then
    .error .descendant
  else .ok ()

/-- clones.splice(clones.indexOf(self), 1): removes the first occurrence,
or (JavaScript splice with index -1) the last element when absent. -/
def spliceOut (l : List Nat) (c : Nat) : List Nat :=
  match l.indexOf? c with
  | some i => l.eraseIdx i
  | none => l.eraseIdx (l.length - 1)

/-- The unlink tail of destroy(): snapshots are removed from the parent
snapshot map; anything else is removed from the clones array of its
origin (when it has one) and from the parent children map (or the pools
root children for a top-level dataset). -/
def unregisterDs (i : Nat) (e : Engine) : Engine :=
  match e.find? i with
  | none => e
  | some d =>
    if d.dtype = .snapshot then
      match d.parent with
      | some p =>
        updDs e p (fun pd => { pd with snapshots := alDel pd.snapshots d.dname })
      | none => e
    else
      let e1 :=
        match d.origin with
        | some o => updDs e o (fun od => { od with clones := spliceOut od.clones i })
        | none => e
      match d.parent with
      | some p =>
        updDs e1 p (fun pd => { pd with children := alDel pd.children d.dname })
      | none => { e1 with rootChildren := alDel e1.rootChildren d.dname }

/-- destroy({recursive: false}).  With an empty todestroy list the loop
over descendants is skipped and any clone of self triggers
DependantError; then unmount, unlink and the state flip to destroyed. -/
def destroy1 (host : HostFs) (i : Nat) (e : Engine) :
    Except Err Unit × Engine :=
  match e.find? i with
  | none => (.error .assertError, e)
  | some d =>
    match d.assertActive with
    | .error er => (.error er, e)
    | .ok _ =>
      match checkDestroy false d with
      | .error er => (.error er, e)
      | .ok _ =>
        if d.clones ≠ [] then (.error .dependant, e)
        else
          match unmount host i e with
          | (.error er, e1) => (.error er, e1)
          | (.ok _, e1) =>
            let e2 := unregisterDs i e1
            (.ok (), updDs e2 i (fun d => { d with state := .destroyed }))

/-- destroy({recursive: true}).  Check self, gather and check every
descendant from iterDescendants with the all token, require every clone
of any checked node to be in the todestroy list, then destroy the
gathered list in reverse order with non-recursive destroys (each of
which re-checks, so an ordering violation surfaces as an error with the
descendants destroyed so far kept destroyed), and finish with the
unmount/unlink/state tail for self. -/
def destroyRec (host : HostFs) (i : Nat) (e : Engine) :
    Except Err Unit × Engine :=
  match e.find? i with
  | none => (.error .assertError, e)
  | some d =>
    match d.assertActive with
    | .error er => (.error er, e)
    | .ok _ =>
      match checkDestroy true d with
      | .error er => (.error er, e)
      | .ok _ =>
        match iterDesc e.ds ["all"] (defaultFuel e.ds) i [] with
        | .error er => (.error er, e)
        | .ok (ys, _) =>
          let todestroy := ys.filter (fun x => !(x == i))
          match
            firstErr (fun x =>
              match e.find? x with
              | none => Except.ok ()
              | some xd => checkDestroy true xd) todestroy with
          | .error er => (.error er, e)
          | .ok _ =>
            let clones :=
              d.clones ++ todestroy.foldr (fun x acc =>
                (match e.find? x with
                 | none => []
                 | some xd => xd.clones) ++ acc) []
            if clones.any (fun c => !(todestroy.contains c)) then
              (.error .dependant, e)
            else
              match stepList (fun x e => destroy1 host x e)
                  todestroy.reverse e with
              | (.error er, e1) => (.error er, e1)
              | (.ok _, e1) =>
                match unmount host i e1 with
                | (.error er, e2) => (.error er, e2)
                | (.ok _, e2) =>
                  let e3 := unregisterDs i e2
                  (.ok (), updDs e3 i (fun d => { d with state := .destroyed }))

/-- Dataset.destroy(opts). -/
def destroyDs (host : HostFs) (recursive : Bool) (i : Nat) (e : Engine) :
    Except Err Unit × Engine :=
  if recursive then destroyRec host i e else destroy1 host i e

/-- checksnap(ds) of Dataset.snapshot. -/
def checksnap (snapname : String) (x : Nat) (e : Engine) :
    Except Err Unit :=
  match e.find? x with
  | none => .ok ()
  | some xd =>
    if (alGet xd.snapshots snapname).isSome then .error .datasetExists
    else .ok ()

/-- dosnap(ds): construct the snapshot under ds, re-register it (a no-op
repeat of what the constructor did) and copy the fscontent reference of
ds onto it. -/
def dosnap (host : HostFs) (snapname : String) (props : Props) (x : Nat)
    (e : Engine) : Except Err Unit × Engine :=
  match mkDataset host (some x) snapname .snapshot props none e with
  | (.error er, e1) => (.error er, e1)
  | (.ok nid, e1) =>
    let e2 := updDs e1 x (fun xd =>
      { xd with snapshots := alPut xd.snapshots snapname nid })
    match e2.find? x with
    | none => (.error .assertError, e2)
    | some xd =>
      (.ok (), updDs e2 nid (fun nd => { nd with fscontent := xd.fscontent }))

/-- The _mounted flag of the parent (the pools root sentinel has no
_mounted, which reads as falsy). -/
def parentMounted (e : Engine) (d : Dataset) : Bool :=
  match d.parent with
  | none => false
  | some p =>
    match e.find? p with
    | none => false
    | some pd => pd.mounted

/-- Dataset.snapshot(snapname, opts, properties).  The pending-txg window
is opened before the try block; the finally clause bumps txg and closes
the window on both exits.  After creation the snapshot of self has its
fscontent replaced: from the fscontent of self when present, else, when
the parent of self is mounted, from an archive of the mountpoint of self
(note the source tests the _mounted of the parent of self here, not of
self).  Returns the identity of the snapshot of self. -/
def snapshotOp (host : HostFs) (recursive : Bool) (snapname : String)
    (props : Props) (i : Nat) (e : Engine) : Except Err Nat × Engine :=
  match e.find? i with
  | none => (.error .assertError, e)
  | some d =>
    match d.assertActive with
    | .error er => (.error er, e)
    | .ok _ =>
      if !(childTypesHasSnapshot d.dtype) then (.error .datasetType, e)
      else
        let ep := { e with pendingTxg := e.txg }
        let body : Except Err Unit × Engine :=
          if recursive then
            doDescendants ["filesystem", "volume"]
              (fun x e => checksnap snapname x e)
              (fun x e => dosnap host snapname props x e) none i ep
          else
            match checksnap snapname i ep with
            | .error er => (.error er, ep)
            | .ok _ => dosnap host snapname props i ep
        let e1 := { body.2 with txg := body.2.txg + 1, pendingTxg := 0 }
        match body.1 with
        | .error er => (.error er, e1)
        | .ok _ =>
          match e1.find? i with
          | none => (.error .assertError, e1)
          | some d1 =>
            match alGet d1.snapshots snapname with
            | none => (.error .assertError, e1)
            | some nid =>
              match d1.fscontent with
              | some c =>
                (.ok nid, updDs e1 nid (fun nd =>
                  { nd with fscontent := some c }))
              | none =>
                if parentMounted e1 d1 then
                  match mountpointGet e1 i with
                  | .error er => (.error er, e1)
                  | .ok none =>
                    -- A volume: archive(null) crashes in the source.
                    (.error .hostError, e1)
                  | .ok (some mp) =>
                    match host.archiveAt mp with
                    | none => (.error .hostError, e1)
                    | some c =>
                      (.ok nid, updDs e1 nid (fun nd =>
                        { nd with fscontent := some c }))
                else (.ok nid, e1)

/- Name utilities (getPoolname, getDataset, path.dirname, path.basename). -/

/-- path.dirname (posix): strip trailing slashes, drop the last component;
a name with no slash gives the dot directory. -/
def dirnameStr (s : String) : String :=
  let t := String.mk (s.data.reverse.dropWhile (fun c => c == '/')).reverse
  if t = "" then (if s = "" then "." else "/")
  else
    let parts := strSplit '/' t
    if parts.length = 1 then "."
    else
      let j := joinSlash parts.dropLast
      if j = "" then "/" else j

/-- path.basename (posix). -/
def basenameStr (s : String) : String :=
  let t := String.mk (s.data.reverse.dropWhile (fun c => c == '/')).reverse
  if t = "" then (if s = "" then "" else "/")
  else (strSplit '/' t).getLastD ""

/-- getPoolname on a string: the prefix up to the first slash or at sign. -/
def poolnameOfString (s : String) : String :=
  String.mk (s.data.takeWhile (fun c => !(c == '/' || c == '@')))

/-- getPoolname on a Dataset: walk the parent chain to the pools root and
return the last name (fueled; none on a broken or cyclic chain, where
the source loops or crashes). -/
def poolnameOfDs (l : List (Nat × Dataset)) : Nat → Nat → Option String
  | 0, _ => none
  | fuel + 1, i =>
    match lookupA l i with
    | none => none
    | some d =>
      match d.parent with
      | none => some d.dname
      | some p => poolnameOfDs l fuel p

/-- The split of a full name at the at sign, with the JavaScript
destructuring semantics: the part after the first at sign, where an
empty string counts as absent. -/
def splitAtSnap (fullname : String) : String × Option String :=
  match strSplit '@' fullname with
  | [] => ("", none)
  | [n] => (n, none)
  | n :: sn :: _ => (n, if sn = "" then none else some sn)

/-- getDataset(fullname): walk the children maps from the pools root along
the slash-separated components, then look up the snapshot part if
present. -/
def getDatasetE (e : Engine) (fullname : String) : Option Nat :=
  let (name, snapname) := splitAtSnap fullname
  let parts := strSplit '/' name
  let fsid := parts.foldl
    (fun (cur : Option (Option Nat)) part =>
      match cur with
      | none => none
      | some curId =>
        let kids :=
          match curId with
          | none => e.rootChildren
          | some ci =>
            match e.find? ci with
            | none => []
            | some cd => cd.children
        match alGet kids part with
        | none => none
        | some k => some (some k)) (some none)
  match fsid with
  | none => none
  | some none => none
  | some (some fid) =>
    match snapname with
    | none => some fid
    | some sn =>
      match e.find? fid with
      | none => none
      | some fd => alGet fd.snapshots sn

/-- getPools(). -/
def getPools (e : Engine) : List String :=
  e.rootChildren.map (fun p => p.1)

/-- The ancestor-search loop of clone with opts.parents: walk dirname-wise
toward the pool looking for an existing dataset, accumulating the names
to create.  Faithful to the source lag: the iteration that finds an
existing dataset has already pushed that same name onto the tocreate
list before the loop condition is re-checked.  Fueled (the source loops
forever when the dot directory is reached without matching the pool
name). -/
def cloneFindParent (e : Engine) (poolname : String) :
    Nat → String → List String → Option (Nat × List String)
  | 0, _, _ => none
  | fuel + 1, pname, tocreate =>
    if pname = poolname then
      match getDatasetE e pname with
      | none => none
      | some p => some (p, tocreate)
    else
      match getDatasetE e pname with
      | some p => some (p, tocreate ++ [pname])
      | none => cloneFindParent e poolname fuel (dirnameStr pname)
          (tocreate ++ [pname])

/-- The creation loop of clone with opts.parents: pop names from the end
of tocreate and create filesystems downward.  The argument here is the
tocreate list already reversed into pop order, so the head is the next
name to create. -/
def mkParents (host : HostFs) : List String → Nat → Engine →
    Except Err Nat × Engine
  | [], pds, e => (.ok pds, e)
  | pname :: rest, pds, e =>
    match mkDataset host (some pds) (basenameStr pname) .filesystem [] none e with
    | (.error er, e1) => (.error er, e1)
    | (.ok nid, e1) => mkParents host rest nid e1

/-- Dataset.clone(newname, opts, properties).  The pool-membership
assertion of the source is a self-assignment bug: the expression
newname.startsWith(myname.split(at)[0] = slash) tests only that newname
does not start with a slash, modelled exactly so.  Creates the new
dataset with the type of the parent of the snapshot and the fscontent
reference of the snapshot, then sets origin and pushes onto clones. -/
def cloneOp (host : HostFs) (i : Nat) (newname : String) (parents : Bool)
    (props : Props) (e : Engine) : Except Err Nat × Engine :=
  match e.find? i with
  | none => (.error .assertError, e)
  | some d =>
    match d.assertActive with
    | .error er => (.error er, e)
    | .ok _ =>
      if d.dtype ≠ .snapshot then (.error .datasetType, e)
      else
        match poolnameOfDs e.ds (e.ds.length + 1) i with
        | none => (.error .assertError, e)
        | some pool =>
          if pool ≠ poolnameOfString newname then
            (.error .invalidArgument, e)
          else if strStarts newname "/" then (.error .assertError, e)
          else
            let pname := dirnameStr newname
            match
              (match getDatasetE e pname with
               | some p => Except.ok (p, ([] : List String))
               | none =>
                 if ¬parents then Except.error Err.invalidArgument
                 else
                   match cloneFindParent e pool (newname.length + 2)
                       pname [] with
                   | none => Except.error Err.assertError
                   | some pr => Except.ok pr) with
            | .error er => (.error er, e)
            | .ok (p0, tocreate) =>
              match mkParents host tocreate.reverse p0 e with
              | (.error er, e1) => (.error er, e1)
              | (.ok pds, e1) =>
                let ptype :=
                  match d.parent with
                  | none => DsType.filesystem
                  | some pp =>
                    match e1.find? pp with
                    | none => DsType.filesystem
                    | some ppd => ppd.dtype
                match mkDataset host (some pds) (basenameStr newname) ptype
                    props d.fscontent e1 with
                | (.error er, e2) => (.error er, e2)
                | (.ok nid, e2) =>
                  let e3 := updDs e2 nid (fun nd => { nd with origin := some i })
                  let e4 := updDs e3 i (fun sd =>
                    { sd with clones := sd.clones ++ [nid] })
                  (.ok nid, e4)

/-- Dataset.hold(reason, opts).  Snapshot-only (the message of the source
talks about cloning, the name is DatasetTypeError); asserts the reason
absent; with recursive, a two-phase descent over the snapshots under the
parent filtered by equal relative name. -/
def holdOp (recursive : Bool) (reason : String) (i : Nat) (e : Engine) :
    Except Err Unit × Engine :=
  match e.find? i with
  | none => (.error .assertError, e)
  | some d =>
    match d.assertActive with
    | .error er => (.error er, e)
    | .ok _ =>
      if d.dtype ≠ .snapshot then (.error .datasetType, e)
      else if d.holds.contains reason then (.error .assertError, e)
      else
        let addhold := fun (x : Nat) (e : Engine) =>
          (Except.ok (), updDs e x (fun xd =>
            if xd.holds.contains reason then xd
            else { xd with holds := xd.holds ++ [reason] }))
        if recursive then
          match d.parent with
          | none => (.error .assertError, e)
          | some p =>
            doDescendants ["snapshot"] (fun _ _ => .ok ()) addhold
              (some (fun x e =>
                match e.find? x with
                | none => false
                | some xd => xd.dname == d.dname)) p e
        else addhold i e

/-- Dataset.release(reason, opts): the inverse of hold; asserts the reason
present on self. -/
def releaseOp (recursive : Bool) (reason : String) (i : Nat) (e : Engine) :
    Except Err Unit × Engine :=
  match e.find? i with
  | none => (.error .assertError, e)
  | some d =>
    match d.assertActive with
    | .error er => (.error er, e)
    | .ok _ =>
      if d.dtype ≠ .snapshot then (.error .datasetType, e)
      else if !(d.holds.contains reason) then (.error .assertError, e)
      else
        let rmhold := fun (x : Nat) (e : Engine) =>
          (Except.ok (), updDs e x (fun xd =>
            { xd with holds := xd.holds.filter (fun r => !(r == reason)) }))
        if recursive then
          match d.parent with
          | none => (.error .assertError, e)
          | some p =>
            doDescendants ["snapshot"] (fun _ _ => .ok ()) rmhold
              (some (fun x e =>
                match e.find? x with
                | none => false
                | some xd => xd.dname == d.dname)) p e
        else rmhold i e

/-- Dataset.holds(): a copy of the hold set of a snapshot. -/
def holdsOp (i : Nat) (e : Engine) : Except Err (List String) :=
  match e.find? i with
  | none => .error .assertError
  | some d =>
    match d.assertActive with
    | .error er => .error er
    | .ok _ =>
      if d.dtype ≠ .snapshot then .error .datasetType
      else .ok d.holds

/-- Dataset.rename(newname, opts).  Snapshot renames rekey the snapshot
map of the parent without updating the relative name of the object (as
in the source); filesystem and volume renames unlink, reparent, relink
and remount.  A missing new parent directory crashes in the source (a
TypeError on reading _children of null), modelled as assertError. -/
def renameOp (host : HostFs) (i : Nat) (newname : String) (parents : Bool)
    (e : Engine) : Except Err Unit × Engine :=
  match e.find? i with
  | none => (.error .assertError, e)
  | some d =>
    match d.assertActive with
    | .error er => (.error er, e)
    | .ok _ =>
      let mounted := d.mounted
      if (getDatasetE e newname).isSome then (.error .datasetExists, e)
      else
        let (name, snapname) := splitAtSnap newname
        match snapname with
        | some sn =>
          if d.dtype ≠ .snapshot then (.error .invalidArgument, e)
          else
            match d.parent with
            | none => (.error .assertError, e)
            | some p =>
              match fullName e.ds (e.ds.length + 1) p with
              | none => (.error .assertError, e)
              | some pn =>
                if name ≠ pn then (.error .invalidArgument, e)
                else
                  match e.find? p with
                  | none => (.error .assertError, e)
                  | some pd =>
                    if alGet pd.snapshots d.dname ≠ some i then
                      (.error .assertError, e)
                    else if (alGet pd.snapshots sn).isSome then
                      (.error .assertError, e)
                    else
                      (.ok (), updDs e p (fun pd =>
                        { pd with
                          snapshots := alDel (alPut pd.snapshots sn i) d.dname }))
        | none =>
          if d.dtype = .snapshot then (.error .invalidArgument, e)
          else if !(newname.data.any (fun c => c == '/')) then
            (.error .invalidArgument, e)
          else
            match poolnameOfDs e.ds (e.ds.length + 1) i with
            | none => (.error .assertError, e)
            | some pool =>
              if pool ≠ poolnameOfString newname then
                (.error .invalidArgument, e)
              else if parents then (.error .assertError, e)
              else
                match getDatasetE e (dirnameStr newname) with
                | none => (.error .assertError, e)
                | some p2 =>
                  let check1 : Bool :=
                    match d.parent with
                    | none => alGet e.rootChildren d.dname == some i
                    | some p =>
                      match e.find? p with
                      | none => false
                      | some pd => alGet pd.children d.dname == some i
                  if !check1 then (.error .assertError, e)
                  else
                    match e.find? p2 with
                    | none => (.error .assertError, e)
                    | some p2d =>
                      if (alGet p2d.children (basenameStr newname)).isSome then
                        (.error .assertError, e)
                      else
                        match
                          (if mounted then unmount host i e
                           else (.ok (), e)) with
                        | (.error er, e1) => (.error er, e1)
                        | (.ok _, e1) =>
                          let e2 :=
                            match d.parent with
                            | none =>
                              { e1 with
                                rootChildren := alDel e1.rootChildren d.dname }
                            | some p =>
                              updDs e1 p (fun pd =>
                                { pd with children := alDel pd.children d.dname })
                          let e3 := updDs e2 i (fun dd =>
                            { dd with parent := some p2,
                                      dname := basenameStr newname })
                          let e4 := updDs e3 p2 (fun pd =>
                            { pd with
                              children := alPut pd.children (basenameStr newname) i })
                          if mounted then mount host false i e4
                          else (.ok (), e4)

/-- destroyPool(poolname): walk all descendants in reverse, attempt to
unmount each mounted one swallowing errors, set pool_destroyed, then
remove the pool from the pools root. -/
def destroyPoolOp (host : HostFs) (poolname : String) (e : Engine) :
    Except Err Unit × Engine :=
  match alGet e.rootChildren poolname with
  | none => (.error .noSuchPool, e)
  | some pid =>
    match iterDesc e.ds ["all"] (defaultFuel e.ds) pid [] with
    | .error er => (.error er, e)
    | .ok (ys, _) =>
      match stepList (fun x e =>
          let e1 :=
            match e.find? x with
            | none => e
            | some xd =>
              if xd.mounted then (unmount host x e).2 else e
          (Except.ok (), updDs e1 x (fun xd =>
            { xd with state := .pool_destroyed }))) ys.reverse e with
      | (.error er, e1) => (.error er, e1)
      | (.ok _, e1) =>
        (.ok (), { e1 with rootChildren := alDel e1.rootChildren poolname })

/- The zpool.list facade call (mock-zfs.js).  The callback may be invoked
more than once (the guard lacks a return), so the model returns the list
of callback invocations in order: an error invocation, or a data
invocation carrying the fields row and the pool rows. -/

/-- One callback invocation of zpool.list. -/
inductive ListCall where
  | errCall (er : Err)
  | dataCall (fields : List String) (rows : List (List String))
  deriving DecidableEq, Repr

/-- The default field list zpool.listFields_. -/
def zpoolListFields : List String :=
  ["name", "size", "allocated", "free", "cap", "health", "altroot"]

/-- zpool.list(pool?, opts?, cb): the not-implemented guard fires only
when the field list has length other than one AND its first entry is not
the name token, and control falls through past it either way. -/
def zpoolList (pool : Option String) (optsFields : Option (List String))
    (e : Engine) : List ListCall :=
  let fields := optsFields.getD zpoolListFields
  let first :=
    if fields.length ≠ 1 ∧ fields.headD "" ≠ "name" then
      [ListCall.errCall .notImplementedE]
    else []
  let pools := getPools e
  first ++
    (match pool with
     | some p =>
       if !(pools.contains p) then [ListCall.errCall .hostError]
       else [ListCall.dataCall fields [[p]]]
     | none => [ListCall.dataCall fields (pools.map (fun x => [x]))])

/-- The public operations of the engine (the Dataset API plus the
registry destroyPool), as one call type for statements quantifying over
every operation. -/
inductive Op where
  | createC (parent : Option Nat) (name : String) (dtype : DsType)
      (props : Props) (fscontent : Option Nat)
  | mountC (i : Nat) (ignore : Bool)
  | unmountC (i : Nat)
  | destroyC (i : Nat) (recursive : Bool)
  | snapshotC (i : Nat) (snapname : String) (recursive : Bool) (props : Props)
  | cloneC (i : Nat) (newname : String) (parents : Bool) (props : Props)
  | renameC (i : Nat) (newname : String) (parents : Bool)
  | holdC (i : Nat) (reason : String) (recursive : Bool)
  | releaseC (i : Nat) (reason : String) (recursive : Bool)
  | setPropC (i : Nat) (pname : String) (v : PVal)
  | destroyPoolC (pool : String)
  deriving Repr

/-- Dispatch one operation, keeping only the resulting engine state (the
state is kept also when the operation raises). -/
def applyOp (host : HostFs) (op : Op) (e : Engine) : Engine :=
  match op with
  | .createC parent name dtype props fscontent =>
    (mkDataset host parent name dtype props fscontent e).2
  | .mountC i ignore => (mount host ignore i e).2
  | .unmountC i => (unmount host i e).2
  | .destroyC i recursive => (destroyDs host recursive i e).2
  | .snapshotC i snapname recursive props =>
    (snapshotOp host recursive snapname props i e).2
  | .cloneC i newname parents props =>
    (cloneOp host i newname parents props e).2
  | .renameC i newname parents => (renameOp host i newname parents e).2
  | .holdC i reason recursive => (holdOp recursive reason i e).2
  | .releaseC i reason recursive => (releaseOp recursive reason i e).2
  | .setPropC i pname v => (setProp host i pname v e).2
  | .destroyPoolC pool => (destroyPoolOp host pool e).2

/-- The clone/origin symmetry invariant: every entry of the clones array
of a snapshot names a dataset whose origin is that snapshot. -/
def cloneEdgesOk (l : List (Nat × Dataset)) : Prop :=
  ∀ i d, lookupA l i = some d → d.dtype = .snapshot →
    ∀ c ∈ d.clones, ∃ cd, lookupA l c = some cd ∧ cd.origin = some i

/-- Every arena key is below the allocation counter. -/
def keysUnder (n : Nat) (l : List (Nat × Dataset)) : Prop :=
  ∀ p ∈ l, p.1 < n

/-- Every clones entry is below the allocation counter. -/
def clUnder (n : Nat) (l : List (Nat × Dataset)) : Prop :=
  ∀ i d, lookupA l i = some d → ∀ c ∈ d.clones, c < n

/-- Every children / snapshots entry and every pools root child is below
the allocation counter. -/
def kidsUnder (n : Nat) (l : List (Nat × Dataset)) : Prop :=
  ∀ i d, lookupA l i = some d →
    (∀ q ∈ d.children, q.2 < n) ∧ (∀ q ∈ d.snapshots, q.2 < n)

/-- Well-formed allocation: all identities in the graph are below
nextId. -/
def refsFresh (e : Engine) : Prop :=
  keysUnder e.nextId e.ds ∧ clUnder e.nextId e.ds ∧
    kidsUnder e.nextId e.ds ∧ ∀ q ∈ e.rootChildren, q.2 < e.nextId

/- Concrete hosts and engine states used by witnesses and
counterexamples. -/

/-- A host filesystem on which every path is mockable, every directory is
empty or absent, and archiving a path yields its length. -/
def hostA : HostFs :=
  { isUnderMockFs := fun _ => true,
    readdirCount := fun _ => some 0,
    archiveAt := fun p => some p.length }

/-- A host filesystem with nothing mockable (mounts are silently skipped
under ignore_not_mountable). -/
def hostNone : HostFs :=
  { isUnderMockFs := fun _ => false,
    readdirCount := fun _ => none,
    archiveAt := fun _ => none }

/-- One pool named p, mounted at /p (identity 0). -/
def engPool : Engine :=
  (mkDataset hostA none "p" .filesystem [] none emptyEngine).2

/-- engPool plus a child filesystem p/a mounted at /p/a (identity 1). -/
def engPA : Engine :=
  (mkDataset hostA (some 0) "a" .filesystem [] none engPool).2

/-- engPA with p/a and then p unmounted and p/a remounted: p/a is mounted
while its parent p is not, and the fscontent slot of p/a is empty. -/
def engAMounted : Engine :=
  (mount hostA false 1 (unmount hostA 0 (unmount hostA 1 engPA).2).2).2

/-- engPool plus a snapshot p@s (identity 1) and a clone p/c of it
(identity 2): the clone is reachable both through the clones edge of the
snapshot and as a child of the pool. -/
def engClone : Engine :=
  (cloneOp hostA 1 "p/c" false []
    (snapshotOp hostA false "s" [] 0 engPool).2).2

/-- engPool plus a snapshot p@s (identity 1) carrying a hold tag1. -/
def engHeld : Engine :=
  (holdOp false "tag1" 1 (snapshotOp hostA false "snap1" [] 0 engPool).2).2

/-- engPA with p/a destroyed (identity 1 is in state destroyed). -/
def engDestroyed : Engine :=
  (destroyDs hostA false 1 engPA).2

/-- engPool plus a snapshot p@s (identity 1): the state just before a
clone. -/
def engSnap : Engine :=
  (snapshotOp hostA false "s" [] 0 engPool).2

/-- engClone with the clone p/c unmounted (identity 2 stays active and
keeps its origin edge). -/
def engCloneU : Engine :=
  (unmount hostA 2 engClone).2

/-- Executable form of the clone/origin symmetry invariant: every clones
entry of every snapshot record resolves to a record whose origin is that
snapshot. -/
def cloneEdgesChk (l : List (Nat × Dataset)) : Bool :=
  l.all (fun p =>
    if p.2.dtype = .snapshot then
      p.2.clones.all (fun c =>
        match lookupA l c with
        | some cd => cd.origin == some p.1
        | none => false)
    else true)

/-- The ancestor chain of a dataset: the records from self up to the
top-level dataset whose parent is the pools root (fueled; none on a
broken or cyclic parent chain). -/
def chainOf (l : List (Nat × Dataset)) : Nat → Nat → Option (List Dataset)
  | 0, _ => none
  | fuel + 1, i =>
    match lookupA l i with
    | none => none
    | some d =>
      match d.parent with
      | none => some [d]
      | some p => (chainOf l fuel p).map (fun ch => d :: ch)

/-- The claim-side search for the nearest chain element carrying a local
mountpoint: the names collected strictly below it, and its value. -/
def nearestLocal : List Dataset → Option (List String × String)
  | [] => none
  | d :: rest =>
    match d.localMountpoint with
    | some mp => some ([], mp)
    | none =>
      (nearestLocal rest).map (fun sm => (d.dname :: sm.1, sm.2))

/-- The mountpoint of a filesystem as the claim describes it, as a
function of its ancestor chain: the nearest local value joined with the
collected segments in reverse order when absolute; that value literally
when it is none or legacy; the root path of all segments when no
ancestor below the pools root has a local value. -/
def mountpointSpec (ch : List Dataset) : String :=
  match nearestLocal ch with
  | none => "/" ++ joinSlash ((ch.map (fun d => d.dname)).reverse)
  | some (segs, mp) =>
    if mp = "none" ∨ mp = "legacy" then mp
    else joinSegs mp segs.reverse

/-- engPA with an explicit local mountpoint /mnt set on p/a. -/
def engMP : Engine :=
  (setProp hostA 1 "mountpoint" (.s "/mnt") engPA).2

/-- What one traversal segment guarantees: the visited list only grows,
the yields are pairwise distinct, every yield is newly visited, and every
yield names an arena entry that passed the active assertion and the type
filter. -/
def iterPost (l : List (Nat × Dataset)) (types : List String)
    (visited ys vis : List Nat) : Prop :=
  visited ⊆ vis ∧ ys.Nodup ∧ (∀ y ∈ ys, y ∈ vis ∧ y ∉ visited) ∧
    (∀ y ∈ ys, ∃ d, lookupA l y = some d ∧
      (d.state = .active ∨ d.state = .creating) ∧
      (types.contains "all" = true ∨
        types.contains (typeTok d.dtype) = true))

/-- Same graph collections on a record: the children, snapshots and
clones of two versions of one object agree. -/
def sameColls (d d' : Dataset) : Prop :=
  d'.children = d.children ∧ d'.snapshots = d.snapshots ∧
    d'.clones = d.clones

/-- A step that leaves the graph collections of every object and the
pools root children untouched (it may change flags, local properties,
the mount table, the counters). -/
def collFrame (e e' : Engine) : Prop :=
  e'.rootChildren = e.rootChildren ∧
  ∀ j, (e.find? j = none ∧ e'.find? j = none) ∨
    (∃ d d', e.find? j = some d ∧ e'.find? j = some d' ∧ sameColls d d')

/-- Agreement on every Dataset field except the local property slots
(the slots a property setter may write). -/
def dataFrame (d d' : Dataset) : Prop :=
  d'.dname = d.dname ∧ d'.parent = d.parent ∧ d'.dtype = d.dtype ∧
  d'.state = d.state ∧ d'.createtxg = d.createtxg ∧
  d'.mounted = d.mounted ∧ d'.fscontent = d.fscontent ∧
  d'.children = d.children ∧ d'.snapshots = d.snapshots ∧
  d'.holds = d.holds ∧ d'.clones = d.clones ∧ d'.origin = d.origin

/-- A step that can only touch the record at identity i and the mount
table: every other record, the pools root and the counters are
untouched. -/
def tch (i : Nat) (e e' : Engine) : Prop :=
  e'.rootChildren = e.rootChildren ∧ e'.nextId = e.nextId ∧
  e'.txg = e.txg ∧ e'.pendingTxg = e.pendingTxg ∧
  ∀ j, j ≠ i → e'.find? j = e.find? j

/-- One engine step as seen by the clone/origin edges: identities are
allocated monotonically, every surviving record keeps its origin and its
variant and loses at most clones entries, and every fresh record has an
empty clones array.  Holds for every operation except clone itself
(which adds a clones entry and sets an origin). -/
def grow (e e' : Engine) : Prop :=
  e.nextId ≤ e'.nextId ∧
  ∀ j, e'.find? j = e.find? j ∨
    (∃ d d', e.find? j = some d ∧ e'.find? j = some d' ∧
      d'.origin = d.origin ∧ d'.dtype = d.dtype ∧
      ∀ c ∈ d'.clones, c ∈ d.clones) ∨
    (e.find? j = none ∧ j < e'.nextId ∧
      ∃ d', e'.find? j = some d' ∧ d'.clones = [])

/- Theorems. -/

set_option maxRecDepth 8000

/-- Claim C7: namecheck raises DatasetNameError exactly when the name is
empty, longer than 255 characters, or contains a character outside
letters, digits, hyphen, underscore, dot, colon and space (the
not-a-string arm is enforced by typing); a 255-character name of allowed
characters is accepted, a 256-character name and the empty name are
rejected. -/
theorem C7_namecheck :
    (∀ s : String,
      namecheck s = .error .datasetName ↔
        (s = "" ∨ 255 < s.length ∨
          ∃ c ∈ s.data,
            ¬(('a' ≤ c ∧ c ≤ 'z') ∨ ('A' ≤ c ∧ c ≤ 'Z') ∨
              ('0' ≤ c ∧ c ≤ '9') ∨ c = '-' ∨ c = '_' ∨ c = '.' ∨
              c = ':' ∨ c = ' '))) ∧
    namecheck (String.mk (List.replicate 255 'a')) = .ok () ∧
    namecheck (String.mk (List.replicate 256 'a')) = .error .datasetName ∧
    namecheck "" = .error .datasetName := by
  refine ⟨fun s => ?_, by rfl, by rfl, by rfl⟩
  have hchar : ∀ c : Char, allowedChar c = true ↔
      (('a' ≤ c ∧ c ≤ 'z') ∨ ('A' ≤ c ∧ c ≤ 'Z') ∨
        ('0' ≤ c ∧ c ≤ '9') ∨ c = '-' ∨ c = '_' ∨ c = '.' ∨
        c = ':' ∨ c = ' ') := by
    intro c
    simp [allowedChar, Bool.or_eq_true, Bool.and_eq_true,
      decide_eq_true_iff, beq_iff_eq, or_assoc]
  have hempty : s.length = 0 ↔ s = "" := by
    constructor
    · intro h
      cases s with
      | mk data =>
        have hd : data = [] := List.length_eq_zero.mp h
        subst hd; rfl
    · intro h; subst h; rfl
  by_cases h1 : s.length = 0 ∨ 255 < s.length
  · have hraise : namecheck s = .error .datasetName := by
      unfold namecheck
      have hc : (s.length == 0 || decide (255 < s.length)) = true := by
        rcases h1 with h | h
        · simp [h]
        · simp [h]
      simp [hc]
    refine iff_of_true hraise ?_
    rcases h1 with h | h
    · exact Or.inl (hempty.mp h)
    · exact Or.inr (Or.inl h)
  · push_neg at h1
    obtain ⟨hz, hlen⟩ := h1
    have hcond : (s.length == 0 || decide (255 < s.length)) = false := by
      have : ¬(255 < s.length) := Nat.not_lt.mpr hlen
      simp [hz, this]
    by_cases h2 : s.data.all allowedChar
    · have hok : namecheck s = .ok () := by
        unfold namecheck
        simp [hcond, h2]
      refine iff_of_false (by rw [hok]; simp) ?_
      rintro (h | h | ⟨c, hc, hbad⟩)
      · exact hz (by simp [h])
      · exact absurd h (Nat.not_lt.mpr hlen)
      · exact hbad ((hchar c).mp (List.all_eq_true.mp h2 c hc))
    · have hraise : namecheck s = .error .datasetName := by
        unfold namecheck
        simp [hcond, h2]
      refine iff_of_true hraise ?_
      refine Or.inr (Or.inr ?_)
      rw [List.all_eq_true] at h2
      push_neg at h2
      obtain ⟨c, hc, hbad⟩ := h2
      exact ⟨c, hc, fun hsp => hbad (by simp [(hchar c).mpr hsp])⟩

/-- Claim C9 (evidence of the code bug): with opts.fields = [size] on an
existing pool p the callback receives the data row (null, [size], [[p]])
and no error at all, because the not-implemented guard tests
fields.length != 1 AND fields[0] != name (and also lacks a return); with
opts.fields = [name] the callback receives (null, [name], [[p]]). -/
theorem C9_zpool_list_eval :
    zpoolList (some "p") (some ["size"]) engPool =
      [ListCall.dataCall ["size"] [["p"]]] ∧
    zpoolList (some "p") (some ["name"]) engPool =
      [ListCall.dataCall ["name"] [["p"]]] := by
  constructor
  · decide
  · decide

lemma iterPost_refl (l : List (Nat × Dataset)) (types : List String)
    (visited : List Nat) : iterPost l types visited [] visited := by
  refine ⟨fun x hx => hx, List.nodup_nil, ?_, ?_⟩
  · intro y hy; cases hy
  · intro y hy; cases hy

lemma iterPost_mono (l : List (Nat × Dataset)) (types : List String)
    (visited vis : List Nat) (h : visited ⊆ vis) :
    iterPost l types visited [] vis := by
  refine ⟨h, List.nodup_nil, ?_, ?_⟩
  · intro y hy; cases hy
  · intro y hy; cases hy

lemma iterPost_append (l : List (Nat × Dataset)) (types : List String)
    (visited v1 v2 : List Nat) (ys1 ys2 : List Nat)
    (h1 : iterPost l types visited ys1 v1)
    (h2 : iterPost l types v1 ys2 v2) :
    iterPost l types visited (ys1 ++ ys2) v2 := by
  obtain ⟨hs1, hn1, hy1, hi1⟩ := h1
  obtain ⟨hs2, hn2, hy2, hi2⟩ := h2
  refine ⟨fun x hx => hs2 (hs1 hx), ?_, ?_, ?_⟩
  · rw [List.nodup_append]
    exact ⟨hn1, hn2, fun a ha hb => (hy2 a hb).2 (hy1 a ha).1⟩
  · intro y hy
    rcases List.mem_append.mp hy with h | h
    · exact ⟨hs2 (hy1 y h).1, (hy1 y h).2⟩
    · exact ⟨(hy2 y h).1, fun hc => (hy2 y h).2 (hs1 hc)⟩
  · intro y hy
    rcases List.mem_append.mp hy with h | h
    · exact hi1 y h
    · exact hi2 y h

lemma assertActive_ok {d : Dataset} {u : Unit}
    (h : d.assertActive = .ok u) :
    d.state = .active ∨ d.state = .creating := by
  unfold Dataset.assertActive at h
  split at h
  · assumption
  · cases h

/-- What a productive framePre tells us. -/
lemma framePre_some {l : List (Nat × Dataset)} {types : List String}
    {i : Nat} {visited sy order vis1 : List Nat}
    (h : framePre l types i visited = .ok (some (sy, order, vis1))) :
    vis1 = visited ++ [i] ∧ i ∉ visited ∧
      ∃ d, lookupA l i = some d ∧
        (d.state = .active ∨ d.state = .creating) ∧
        (sy = [] ∨ (sy = [i] ∧
          (types.contains "all" = true ∨
            types.contains (typeTok d.dtype) = true))) := by
  unfold framePre at h
  split at h
  · cases h
  · rename_i d hl
    split at h
    · cases h
    · rename_i u ha
      split at h
      · cases h
      · split at h
        · cases h
        · split at h
          · cases h
          · rename_i hcont
            simp only [Except.ok.injEq, Option.some.injEq,
              Prod.mk.injEq] at h
            obtain ⟨h1, h2, h3⟩ := h
            subst h3
            refine ⟨rfl, ?_, d, hl, assertActive_ok ha, ?_⟩
            · intro hc
              exact hcont (by
                simpa [List.contains] using List.elem_eq_true_of_mem hc)
            · subst h1
              split
              · rename_i hyld
                refine Or.inr ⟨rfl, ?_⟩
                rcases (Bool.or_eq_true _ _).mp hyld with hx | hx
                · exact Or.inl hx
                · exact Or.inr hx
              · exact Or.inl rfl

/-- The traversal invariant of iterGo: on success the result satisfies
iterPost. -/
lemma iterGo_post (l : List (Nat × Dataset)) (types : List String) :
    ∀ (fuel : Nat) (ids visited ys vis : List Nat),
      iterGo l types fuel ids visited = .ok (ys, vis) →
      iterPost l types visited ys vis := by
  intro fuel
  induction fuel with
  | zero =>
    intro ids visited ys vis h
    simp [iterGo] at h
  | succ f ih =>
    intro ids visited ys vis h
    match ids with
    | [] =>
      simp [iterGo] at h
      obtain ⟨rfl, rfl⟩ := h
      exact iterPost_refl l types visited
    | i :: rest =>
      simp only [iterGo] at h
      split at h
      · cases h
      · exact ih rest visited ys vis h
      · rename_i sy order vis1 hpre
        split at h
        · cases h
        · rename_i ys1 v2 hsub
          split at h
          · cases h
          · rename_i ys2 v3 hrest
            simp only [Except.ok.injEq, Prod.mk.injEq] at h
            obtain ⟨h1, h2⟩ := h
            subst h1; subst h2
            obtain ⟨hv1, hnotv, d, hl, hstate, hsy⟩ := framePre_some hpre
            subst hv1
            have hself : iterPost l types visited sy (visited ++ [i]) := by
              rcases hsy with rfl | ⟨rfl, hyld⟩
              · exact iterPost_mono l types _ _ (by simp)
              · refine ⟨by simp, List.nodup_singleton i, ?_, ?_⟩
                · intro y hy
                  rw [List.mem_singleton] at hy
                  subst hy
                  exact ⟨by simp, hnotv⟩
                · intro y hy
                  rw [List.mem_singleton] at hy
                  subst hy
                  exact ⟨d, hl, hstate, hyld⟩
            rw [List.append_assoc]
            exact iterPost_append l types visited (visited ++ [i]) v3 sy
              (ys1 ++ ys2) hself
              (iterPost_append l types (visited ++ [i]) v2 v3 ys1 ys2
                (ih order (visited ++ [i]) ys1 v2 hsub)
                (ih rest v2 ys2 v3 hrest))

/-- Claim C6: for every dataset and every valid types argument (token
subset containing at least one dataset type), iterDescendants yields each
Dataset at most once over the whole iteration, clone edges included. -/
theorem C6_iterDescendants_no_duplicates
    (l : List (Nat × Dataset)) (types : List String) (fuel i : Nat)
    (ys vis : List Nat)
    (_hok : ∀ t ∈ types, oktype t = true)
    (_hsome : types.contains "all" = true ∨
      types.contains "filesystem" = true ∨
      types.contains "volume" = true ∨
      types.contains "snapshot" = true)
    (h : iterDesc l types fuel i [] = .ok (ys, vis)) :
    ys.Nodup :=
  (iterGo_post l types fuel [i] [] ys vis h).2.1

/-- Witness for C6 on a graph with a clone edge circling back into the
traversed subtree. -/
theorem C6_witness : ([0, 1, 2] : List Nat).Nodup :=
  C6_iterDescendants_no_duplicates engClone.ds ["all", "clones"]
    (defaultFuel engClone.ds) 0 [0, 1, 2] [0, 1, 2]
    (by decide) (by decide) (by decide)

lemma checkDestroy_true_cases (d : Dataset) :
    checkDestroy true d = .ok () ∨ checkDestroy true d = .error .snapshotHold := by
  unfold checkDestroy
  split
  · exact Or.inr rfl
  · split
    · rename_i hc
      exact absurd hc (by simp)
    · exact Or.inl rfl

lemma firstErr_mem_error {α : Type} (chk : α → Except Err Unit) (E : Err)
    (l : List α)
    (hall : ∀ x ∈ l, chk x = .ok () ∨ chk x = .error E)
    (hex : ∃ x ∈ l, chk x = .error E) :
    firstErr chk l = .error E := by
  induction l with
  | nil => obtain ⟨x, hx, _⟩ := hex; cases hx
  | cons a rest ih =>
    rcases hall a (by simp) with ha | ha
    · have : firstErr chk rest = .error E := by
        apply ih
        · intro x hx; exact hall x (by simp [hx])
        · obtain ⟨x, hx, hxe⟩ := hex
          rcases List.mem_cons.mp hx with rfl | hx
          · rw [ha] at hxe; cases hxe
          · exact ⟨x, hx, hxe⟩
      simp [firstErr, ha, this]
    · simp [firstErr, ha]

/-- Claim C1: a destroy call (with or without opts.recursive) in which
some target snapshot (self, or a descendant reached through
iterDescendants with the all token when recursive) has a nonempty hold
set raises SnapshotHoldError and returns with the engine exactly as it
was: every target keeps its state and registration and nothing is
unmounted or destroyed, because every check precedes every mutation. -/
theorem C1_destroy_hold_all_or_nothing
    (host : HostFs) (recursive : Bool) (i : Nat) (e : Engine) (d : Dataset)
    (hfind : e.find? i = some d)
    (hactive : d.state = .active)
    (htarget :
      if recursive then
        ∃ ys vis,
          iterDesc e.ds ["all"] (defaultFuel e.ds) i [] = .ok (ys, vis) ∧
          ∃ s sd, s ∈ ys ∧ e.find? s = some sd ∧ sd.dtype = .snapshot ∧
            sd.holds ≠ []
      else d.dtype = .snapshot ∧ d.holds ≠ []) :
    destroyDs host recursive i e = (.error .snapshotHold, e) := by
  have hassert : d.assertActive = .ok () := by
    unfold Dataset.assertActive
    rw [if_pos (Or.inl hactive)]
  cases recursive with
  | false =>
    rw [if_neg (by simp)] at htarget
    have hchk : checkDestroy false d = .error .snapshotHold := by
      unfold checkDestroy
      rw [if_pos htarget]
    unfold destroyDs
    rw [if_neg (by simp)]
    unfold destroy1
    rw [hfind]
    simp only [hassert, hchk]
  | true =>
    rw [if_pos (by simp)] at htarget
    obtain ⟨ys, vis, hiter, s, sd, hsmem, hsfind, hstype, hsholds⟩ := htarget
    unfold destroyDs
    rw [if_pos (by simp)]
    unfold destroyRec
    rw [hfind]
    simp only [hassert]
    rcases checkDestroy_true_cases d with hchk | hchk
    · rw [hchk]
      simp only [hiter]
      have hsne : s ≠ i := by
        intro hc
        subst hc
        rw [hfind] at hsfind
        injection hsfind with hsd
        subst hsd
        have : checkDestroy true d = .error .snapshotHold := by
          unfold checkDestroy
          rw [if_pos ⟨hstype, hsholds⟩]
        rw [this] at hchk
        cases hchk
      have hfe : firstErr (fun x =>
          match e.find? x with
          | none => Except.ok ()
          | some xd => checkDestroy true xd) (ys.filter (fun x => !(x == i))) =
          .error .snapshotHold := by
        apply firstErr_mem_error
        · intro x _
          cases hx : e.find? x with
          | none => exact Or.inl rfl
          | some xd =>
            simpa using checkDestroy_true_cases xd
        · refine ⟨s, ?_, ?_⟩
          · rw [List.mem_filter]
            exact ⟨hsmem, by simp [hsne]⟩
          · rw [hsfind]
            show checkDestroy true sd = .error .snapshotHold
            unfold checkDestroy
            rw [if_pos ⟨hstype, hsholds⟩]
      simp only [hfe]
    · rw [hchk]

/-- Witness for C1 at a concrete call: a recursive destroy of a pool whose
snapshot carries a hold. -/
theorem C1_witness :
    destroyDs hostA true 0 engHeld = (.error .snapshotHold, engHeld) := by
  apply C1_destroy_hold_all_or_nothing hostA true 0 engHeld
    (Engine.find? engHeld 0).iget
  · decide
  · decide
  · rw [if_pos (by simp)]
    refine ⟨[0, 1], [0, 1], by decide, 1, (Engine.find? engHeld 1).iget,
      by decide, by decide, by decide, by decide⟩

lemma assertActive_inactive {d : Dataset}
    (h : d.state = .destroyed ∨ d.state = .pool_destroyed) :
    d.assertActive = .error .inactiveDataset := by
  unfold Dataset.assertActive
  rw [if_neg]
  rintro (h1 | h1) <;> rcases h with h2 | h2 <;> rw [h2] at h1 <;> cases h1

/-- Claim C8 as amended: on a dataset in state destroyed or
pool_destroyed every operation fails with InactiveDatasetError (mount,
unmount, destroy, snapshot, clone, rename, hold, release, holds,
iterating iterDescendants, and setting any supported or read-only
property), and the mounted property read succeeds; the claim's original
"every property read succeeds" is false, because every other getter
guards with the active assertion (see the counterexample on the type
getter). -/
theorem C8_inactive_dataset_behavior
    (host : HostFs) (i : Nat) (e : Engine) (d : Dataset)
    (hfind : e.find? i = some d)
    (hstate : d.state = .destroyed ∨ d.state = .pool_destroyed) :
    (∀ ignore, mount host ignore i e = (.error .inactiveDataset, e)) ∧
    unmount host i e = (.error .inactiveDataset, e) ∧
    (∀ r, destroyDs host r i e = (.error .inactiveDataset, e)) ∧
    (∀ r sn props,
      snapshotOp host r sn props i e = (.error .inactiveDataset, e)) ∧
    (∀ nn p props,
      cloneOp host i nn p props e = (.error .inactiveDataset, e)) ∧
    (∀ nn p, renameOp host i nn p e = (.error .inactiveDataset, e)) ∧
    (∀ r reason, holdOp r reason i e = (.error .inactiveDataset, e)) ∧
    (∀ r reason, releaseOp r reason i e = (.error .inactiveDataset, e)) ∧
    holdsOp i e = .error .inactiveDataset ∧
    (∀ types fuel,
      iterDesc e.ds types (fuel + 1) i [] = .error .inactiveDataset) ∧
    (∀ pname v,
      pname ∈ ["atime", "canmount", "checksum", "compression", "copies",
        "mountpoint", "quota"] ++ readOnlyProps →
      setProp host i pname v e = (.error .inactiveDataset, e)) ∧
    mountedGet e i = .ok d.mounted := by
  have ha := assertActive_inactive hstate
  have hfind2 : lookupA e.ds i = some d := hfind
  refine ⟨?_, ?_, ?_, ?_, ?_, ?_, ?_, ?_, ?_, ?_, ?_, ?_⟩
  · intro ignore; simp [mount, hfind, ha]
  · simp [unmount, hfind, ha]
  · intro r
    cases r
    · simp [destroyDs, destroy1, hfind, ha]
    · simp [destroyDs, destroyRec, hfind, ha]
  · intro r sn props; simp [snapshotOp, hfind, ha]
  · intro nn p props; simp [cloneOp, hfind, ha]
  · intro nn p; simp [renameOp, hfind, ha]
  · intro r reason; simp [holdOp, hfind, ha]
  · intro r reason; simp [releaseOp, hfind, ha]
  · simp [holdsOp, hfind, ha]
  · intro types fuel
    simp [iterDesc, iterGo, framePre, hfind2, ha]
  · intro pname v hmem
    fin_cases hmem <;>
      simp [setProp, setEnumProp, setCopies, setMountpoint, setQuota,
        setReadOnlyProp, typeGet, readOnlyProps, hfind, ha]
  · simp [mountedGet, hfind]

/-- Counterexample to C8 as stated: on a concrete destroyed dataset the
type property read raises InactiveDatasetError instead of succeeding
(the original claim said every property read succeeds). -/
theorem C8_counterexample :
    (engDestroyed.find? 1).map (fun d => d.state) = some .destroyed ∧
    typeGet engDestroyed 1 = .error .inactiveDataset := by
  constructor
  · decide
  · decide

/-- Witness for C8 at a concrete destroyed dataset. -/
theorem C8_witness :
    holdsOp 1 engDestroyed = .error .inactiveDataset ∧
    mountedGet engDestroyed 1 = .ok false := by
  have h := C8_inactive_dataset_behavior hostA 1 engDestroyed
    (Engine.find? engDestroyed 1).iget (by decide) (by decide)
  refine ⟨h.2.2.2.2.2.2.2.2.1, ?_⟩
  have h2 := h.2.2.2.2.2.2.2.2.2.2.2
  rw [h2]
  decide

lemma nearestLocal_mem :
    ∀ (ch : List Dataset) (segs : List String) (mp : String),
      nearestLocal ch = some (segs, mp) →
      ∃ a ∈ ch, a.localMountpoint = some mp := by
  intro ch
  induction ch with
  | nil => intro segs mp h; cases h
  | cons d rest ih =>
    intro segs mp h
    unfold nearestLocal at h
    split at h
    · rename_i mp2 hl
      injection h with h
      injection h with h1 h2
      subst h2
      exact ⟨d, by simp, hl⟩
    · rename_i hl
      cases hr : nearestLocal rest with
      | none => rw [hr] at h; cases h
      | some sm =>
        rw [hr] at h
        injection h with h
        obtain ⟨a, ha, hmp⟩ := ih sm.1 sm.2 hr
        have : sm.2 = mp := by
          have := congrArg Prod.snd h
          simpa using this
        subst this
        exact ⟨a, by simp [ha], hmp⟩

/-- The mountpoint while-loop, described through the ancestor chain. -/
lemma mpWalk_chain (l : List (Nat × Dataset)) :
    ∀ (fuel i : Nat) (ch : List Dataset) (trail : List String),
      chainOf l fuel i = some ch →
      mpWalk l fuel i trail =
        match nearestLocal ch with
        | some (segs, mp) => some (some mp, trail ++ segs)
        | none => some (none, trail ++ ch.map (fun d => d.dname)) := by
  intro fuel
  induction fuel with
  | zero => intro i ch trail h; cases h
  | succ f ih =>
    intro i ch trail h
    rw [chainOf] at h
    cases hl : lookupA l i with
    | none => simp [hl] at h
    | some d =>
      simp only [hl] at h
      cases hmp : d.localMountpoint with
      | some mp =>
        cases hp : d.parent with
        | none =>
          simp only [hp, Option.some.injEq] at h
          subst h
          simp [mpWalk, hl, hmp, nearestLocal]
        | some p =>
          simp only [hp] at h
          cases hch : chainOf l f p with
          | none => simp [hch] at h
          | some ch2 =>
            simp only [hch, Option.map_some', Option.some.injEq] at h
            subst h
            simp [mpWalk, hl, hmp, nearestLocal]
      | none =>
        cases hp : d.parent with
        | none =>
          simp only [hp, Option.some.injEq] at h
          subst h
          simp [mpWalk, hl, hmp, hp, nearestLocal]
        | some p =>
          simp only [hp] at h
          cases hch : chainOf l f p with
          | none => simp [hch] at h
          | some ch2 =>
            simp only [hch, Option.map_some', Option.some.injEq] at h
            subst h
            have hih := ih p ch2 (trail ++ [d.dname]) hch
            rw [mpWalk]
            simp only [hl, hmp, hp]
            rw [hih]
            cases hn : nearestLocal ch2 with
            | none =>
              simp [nearestLocal, hmp, hn]
            | some sm =>
              simp [nearestLocal, hmp, hn]

lemma strStarts_slash_ne (mp : String) (h : strStarts mp "/" = true) :
    ¬(mp = "none" ∨ mp = "legacy") := by
  rintro (rfl | rfl) <;> cases h

/-- Claim C5: for every active filesystem the mountpoint getter returns
the value described by the claim as a function of the ancestor chain
(nearest local value joined with the collected reversed segments when
absolute; the value literally when none or legacy; the root path of all
segments when no ancestor below the pools root has a local value); for
every snapshot and every volume it returns null.  The chain hypothesis
says the parent walk reaches the pools root, and the value hypothesis
says every local mountpoint in the chain was stored through the setter
(absolute, none or legacy). -/
theorem C5_mountpoint_getter
    (e : Engine) (i : Nat) (d : Dataset)
    (hfind : e.find? i = some d)
    (hactive : d.state = .active) :
    (d.dtype = .snapshot ∨ d.dtype = .volume →
      mountpointGet e i = .ok none) ∧
    (d.dtype = .filesystem →
      ∀ ch, chainOf e.ds (e.ds.length + 1) i = some ch →
      (∀ a ∈ ch, ∀ mp, a.localMountpoint = some mp →
        strStarts mp "/" = true ∨ mp = "none" ∨ mp = "legacy") →
      mountpointGet e i = .ok (some (mountpointSpec ch))) := by
  have hassert : d.assertActive = .ok () := by
    unfold Dataset.assertActive
    rw [if_pos (Or.inl hactive)]
  constructor
  · intro htype
    unfold mountpointGet
    rw [hfind]
    simp only [hassert]
    rw [if_pos]
    rcases htype with h | h <;> rw [h] <;> intro hc <;> cases hc
  · intro htype ch hch hvals
    unfold mountpointGet
    rw [hfind]
    simp only [hassert, htype]
    rw [if_neg (by intro hc; exact hc rfl)]
    rw [mpWalk_chain e.ds (e.ds.length + 1) i ch [] hch]
    unfold mountpointSpec
    cases hn : nearestLocal ch with
    | none => simp
    | some sm =>
      obtain ⟨segs, mp⟩ := sm
      simp only [List.nil_append]
      obtain ⟨a, hamem, haloc⟩ := nearestLocal_mem ch segs mp hn
      rcases hvals a hamem mp haloc with habs | hnl
      · rw [if_pos habs]
        rw [if_neg (strStarts_slash_ne mp habs)]
      · have : strStarts mp "/" = false := by
          rcases hnl with rfl | rfl <;> rfl
        rw [this]
        simp only [Bool.false_eq_true, if_false]
        rw [if_pos hnl]

/-- Witness for C5 at concrete datasets: a snapshot returns null; a
filesystem with a local mountpoint /mnt returns it; the same filesystem
before the property was set returns the inherited root path /p/a. -/
theorem C5_witness :
    mountpointGet engHeld 1 = .ok none ∧
    mountpointGet engMP 1 = .ok (some "/mnt") ∧
    mountpointGet engPA 1 = .ok (some "/p/a") := by
  refine ⟨?_, ?_, ?_⟩
  · have h := C5_mountpoint_getter engHeld 1
      (Engine.find? engHeld 1).iget (by decide) (by decide)
    exact h.1 (by decide)
  · have h := C5_mountpoint_getter engMP 1
      (Engine.find? engMP 1).iget (by decide) (by decide)
    have h2 := h.2 (by decide)
      ((chainOf engMP.ds (engMP.ds.length + 1) 1).iget) (by decide)
      (by decide)
    rw [h2]
    decide
  · have h := C5_mountpoint_getter engPA 1
      (Engine.find? engPA 1).iget (by decide) (by decide)
    have h2 := h.2 (by decide)
      ((chainOf engPA.ds (engPA.ds.length + 1) 1).iget) (by decide)
      (by decide)
    rw [h2]
    decide

/- Arena access lemmas. -/

lemma lookupA_map_upd (l : List (Nat × Dataset)) (j : Nat)
    (f : Dataset → Dataset) (i : Nat) :
    lookupA (l.map (fun p => if p.1 == j then (p.1, f p.2) else p)) i =
      (lookupA l i).map (fun d => if i = j then f d else d) := by
  induction l with
  | nil => rfl
  | cons p rest ih =>
    obtain ⟨k, d⟩ := p
    by_cases hki : k = i
    · subst hki
      by_cases hkj : k = j
      · subst hkj
        simp [lookupA, List.find?]
      · have hkj2 : ¬(k = j) := hkj
        simp [lookupA, List.find?, hkj2]
    · have hki2 : (k == i) = false := by simpa using hki
      by_cases hkj : k = j
      · subst hkj
        simpa [lookupA, List.find?, hki2] using ih
      · simpa [lookupA, List.find?, hki2, hkj] using ih

lemma find_updDs (e : Engine) (j : Nat) (f : Dataset → Dataset) (i : Nat) :
    (updDs e j f).find? i =
      (e.find? i).map (fun d => if i = j then f d else d) := by
  unfold updDs Engine.find?
  exact lookupA_map_upd e.ds j f i

lemma find_updDs_ne (e : Engine) (j : Nat) (f : Dataset → Dataset) (i : Nat)
    (h : i ≠ j) : (updDs e j f).find? i = e.find? i := by
  rw [find_updDs]
  cases e.find? i with
  | none => rfl
  | some d => simp [h]

lemma find_updDs_self (e : Engine) (j : Nat) (f : Dataset → Dataset)
    (d : Dataset) (h : e.find? j = some d) :
    (updDs e j f).find? j = some (f d) := by
  rw [find_updDs, h]
  simp

lemma lookupA_append_cases (l : List (Nat × Dataset)) (n : Nat)
    (d0 : Dataset) (j : Nat) :
    lookupA (l ++ [(n, d0)]) j =
      match lookupA l j with
      | some x => some x
      | none => if j = n then some d0 else none := by
  induction l with
  | nil =>
    simp only [List.nil_append, lookupA, List.find?]
    by_cases h : j = n
    · subst h; simp
    · have : (n == j) = false := by simpa using fun hc => h hc.symm
      simp [this, h]
  | cons p rest ih =>
    obtain ⟨k, x⟩ := p
    by_cases hk : k = j
    · subst hk
      simp [lookupA, List.find?]
    · have hk2 : (k == j) = false := by simpa using hk
      simp only [List.cons_append, lookupA, List.find?, hk2]
      exact ih

lemma find_append (e : Engine) (d0 : Dataset) (n : Nat) (j : Nat) :
    (Engine.find? { e with ds := e.ds ++ [(n, d0)] } j) =
      match e.find? j with
      | some x => some x
      | none => if j = n then some d0 else none := by
  unfold Engine.find?
  exact lookupA_append_cases e.ds n d0 j

/- collFrame lemmas. -/

lemma collFrame_refl (e : Engine) : collFrame e e := by
  refine ⟨rfl, fun j => ?_⟩
  cases h : e.find? j with
  | none => exact Or.inl ⟨rfl, rfl⟩
  | some d => exact Or.inr ⟨d, d, rfl, rfl, rfl, rfl, rfl⟩

lemma collFrame_trans {e1 e2 e3 : Engine} (h1 : collFrame e1 e2)
    (h2 : collFrame e2 e3) : collFrame e1 e3 := by
  refine ⟨h2.1.trans h1.1, fun j => ?_⟩
  rcases h1.2 j with ⟨ha, hb⟩ | ⟨d, d', ha, hb, hc⟩
  · rcases h2.2 j with ⟨hc2, hd⟩ | ⟨x, x', hc2, hd, he⟩
    · exact Or.inl ⟨ha, hd⟩
    · rw [hb] at hc2; cases hc2
  · rcases h2.2 j with ⟨hc2, hd⟩ | ⟨x, x', hc2, hd, he⟩
    · rw [hb] at hc2; cases hc2
    · rw [hb] at hc2
      injection hc2 with heq
      subst heq
      exact Or.inr ⟨d, x', ha, hd,
        he.1.trans hc.1, he.2.1.trans hc.2.1, he.2.2.trans hc.2.2⟩

/-- updDs with a collections-preserving updater is a collFrame step. -/
lemma collFrame_updDs (e : Engine) (j : Nat) (f : Dataset → Dataset)
    (hf : ∀ d, sameColls d (f d)) : collFrame e (updDs e j f) := by
  refine ⟨rfl, fun k => ?_⟩
  rw [find_updDs]
  cases h : e.find? k with
  | none => exact Or.inl ⟨rfl, rfl⟩
  | some d =>
    refine Or.inr ⟨d, _, rfl, rfl, ?_⟩
    by_cases hk : k = j
    · simp only [hk, if_pos rfl]
      exact hf d
    · simp only [if_neg hk]
      exact ⟨rfl, rfl, rfl⟩

/-- A step that changes only the mount table or the counters is a
collFrame step. -/
lemma collFrame_of_ds_root_eq {e e' : Engine} (hds : e'.ds = e.ds)
    (hroot : e'.rootChildren = e.rootChildren) : collFrame e e' := by
  refine ⟨hroot, fun j => ?_⟩
  have : e'.find? j = e.find? j := by
    unfold Engine.find?
    rw [hds]
  rw [this]
  cases h : e.find? j with
  | none => exact Or.inl ⟨rfl, rfl⟩
  | some d => exact Or.inr ⟨d, d, rfl, rfl, rfl, rfl, rfl⟩

/- Error classification: none of the steps a constructor runs before its
duplicate-sibling check can raise DatasetExistsError. -/

lemma assertActive_err {d : Dataset} {er : Err}
    (h : d.assertActive = .error er) : er = .inactiveDataset := by
  unfold Dataset.assertActive at h
  split at h
  · cases h
  · injection h with h; exact h.symm

lemma getCanmount_err {e : Engine} {i : Nat} {er : Err}
    (h : getCanmount e i = .error er) : er ≠ .datasetExists := by
  unfold getCanmount at h
  split at h
  · injection h with h; subst h; decide
  · split at h
    · rename_i er2 ha
      injection h with h
      subst h
      rw [assertActive_err ha]
      decide
    · split at h
      · cases h
      · injection h with h; subst h; decide

lemma mountpointGet_err {e : Engine} {i : Nat} {er : Err}
    (h : mountpointGet e i = .error er) : er ≠ .datasetExists := by
  unfold mountpointGet at h
  split at h
  · injection h with h; subst h; decide
  · split at h
    · rename_i er2 ha
      injection h with h
      subst h
      rw [assertActive_err ha]
      decide
    · split at h
      · cases h
      · split at h
        · injection h with h; subst h; decide
        · cases h
        · split at h <;> cases h

lemma typeGet_err {e : Engine} {i : Nat} {er : Err}
    (h : typeGet e i = .error er) : er ≠ .datasetExists := by
  unfold typeGet at h
  split at h
  · injection h with h; subst h; decide
  · split at h
    · rename_i er2 ha
      injection h with h
      subst h
      rw [assertActive_err ha]
      decide
    · cases h

lemma unmount_ne_exists {host : HostFs} {i : Nat} {e : Engine} {er : Err}
    {e2 : Engine} (h : unmount host i e = (.error er, e2)) :
    er ≠ .datasetExists := by
  unfold unmount at h
  split at h
  · injection h with h1 h2; injection h1 with h1; subst h1; decide
  · split at h
    · rename_i er2 ha
      injection h with h1 h2
      injection h1 with h1
      subst h1
      rw [assertActive_err ha]
      decide
    · split at h
      · cases h
      · split at h
        · rename_i er2 hmp
          injection h with h1 h2
          injection h1 with h1
          subst h1
          exact mountpointGet_err hmp
        · injection h with h1 h2; injection h1 with h1; subst h1; decide
        · split at h
          · injection h with h1 h2; injection h1 with h1; subst h1; decide
          · split at h
            · injection h with h1 h2; injection h1 with h1; subst h1
              decide
            · cases h

lemma notMountableRes_err {ign : Bool} {e : Engine} {er : Err}
    {e2 : Engine} (h : notMountableRes ign e = (.error er, e2)) :
    er = .unmountable ∧ e2 = e := by
  unfold notMountableRes at h
  split at h
  · cases h
  · injection h with h1 h2
    injection h1 with h1
    exact ⟨h1.symm, h2.symm⟩

lemma mount_ne_exists {host : HostFs} {ign : Bool} {i : Nat} {e : Engine}
    {er : Err} {e2 : Engine} (h : mount host ign i e = (.error er, e2)) :
    er ≠ .datasetExists := by
  have hnm : ∀ e3 : Engine, notMountableRes ign e3 = (.error er, e2) →
      er ≠ .datasetExists := by
    intro e3 hh
    rw [(notMountableRes_err hh).1]
    decide
  unfold mount at h
  repeat' split at h
  all_goals
    first
      | exact hnm _ h
      | (injection h with h1 h2; injection h1 with h1; subst h1; decide)
      | (rename_i er2 hsub
         injection h with h1 h2
         injection h1 with h1
         subst h1
         first
           | exact getCanmount_err hsub
           | exact mountpointGet_err hsub
           | (rw [assertActive_err hsub]; decide))
      | simp at h

lemma namecheck_err {s : String} {er : Err} (h : namecheck s = .error er) :
    er = .datasetName := by
  unfold namecheck at h
  split at h
  · injection h with h; exact h.symm
  · split at h
    · injection h with h; exact h.symm
    · cases h

lemma parseHumanNumber_err {s : String} {er : Err}
    (h : parseHumanNumber s = .error er) : er = .badHumanNumber := by
  unfold parseHumanNumber at h
  repeat' split at h
  all_goals first
    | (injection h with h; exact h.symm)
    | cases h

lemma setEnumProp_ne_exists {valid : List String}
    {upd : String → Dataset → Dataset} {i : Nat} {v : PVal} {e : Engine}
    {er : Err} {e2 : Engine}
    (h : setEnumProp valid upd i v e = (.error er, e2)) :
    er ≠ .datasetExists := by
  unfold setEnumProp at h
  repeat' split at h
  all_goals first
    | (injection h with h1 h2; injection h1 with h1; subst h1; decide)
    | (rename_i er2 hsub
       injection h with h1 h2
       injection h1 with h1
       subst h1
       rw [assertActive_err hsub]
       decide)
    | simp at h

lemma setCopies_ne_exists {i : Nat} {v : PVal} {e : Engine} {er : Err}
    {e2 : Engine} (h : setCopies i v e = (.error er, e2)) :
    er ≠ .datasetExists := by
  unfold setCopies at h
  repeat' split at h
  all_goals first
    | (injection h with h1 h2; injection h1 with h1; subst h1; decide)
    | (rename_i er2 hsub
       injection h with h1 h2
       injection h1 with h1
       subst h1
       rw [assertActive_err hsub]
       decide)
    | simp at h

lemma setMountpoint_ne_exists {host : HostFs} {i : Nat} {v : PVal}
    {e : Engine} {er : Err} {e2 : Engine}
    (h : setMountpoint host i v e = (.error er, e2)) :
    er ≠ .datasetExists := by
  unfold setMountpoint at h
  repeat' split at h
  all_goals first
    | exact mount_ne_exists h
    | (injection h with h1 h2; injection h1 with h1; subst h1; decide)
    | (rename_i er2 hsub
       injection h with h1 h2
       injection h1 with h1
       subst h1
       rw [assertActive_err hsub]
       decide)
    | (rename_i er2 e1x hsub
       injection h with h1 h2
       injection h1 with h1
       subst h1
       exact unmount_ne_exists hsub)
    | simp at h

lemma setQuota_ne_exists {i : Nat} {v : PVal} {e : Engine} {er : Err}
    {e2 : Engine} (h : setQuota i v e = (.error er, e2)) :
    er ≠ .datasetExists := by
  unfold setQuota at h
  repeat' split at h
  all_goals first
    | (injection h with h1 h2; injection h1 with h1; subst h1; decide)
    | (rename_i er2 hsub
       injection h with h1 h2
       injection h1 with h1
       subst h1
       first
         | exact typeGet_err hsub
         | (rw [parseHumanNumber_err hsub]; decide))
    | simp at h

lemma setReadOnlyProp_ne_exists {i : Nat} {e : Engine} {er : Err}
    {e2 : Engine} (h : setReadOnlyProp i e = (.error er, e2)) :
    er ≠ .datasetExists := by
  unfold setReadOnlyProp at h
  repeat' split at h
  all_goals first
    | (injection h with h1 h2; injection h1 with h1; subst h1; decide)
    | (rename_i er2 hsub
       injection h with h1 h2
       injection h1 with h1
       subst h1
       rw [assertActive_err hsub]
       decide)
    | simp at h

lemma setProp_ne_exists {host : HostFs} {i : Nat} {pname : String}
    {v : PVal} {e : Engine} {er : Err} {e2 : Engine}
    (h : setProp host i pname v e = (.error er, e2)) :
    er ≠ .datasetExists := by
  unfold setProp at h
  repeat' split at h
  all_goals first
    | exact setEnumProp_ne_exists h
    | exact setCopies_ne_exists h
    | exact setMountpoint_ne_exists h
    | exact setQuota_ne_exists h
    | exact setReadOnlyProp_ne_exists h
    | (injection h with h1 h2; injection h1 with h1; subst h1; decide)
    | simp at h

lemma stepList_err {α : Type} {f : α → Engine → Except Err Unit × Engine}
    {P : Err → Prop}
    (hf : ∀ a e er e2, f a e = (.error er, e2) → P er) :
    ∀ (l : List α) (e : Engine) (er : Err) (e2 : Engine),
      stepList f l e = (.error er, e2) → P er := by
  intro l
  induction l with
  | nil => intro e er e2 h; cases h
  | cons a rest ih =>
    intro e er e2 h
    unfold stepList at h
    split at h
    · rename_i er2 e1 heq
      injection h with h1 h2
      injection h1 with h1
      subst h1
      exact hf a e er2 e1 heq
    · rename_i u e1 heq
      exact ih e1 er e2 h

lemma applyProps_ne_exists {host : HostFs} {i : Nat} {props : Props}
    {e : Engine} {er : Err} {e2 : Engine}
    (h : applyProps host i props e = (.error er, e2)) :
    er ≠ .datasetExists := by
  unfold applyProps at h
  exact stepList_err
    (fun a e er e2 hh => setProp_ne_exists hh) props e er e2 h

/- collFrame facts for the constructor prefix. -/

lemma notMountableRes_snd (ign : Bool) (e : Engine) :
    (notMountableRes ign e).2 = e := by
  unfold notMountableRes
  split <;> rfl

lemma unmount_collFrame (host : HostFs) (i : Nat) (e : Engine) :
    collFrame e (unmount host i e).2 := by
  unfold unmount
  repeat' split
  all_goals
    first
      | exact collFrame_refl e
      | exact collFrame_trans (collFrame_of_ds_root_eq rfl rfl)
          (collFrame_updDs _ _ _ (fun d => ⟨rfl, rfl, rfl⟩))

lemma mount_collFrame (host : HostFs) (ign : Bool) (i : Nat) (e : Engine) :
    collFrame e (mount host ign i e).2 := by
  unfold mount
  repeat' split
  all_goals
    first
      | exact collFrame_refl e
      | (rw [notMountableRes_snd]; exact collFrame_refl e)
      | exact collFrame_trans (collFrame_of_ds_root_eq rfl rfl)
          (collFrame_updDs _ _ _ (fun d => ⟨rfl, rfl, rfl⟩))

lemma setEnumProp_collFrame (valid : List String)
    (upd : String → Dataset → Dataset)
    (hupd : ∀ sv d, sameColls d (upd sv d)) (i : Nat) (v : PVal)
    (e : Engine) : collFrame e (setEnumProp valid upd i v e).2 := by
  unfold setEnumProp
  repeat' split
  all_goals first
    | exact collFrame_refl e
    | exact collFrame_updDs _ _ _ (fun d => hupd _ d)

lemma setCopies_collFrame (i : Nat) (v : PVal) (e : Engine) :
    collFrame e (setCopies i v e).2 := by
  unfold setCopies
  repeat' split
  all_goals first
    | exact collFrame_refl e
    | exact collFrame_updDs _ _ _ (fun d => ⟨rfl, rfl, rfl⟩)

lemma setMountpoint_collFrame (host : HostFs) (i : Nat) (v : PVal)
    (e : Engine) : collFrame e (setMountpoint host i v e).2 := by
  unfold setMountpoint
  repeat' split
  all_goals first
    | exact collFrame_refl e
    | skip
  all_goals rename_i heq
  all_goals
    have hu := unmount_collFrame host i e
  all_goals rw [heq] at hu
  all_goals simp only [] at hu ⊢
  · exact hu
  · refine collFrame_trans hu
      (collFrame_trans (collFrame_updDs _ _ _ ?_)
        (mount_collFrame host true i _))
    intro d
    exact ⟨rfl, rfl, rfl⟩

lemma setQuota_collFrame (i : Nat) (v : PVal) (e : Engine) :
    collFrame e (setQuota i v e).2 := by
  unfold setQuota
  repeat' split
  all_goals first
    | exact collFrame_refl e
    | exact collFrame_updDs _ _ _ (fun d => ⟨rfl, rfl, rfl⟩)

lemma setReadOnlyProp_collFrame (i : Nat) (e : Engine) :
    collFrame e (setReadOnlyProp i e).2 := by
  unfold setReadOnlyProp
  repeat' split
  all_goals exact collFrame_refl e

lemma setProp_collFrame (host : HostFs) (i : Nat) (pname : String)
    (v : PVal) (e : Engine) : collFrame e (setProp host i pname v e).2 := by
  unfold setProp
  repeat' split
  all_goals first
    | (apply setEnumProp_collFrame
       intro sv d
       exact ⟨rfl, rfl, rfl⟩)
    | exact setCopies_collFrame i v e
    | exact setMountpoint_collFrame host i v e
    | exact setQuota_collFrame i v e
    | exact setReadOnlyProp_collFrame i e
    | exact collFrame_refl e

lemma stepList_collFrame {α : Type} {f : α → Engine → Except Err Unit × Engine}
    (hf : ∀ a e, collFrame e (f a e).2) :
    ∀ (l : List α) (e : Engine), collFrame e (stepList f l e).2 := by
  intro l
  induction l with
  | nil => intro e; exact collFrame_refl e
  | cons a rest ih =>
    intro e
    unfold stepList
    split
    · rename_i er e1 heq
      have := hf a e
      rw [heq] at this
      exact this
    · rename_i u e1 heq
      have h1 := hf a e
      rw [heq] at h1
      exact collFrame_trans h1 (ih e1)

lemma applyProps_collFrame (host : HostFs) (i : Nat) (props : Props)
    (e : Engine) : collFrame e (applyProps host i props e).2 := by
  unfold applyProps
  exact stepList_collFrame (fun a e => setProp_collFrame host i a.1 a.2 e)
    props e

/- The touch-only-one-record frame and the data-field frame of the
property setters. -/

lemma dataFrame_refl (d : Dataset) : dataFrame d d :=
  ⟨rfl, rfl, rfl, rfl, rfl, rfl, rfl, rfl, rfl, rfl, rfl, rfl⟩

lemma dataFrame_trans {a b c : Dataset} (h1 : dataFrame a b)
    (h2 : dataFrame b c) : dataFrame a c :=
  ⟨h2.1.trans h1.1, h2.2.1.trans h1.2.1, h2.2.2.1.trans h1.2.2.1,
   h2.2.2.2.1.trans h1.2.2.2.1, h2.2.2.2.2.1.trans h1.2.2.2.2.1,
   h2.2.2.2.2.2.1.trans h1.2.2.2.2.2.1,
   h2.2.2.2.2.2.2.1.trans h1.2.2.2.2.2.2.1,
   h2.2.2.2.2.2.2.2.1.trans h1.2.2.2.2.2.2.2.1,
   h2.2.2.2.2.2.2.2.2.1.trans h1.2.2.2.2.2.2.2.2.1,
   h2.2.2.2.2.2.2.2.2.2.1.trans h1.2.2.2.2.2.2.2.2.2.1,
   h2.2.2.2.2.2.2.2.2.2.2.1.trans h1.2.2.2.2.2.2.2.2.2.2.1,
   h2.2.2.2.2.2.2.2.2.2.2.2.trans h1.2.2.2.2.2.2.2.2.2.2.2⟩

lemma tch_refl (i : Nat) (e : Engine) : tch i e e :=
  ⟨rfl, rfl, rfl, rfl, fun _ _ => rfl⟩

lemma tch_trans {i : Nat} {e1 e2 e3 : Engine} (h1 : tch i e1 e2)
    (h2 : tch i e2 e3) : tch i e1 e3 :=
  ⟨h2.1.trans h1.1, h2.2.1.trans h1.2.1, h2.2.2.1.trans h1.2.2.1,
   h2.2.2.2.1.trans h1.2.2.2.1,
   fun j hj => (h2.2.2.2.2 j hj).trans (h1.2.2.2.2 j hj)⟩

lemma tch_updDs (e : Engine) (i : Nat) (f : Dataset → Dataset) :
    tch i e (updDs e i f) :=
  ⟨rfl, rfl, rfl, rfl, fun j hj => find_updDs_ne e i f j hj⟩

lemma tch_mnttab (i : Nat) (e : Engine) (m : List (String × Nat)) :
    tch i e { e with mnttab := m } :=
  ⟨rfl, rfl, rfl, rfl, fun _ _ => rfl⟩

lemma mount_tch (host : HostFs) (ign : Bool) (i : Nat) (e : Engine) :
    tch i e (mount host ign i e).2 := by
  unfold mount
  repeat' split
  all_goals
    first
      | exact tch_refl i e
      | (rw [notMountableRes_snd]; exact tch_refl i e)
      | exact tch_trans (tch_mnttab i e _) (tch_updDs _ i _)

lemma unmount_tch (host : HostFs) (i : Nat) (e : Engine) :
    tch i e (unmount host i e).2 := by
  unfold unmount
  repeat' split
  all_goals
    first
      | exact tch_refl i e
      | exact tch_trans (tch_mnttab i e _) (tch_updDs _ i _)

lemma setEnumProp_tch (valid : List String)
    (upd : String → Dataset → Dataset) (i : Nat) (v : PVal) (e : Engine) :
    tch i e (setEnumProp valid upd i v e).2 := by
  unfold setEnumProp
  repeat' split
  all_goals first
    | exact tch_refl i e
    | exact tch_updDs e i _

lemma setCopies_tch (i : Nat) (v : PVal) (e : Engine) :
    tch i e (setCopies i v e).2 := by
  unfold setCopies
  repeat' split
  all_goals first
    | exact tch_refl i e
    | exact tch_updDs e i _

lemma setMountpoint_tch (host : HostFs) (i : Nat) (v : PVal) (e : Engine) :
    tch i e (setMountpoint host i v e).2 := by
  unfold setMountpoint
  repeat' split
  all_goals first
    | exact tch_refl i e
    | skip
  all_goals rename_i heq
  all_goals
    have hu := unmount_tch host i e
  all_goals rw [heq] at hu
  all_goals simp only [] at hu ⊢
  · exact hu
  · exact tch_trans hu (tch_trans (tch_updDs _ i _) (mount_tch host true i _))

lemma setQuota_tch (i : Nat) (v : PVal) (e : Engine) :
    tch i e (setQuota i v e).2 := by
  unfold setQuota
  repeat' split
  all_goals first
    | exact tch_refl i e
    | exact tch_updDs e i _

lemma setReadOnlyProp_tch (i : Nat) (e : Engine) :
    tch i e (setReadOnlyProp i e).2 := by
  unfold setReadOnlyProp
  repeat' split
  all_goals exact tch_refl i e

lemma setProp_tch (host : HostFs) (i : Nat) (pname : String) (v : PVal)
    (e : Engine) : tch i e (setProp host i pname v e).2 := by
  unfold setProp
  repeat' split
  all_goals first
    | exact setEnumProp_tch _ _ i v e
    | exact setCopies_tch i v e
    | exact setMountpoint_tch host i v e
    | exact setQuota_tch i v e
    | exact setReadOnlyProp_tch i e
    | exact tch_refl i e

lemma stepList_tch {α : Type} {i : Nat}
    {f : α → Engine → Except Err Unit × Engine}
    (hf : ∀ a e, tch i e (f a e).2) :
    ∀ (l : List α) (e : Engine), tch i e (stepList f l e).2 := by
  intro l
  induction l with
  | nil => intro e; exact tch_refl i e
  | cons a rest ih =>
    intro e
    unfold stepList
    split
    · rename_i er e1 heq
      have h1 := hf a e
      rw [heq] at h1
      exact h1
    · rename_i u e1 heq
      have h1 := hf a e
      rw [heq] at h1
      exact tch_trans h1 (ih e1)

lemma applyProps_tch (host : HostFs) (i : Nat) (props : Props)
    (e : Engine) : tch i e (applyProps host i props e).2 := by
  unfold applyProps
  exact stepList_tch (fun a e => setProp_tch host i a.1 a.2 e) props e

/- The target record of a successful (or failed) setter keeps all its
data fields when it is a snapshot. -/

lemma setEnumProp_snapData (valid : List String)
    (upd : String → Dataset → Dataset)
    (hupd : ∀ sv d, dataFrame d (upd sv d)) (i : Nat) (v : PVal)
    (e : Engine) (d : Dataset) (hfind : e.find? i = some d) :
    ∃ d', (setEnumProp valid upd i v e).2.find? i = some d' ∧
      dataFrame d d' := by
  unfold setEnumProp
  simp only [hfind]
  repeat' split
  all_goals first
    | exact ⟨d, hfind, dataFrame_refl d⟩
    | exact ⟨_, find_updDs_self e i _ d hfind, hupd _ d⟩

lemma setCopies_snapData (i : Nat) (v : PVal) (e : Engine) (d : Dataset)
    (hfind : e.find? i = some d) :
    ∃ d', (setCopies i v e).2.find? i = some d' ∧ dataFrame d d' := by
  unfold setCopies
  simp only [hfind]
  repeat' split
  all_goals first
    | exact ⟨d, hfind, dataFrame_refl d⟩
    | exact ⟨_, find_updDs_self e i _ d hfind,
        ⟨rfl, rfl, rfl, rfl, rfl, rfl, rfl, rfl, rfl, rfl, rfl, rfl⟩⟩

lemma setMountpoint_snapData (host : HostFs) (i : Nat) (v : PVal)
    (e : Engine) (d : Dataset) (hfind : e.find? i = some d)
    (hsnap : d.dtype = DsType.snapshot) :
    ∃ d', (setMountpoint host i v e).2.find? i = some d' ∧
      dataFrame d d' := by
  unfold setMountpoint
  simp only [hfind, hsnap]
  split
  · exact ⟨d, hfind, dataFrame_refl d⟩
  · split
    · exact ⟨d, hfind, dataFrame_refl d⟩
    · rename_i h
      exact absurd (by decide) h

lemma setQuota_snapData (i : Nat) (v : PVal) (e : Engine) (d : Dataset)
    (hfind : e.find? i = some d) :
    ∃ d', (setQuota i v e).2.find? i = some d' ∧ dataFrame d d' := by
  unfold setQuota
  repeat' split
  all_goals first
    | exact ⟨d, hfind, dataFrame_refl d⟩
    | exact ⟨_, find_updDs_self e i _ d hfind,
        ⟨rfl, rfl, rfl, rfl, rfl, rfl, rfl, rfl, rfl, rfl, rfl, rfl⟩⟩

lemma setReadOnlyProp_snapData (i : Nat) (e : Engine) (d : Dataset)
    (hfind : e.find? i = some d) :
    ∃ d', (setReadOnlyProp i e).2.find? i = some d' ∧ dataFrame d d' := by
  unfold setReadOnlyProp
  repeat' split
  all_goals exact ⟨d, hfind, dataFrame_refl d⟩

lemma setProp_snapData (host : HostFs) (i : Nat) (pname : String)
    (v : PVal) (e : Engine) (d : Dataset) (hfind : e.find? i = some d)
    (hsnap : d.dtype = DsType.snapshot) :
    ∃ d', (setProp host i pname v e).2.find? i = some d' ∧
      dataFrame d d' := by
  unfold setProp
  repeat' split
  all_goals first
    | (refine setEnumProp_snapData _ _ ?_ i v e d hfind
       intro sv d2
       exact ⟨rfl, rfl, rfl, rfl, rfl, rfl, rfl, rfl, rfl, rfl, rfl, rfl⟩)
    | exact setCopies_snapData i v e d hfind
    | exact setMountpoint_snapData host i v e d hfind hsnap
    | exact setQuota_snapData i v e d hfind
    | exact setReadOnlyProp_snapData i e d hfind
    | exact ⟨d, hfind, dataFrame_refl d⟩

lemma stepList_snapData {α : Type} {i : Nat}
    {f : α → Engine → Except Err Unit × Engine}
    (hf : ∀ a e d, e.find? i = some d → d.dtype = DsType.snapshot →
      ∃ d', (f a e).2.find? i = some d' ∧ dataFrame d d') :
    ∀ (l : List α) (e : Engine) (d : Dataset), e.find? i = some d →
      d.dtype = DsType.snapshot →
      ∃ d', (stepList f l e).2.find? i = some d' ∧ dataFrame d d' := by
  intro l
  induction l with
  | nil => intro e d hfind _; exact ⟨d, hfind, dataFrame_refl d⟩
  | cons a rest ih =>
    intro e d hfind hsnap
    unfold stepList
    split
    · rename_i er e1 heq
      have h1 := hf a e d hfind hsnap
      rw [heq] at h1
      exact h1
    · rename_i u e1 heq
      have h1 := hf a e d hfind hsnap
      rw [heq] at h1
      obtain ⟨d1, hd1, hdf⟩ := h1
      obtain ⟨d2, hd2, hdf2⟩ := ih e1 d1 hd1 (hdf.2.2.1.trans hsnap)
      exact ⟨d2, hd2, dataFrame_trans hdf hdf2⟩

lemma applyProps_snapData (host : HostFs) (i : Nat) (props : Props)
    (e : Engine) (d : Dataset) (hfind : e.find? i = some d)
    (hsnap : d.dtype = DsType.snapshot) :
    ∃ d', (applyProps host i props e).2.find? i = some d' ∧
      dataFrame d d' := by
  unfold applyProps
  exact stepList_snapData
    (fun a e d hf hs => setProp_snapData host i a.1 a.2 e d hf hs)
    props e d hfind hsnap

/- alPut/alGet round trip, append lookup, and congruence of the getters
under an update that keeps the consulted fields. -/

lemma alGet_append_single (l : List (String × Nat)) (k : String) (v : Nat)
    (h : (l.find? (fun p => p.1 == k)).isSome = false) :
    alGet (l ++ [(k, v)]) k = some v := by
  induction l with
  | nil => simp [alGet, List.find?]
  | cons p rest ih =>
    rw [List.find?] at h
    by_cases hp : (p.1 == k) = true
    · rw [hp] at h
      simp at h
    · have hp2 : (p.1 == k) = false := by simpa using hp
      rw [hp2] at h
      simp only [alGet, List.cons_append, List.find?, hp2]
      exact ih h

lemma alGet_map_put (l : List (String × Nat)) (k : String) (v : Nat)
    (h : (l.find? (fun p => p.1 == k)).isSome = true) :
    alGet (l.map (fun p => if p.1 == k then (k, v) else p)) k = some v := by
  induction l with
  | nil => simp [List.find?] at h
  | cons p rest ih =>
    rw [List.find?] at h
    by_cases hp : (p.1 == k) = true
    · simp only [alGet, List.map, List.find?, hp, if_pos]
      simp [List.find?]
    · have hp2 : (p.1 == k) = false := by simpa using hp
      rw [hp2] at h
      simp only [alGet, List.map, List.find?, hp2, if_neg, Bool.false_eq_true,
        not_false_eq_true]
      exact ih h

lemma alGet_alPut (l : List (String × Nat)) (k : String) (v : Nat) :
    alGet (alPut l k v) k = some v := by
  unfold alPut
  split
  · exact alGet_map_put l k v (by assumption)
  · rename_i h
    refine alGet_append_single l k v ?_
    cases hb : ((l.find? (fun p => p.1 == k)).isSome) with
    | false => rfl
    | true => exact absurd hb h

lemma parentMounted_updDs (e : Engine) (k : Nat) (f : Dataset → Dataset)
    (hf : ∀ x, (f x).mounted = x.mounted) (d : Dataset) :
    parentMounted (updDs e k f) d = parentMounted e d := by
  unfold parentMounted
  cases hp : d.parent with
  | none => rfl
  | some p =>
    simp only []
    rw [find_updDs]
    cases h : e.find? p with
    | none => rfl
    | some pd =>
      simp only [Option.map_some']
      by_cases hpk : p = k
      · simp [hpk, hf]
      · simp [hpk]

lemma mpWalk_updDs (l : List (Nat × Dataset)) (k : Nat)
    (f : Dataset → Dataset)
    (hf : ∀ x, (f x).dname = x.dname ∧ (f x).parent = x.parent ∧
      (f x).localMountpoint = x.localMountpoint) :
    ∀ (fuel i : Nat) (trail : List String),
      mpWalk (l.map (fun p => if p.1 == k then (p.1, f p.2) else p))
        fuel i trail = mpWalk l fuel i trail := by
  intro fuel
  induction fuel with
  | zero => intro i trail; rfl
  | succ n ih =>
    intro i trail
    unfold mpWalk
    rw [lookupA_map_upd]
    cases h : lookupA l i with
    | none => rfl
    | some d =>
      simp only [Option.map_some']
      by_cases hik : i = k
      · simp only [hik, if_pos]
        have h1 := (hf d).1
        have h2 := (hf d).2.1
        have h3 := (hf d).2.2
        rw [h1, h2, h3]
        cases d.localMountpoint with
        | some mp => rfl
        | none =>
          cases d.parent with
          | none => rfl
          | some p => exact ih p (trail ++ [d.dname])
      · simp only [if_neg hik]
        cases d.localMountpoint with
        | some mp => rfl
        | none =>
          cases d.parent with
          | none => rfl
          | some p => exact ih p (trail ++ [d.dname])

lemma mountpointGet_updDs (e : Engine) (k : Nat) (f : Dataset → Dataset)
    (hf : ∀ x, (f x).dname = x.dname ∧ (f x).parent = x.parent ∧
      (f x).localMountpoint = x.localMountpoint ∧ (f x).dtype = x.dtype ∧
      (f x).state = x.state) (i : Nat) :
    mountpointGet (updDs e k f) i = mountpointGet e i := by
  have hwalk := mpWalk_updDs e.ds k f
    (fun x => ⟨(hf x).1, (hf x).2.1, (hf x).2.2.1⟩)
  unfold mountpointGet
  rw [find_updDs]
  cases h : e.find? i with
  | none => rfl
  | some d =>
    simp only [Option.map_some']
    have hds : (updDs e k f).ds =
        e.ds.map (fun p => if p.1 == k then (p.1, f p.2) else p) := rfl
    have hlen : (updDs e k f).ds.length = e.ds.length := by
      rw [hds, List.length_map]
    rw [hds]
    rw [List.length_map]
    rw [hwalk]
    by_cases hik : i = k
    · simp only [hik, if_pos]
      unfold Dataset.assertActive
      rw [(hf d).2.2.2.2, (hf d).2.2.2.1]
    · simp only [if_neg hik]

lemma find_append_some {e : Engine} {j : Nat} {x : Dataset} {n m : Nat}
    {d0 : Dataset} (h : e.find? j = some x) :
    (Engine.find? { e with ds := e.ds ++ [(n, d0)], nextId := m } j) =
      some x := by
  show lookupA (e.ds ++ [(n, d0)]) j = some x
  rw [lookupA_append_cases]
  rw [show lookupA e.ds j = some x from h]

lemma find_append_none {e : Engine} {j : Nat} {n m : Nat} {d0 : Dataset}
    (h : e.find? j = none) :
    (Engine.find? { e with ds := e.ds ++ [(n, d0)], nextId := m } j) =
      (if j = n then some d0 else none) := by
  show lookupA (e.ds ++ [(n, d0)]) j = if j = n then some d0 else none
  rw [lookupA_append_cases]
  rw [show lookupA e.ds j = none from h]

lemma find_append_ne {e : Engine} {j : Nat} {n m : Nat} {d0 : Dataset}
    (h : j ≠ n) :
    (Engine.find? { e with ds := e.ds ++ [(n, d0)], nextId := m } j) =
      e.find? j := by
  cases hj : e.find? j with
  | none => rw [find_append_none hj, if_neg h]
  | some x => rw [find_append_some hj]

lemma lookupA_some_mem {l : List (Nat × Dataset)} {i : Nat} {d : Dataset}
    (h : lookupA l i = some d) : ∃ p ∈ l, p.1 = i ∧ p.2 = d := by
  unfold lookupA at h
  cases hf : l.find? (fun p => p.1 == i) with
  | none => rw [hf] at h; cases h
  | some q =>
    rw [hf] at h
    injection h with h
    refine ⟨q, List.mem_of_find?_eq_some hf, ?_, h⟩
    have hq := List.find?_some hf
    simpa using hq

/-- The effect of the property loop of the constructor run on the
freshly appended record: only that record changes, and only its local
slots (the record is a snapshot, so the mountpoint setter cannot fire). -/
lemma mkSnapCore (host : HostFs) (props : Props) (u : Unit)
    (e2 e : Engine) (i : Nat) (d d0 : Dataset)
    (hnone : e.find? e.nextId = none) (hfind : e.find? i = some d)
    (hd0snap : d0.dtype = DsType.snapshot)
    (hprops : applyProps host e.nextId props
      { e with ds := e.ds ++ [(e.nextId, d0)], nextId := e.nextId + 1 } =
        (.ok u, e2)) :
    (∃ dn, e2.find? e.nextId = some dn ∧ dataFrame d0 dn) ∧
    e2.find? i = some d ∧
    (∀ j, j ≠ e.nextId → e2.find? j = e.find? j) ∧
    e2.rootChildren = e.rootChildren ∧ e2.nextId = e.nextId + 1 ∧
    e2.txg = e.txg ∧ e2.pendingTxg = e.pendingTxg := by
  have hine : i ≠ e.nextId := by
    intro hc
    rw [hc, hnone] at hfind
    cases hfind
  have htch := applyProps_tch host e.nextId props
    { e with ds := e.ds ++ [(e.nextId, d0)], nextId := e.nextId + 1 }
  rw [hprops] at htch
  simp only [] at htch
  have hfind10 : Engine.find?
      { e with ds := e.ds ++ [(e.nextId, d0)], nextId := e.nextId + 1 }
      e.nextId = some d0 := by
    rw [find_append_none hnone, if_pos rfl]
  have hsd := applyProps_snapData host e.nextId props
    { e with ds := e.ds ++ [(e.nextId, d0)], nextId := e.nextId + 1 }
    d0 hfind10 hd0snap
  rw [hprops] at hsd
  simp only [] at hsd
  obtain ⟨dn, hdn, hdf⟩ := hsd
  have hothers : ∀ j, j ≠ e.nextId → e2.find? j = e.find? j := by
    intro j hj
    have h1 := htch.2.2.2.2 j hj
    rw [h1]
    exact find_append_ne hj
  refine ⟨⟨dn, hdn, hdf⟩, ?_, hothers, ?_, ?_, ?_, ?_⟩
  · rw [hothers i hine]
    exact hfind
  · exact htch.1
  · exact htch.2.1
  · exact htch.2.2.1
  · exact htch.2.2.2.1

/-- The full success trace of new Dataset(ds, snapname, snapshot, props):
one record is appended (identity nextId, data fields those of a fresh
active snapshot), the parent gains one snapshots entry, everything else
is untouched, and txg advances only outside a pending window. -/
lemma mkSnap_success (host : HostFs) (i : Nat) (snapname : String)
    (props : Props) (e : Engine) (nid : Nat) (e' : Engine) (d : Dataset)
    (hnone : e.find? e.nextId = none)
    (hfind : e.find? i = some d)
    (hrun : mkDataset host (some i) snapname DsType.snapshot props none e =
      (.ok nid, e')) :
    nid = e.nextId ∧
    e'.find? i =
      some { d with snapshots := alPut d.snapshots snapname e.nextId } ∧
    (∃ nd, e'.find? e.nextId = some nd ∧ nd.fscontent = none ∧
      nd.dname = snapname ∧ nd.parent = some i ∧
      nd.dtype = DsType.snapshot ∧ nd.state = DsState.active ∧
      nd.createtxg = e.txg ∧ nd.mounted = false ∧ nd.children = [] ∧
      nd.snapshots = [] ∧ nd.holds = [] ∧ nd.clones = [] ∧
      nd.origin = none) ∧
    (∀ j, j ≠ i → j ≠ e.nextId → e'.find? j = e.find? j) ∧
    e'.rootChildren = e.rootChildren ∧ e'.nextId = e.nextId + 1 ∧
    e'.pendingTxg = e.pendingTxg ∧
    e'.txg = (if e.pendingTxg = 0 then e.txg + 1 else e.txg) := by
  have hine : i ≠ e.nextId := by
    intro hc
    rw [hc, hnone] at hfind
    cases hfind
  unfold mkDataset at hrun
  split at hrun
  · injection hrun with h1 h2
    exact Except.noConfusion h1
  · split at hrun
    · injection hrun with h1 h2
      exact Except.noConfusion h1
    · simp only [] at hrun
      split at hrun
      · injection hrun with h1 h2
        exact Except.noConfusion h1
      · rename_i u e2 hprops
        obtain ⟨⟨dn, hdn, hdf⟩, hfi2, hoth2, hroot2, hnext2, htxg2, hpend2⟩ :=
          mkSnapCore host props u e2 e i d _ hnone hfind (by exact rfl)
            hprops
        have hfi3 : (updDs e2 e.nextId
            (fun x => { x with state := DsState.active })).find? i =
            some d := by
          rw [find_updDs_ne _ _ _ _ hine]
          exact hfi2
        have hdn3 : (updDs e2 e.nextId
            (fun x => { x with state := DsState.active })).find? e.nextId =
            some { dn with state := DsState.active } :=
          find_updDs_self e2 e.nextId _ dn hdn
        split at hrun
        · injection hrun with h1 h2
          exact Except.noConfusion h1
        · split at hrun
          · injection hrun with h1 h2
            exact Except.noConfusion h1
          · split at hrun
            · rename_i h
              cases h
            · injection hrun with h1 h2
              injection h1 with h1
              subst h1
              have hreg : register (some i) DsType.snapshot snapname
                  e.nextId (updDs e2 e.nextId
                    (fun x => { x with state := DsState.active })) =
                  updDs (updDs e2 e.nextId
                    (fun x => { x with state := DsState.active })) i
                    (fun pd => { pd with snapshots := alPut pd.snapshots snapname e.nextId }) := rfl
              rw [hreg] at h2
              generalize hE : updDs (updDs e2 e.nextId
                  (fun x => { x with state := DsState.active })) i
                  (fun pd => { pd with snapshots := alPut pd.snapshots snapname e.nextId }) = E4 at h2
              have hfi4 : E4.find? i =
                  some { d with snapshots := alPut d.snapshots snapname e.nextId } := by
                rw [← hE]
                exact find_updDs_self _ i _ d hfi3
              have hdn4 : E4.find? e.nextId =
                  some { dn with state := DsState.active } := by
                rw [← hE]
                rw [find_updDs_ne _ _ _ _ (Ne.symm hine)]
                exact hdn3
              have hoth4 : ∀ j, j ≠ i → j ≠ e.nextId →
                  E4.find? j = e.find? j := by
                intro j hji hjn
                rw [← hE]
                rw [find_updDs_ne _ _ _ _ hji]
                rw [find_updDs_ne _ _ _ _ hjn]
                exact hoth2 j hjn
              have hroot4 : E4.rootChildren = e.rootChildren := by
                rw [← hE]; exact hroot2
              have hnext4 : E4.nextId = e.nextId + 1 := by
                rw [← hE]; exact hnext2
              have htxg4 : E4.txg = e.txg := by
                rw [← hE]; exact htxg2
              have hpend4 : E4.pendingTxg = e.pendingTxg := by
                rw [← hE]; exact hpend2
              have hpack : ∃ nd, E4.find? e.nextId = some nd ∧
                  nd.fscontent = none ∧ nd.dname = snapname ∧
                  nd.parent = some i ∧ nd.dtype = DsType.snapshot ∧
                  nd.state = DsState.active ∧ nd.createtxg = e.txg ∧
                  nd.mounted = false ∧ nd.children = [] ∧
                  nd.snapshots = [] ∧ nd.holds = [] ∧ nd.clones = [] ∧
                  nd.origin = none := by
                refine ⟨{ dn with state := DsState.active }, hdn4, ?_, ?_,
                  ?_, ?_, rfl, ?_, ?_, ?_, ?_, ?_, ?_, ?_⟩
                · exact hdf.2.2.2.2.2.2.1
                · exact hdf.1
                · exact hdf.2.1
                · exact hdf.2.2.1
                · exact hdf.2.2.2.2.1
                · exact hdf.2.2.2.2.2.1
                · exact hdf.2.2.2.2.2.2.2.1
                · exact hdf.2.2.2.2.2.2.2.2.1
                · exact hdf.2.2.2.2.2.2.2.2.2.1
                · exact hdf.2.2.2.2.2.2.2.2.2.2.1
                · exact hdf.2.2.2.2.2.2.2.2.2.2.2
              split at h2
              · rename_i hc
                subst h2
                refine ⟨rfl, hfi4, hpack, hoth4, hroot4, hnext4, hpend4,
                  ?_⟩
                have hp0 : e.pendingTxg = 0 := by
                  rw [← hpend4]; exact hc
                rw [if_pos hp0]
                show E4.txg + 1 = e.txg + 1
                rw [htxg4]
              · rename_i hc
                subst h2
                refine ⟨rfl, hfi4, hpack, hoth4, hroot4, hnext4, hpend4,
                  ?_⟩
                have hp0 : e.pendingTxg ≠ 0 := by
                  rw [← hpend4]; exact hc
                rw [if_neg hp0]
                exact htxg4

/-- The success trace of dosnap(ds): the snapshot record of the
constructor with its fscontent replaced by the fscontent of ds, and a
repeated (idempotent) snapshots registration on ds. -/
lemma dosnap_success (host : HostFs) (snapname : String) (props : Props)
    (i : Nat) (e : Engine) (d : Dataset) (eb : Engine)
    (hnone : e.find? e.nextId = none)
    (hfind : e.find? i = some d)
    (hds : dosnap host snapname props i e = (.ok (), eb)) :
    eb.find? i = some { d with snapshots := alPut (alPut d.snapshots snapname e.nextId) snapname e.nextId } ∧
    (∃ nd, eb.find? e.nextId = some nd ∧ nd.fscontent = d.fscontent ∧
      nd.dname = snapname ∧ nd.parent = some i ∧
      nd.dtype = DsType.snapshot ∧ nd.state = DsState.active ∧
      nd.createtxg = e.txg ∧ nd.mounted = false ∧ nd.children = [] ∧
      nd.snapshots = [] ∧ nd.holds = [] ∧ nd.clones = [] ∧
      nd.origin = none) ∧
    (∀ j, j ≠ i → j ≠ e.nextId → eb.find? j = e.find? j) ∧
    eb.rootChildren = e.rootChildren ∧ eb.nextId = e.nextId + 1 ∧
    eb.pendingTxg = e.pendingTxg ∧
    eb.txg = (if e.pendingTxg = 0 then e.txg + 1 else e.txg) := by
  have hine : i ≠ e.nextId := by
    intro hc
    rw [hc, hnone] at hfind
    cases hfind
  unfold dosnap at hds
  split at hds
  · injection hds with h1 h2
    exact Except.noConfusion h1
  · rename_i nid0 e1 hmk
    obtain ⟨hnid0, hfi, ⟨nd, hnd, hfc, hnm, hpar, hty, hst, hctx, hmt,
      hch, hsn, hh, hcl, hor⟩, hoth, hroot, hnext, hpend, htxg⟩ :=
      mkSnap_success host i snapname props e nid0 e1 d hnone hfind hmk
    subst hnid0
    simp only [] at hds
    rw [find_updDs_self e1 i _ _ hfi] at hds
    simp only [] at hds
    injection hds with h1 h2
    refine ⟨?_, ?_, ?_, ?_, ?_, ?_, ?_⟩
    · rw [← h2]
      rw [find_updDs_ne _ _ _ _ hine]
      exact find_updDs_self e1 i _ _ hfi
    · refine ⟨{ nd with fscontent := d.fscontent }, ?_, rfl, hnm, hpar,
        hty, hst, hctx, hmt, hch, hsn, hh, hcl, hor⟩
      rw [← h2]
      have h3 : (updDs e1 i (fun xd => { xd with snapshots := alPut xd.snapshots snapname e.nextId })).find? e.nextId =
          some nd := by
        rw [find_updDs_ne _ _ _ _ (Ne.symm hine)]
        exact hnd
      exact find_updDs_self _ e.nextId _ nd h3
    · intro j hji hjn
      rw [← h2]
      rw [find_updDs_ne _ _ _ _ hjn]
      rw [find_updDs_ne _ _ _ _ hji]
      exact hoth j hji hjn
    · rw [← h2]; exact hroot
    · rw [← h2]; exact hnext
    · rw [← h2]; exact hpend
    · rw [← h2]; exact htxg

/- The two passes of the recursive snapshot. -/

lemma firstErr_ok_mem {α : Type} (chk : α → Except Err Unit) :
    ∀ (l : List α) (u : Unit), firstErr chk l = .ok u →
      ∀ x ∈ l, chk x = .ok () := by
  intro l
  induction l with
  | nil => intro u h x hx; cases hx
  | cons a rest ih =>
    intro u h x hx
    unfold firstErr at h
    split at h
    · cases h
    · rename_i u1 ha
      rcases List.mem_cons.mp hx with hxa | hxr
      · subst hxa
        exact ha
      · exact ih u h x hxr

lemma checksnap_cases (snapname : String) (x : Nat) (e : Engine) :
    checksnap snapname x e = .ok () ∨
    checksnap snapname x e = .error .datasetExists := by
  unfold checksnap
  split
  · exact Or.inl rfl
  · split
    · exact Or.inr rfl
    · exact Or.inl rfl

lemma checksnap_ok_none {snapname : String} {x : Nat} {e : Engine}
    {dx : Dataset} (hfind : e.find? x = some dx)
    (h : checksnap snapname x e = .ok ()) :
    alGet dx.snapshots snapname = none := by
  unfold checksnap at h
  simp only [hfind] at h
  split at h
  · cases h
  · rename_i hc
    cases halG : alGet dx.snapshots snapname with
    | none => rfl
    | some v =>
      exfalso
      apply hc
      rw [halG]
      rfl

lemma checksnap_error_of {snapname : String} {x : Nat} {e : Engine}
    {dx : Dataset} (hfind : e.find? x = some dx)
    (hcol : (alGet dx.snapshots snapname).isSome = true) :
    checksnap snapname x e = .error .datasetExists := by
  unfold checksnap
  simp only [hfind]
  rw [if_pos hcol]

/-- The do pass of the recursive snapshot: every listed target gains a
snapshot with the shared creation transaction, nothing else changes. -/
lemma stepSnapList (host : HostFs) (snapname : String) (props : Props) :
    ∀ (l : List Nat) (ec eF : Engine) (u : Unit),
      stepList (fun x e => dosnap host snapname props x e) l ec =
        (.ok u, eF) →
      l.Nodup →
      (∀ x ∈ l, (ec.find? x).isSome = true) →
      (∀ j, ec.nextId ≤ j → ec.find? j = none) →
      ec.pendingTxg ≠ 0 →
      (∀ x ∈ l, ∃ dx nx nd, ec.find? x = some dx ∧
        eF.find? x = some { dx with snapshots := alPut (alPut dx.snapshots snapname nx) snapname nx } ∧
        eF.find? nx = some nd ∧ nd.dname = snapname ∧ nd.parent = some x ∧
        nd.dtype = DsType.snapshot ∧ nd.state = DsState.active ∧
        nd.createtxg = ec.txg) ∧
      (∀ j, (∀ x ∈ l, j ≠ x) → j < ec.nextId → eF.find? j = ec.find? j) ∧
      ec.nextId ≤ eF.nextId ∧ eF.txg = ec.txg ∧
      eF.pendingTxg = ec.pendingTxg ∧
      (∀ j, eF.nextId ≤ j → eF.find? j = none) := by
  intro l
  induction l with
  | nil =>
    intro ec eF u h hnd hsome hnf hpend
    unfold stepList at h
    injection h with h1 h2
    subst h2
    refine ⟨?_, fun j _ _ => rfl, Nat.le_refl _, rfl, rfl, hnf⟩
    intro x hx
    exact absurd hx (List.not_mem_nil x)
  | cons a rest ih =>
    intro ec eF u h hnd hsome hnf hpend
    unfold stepList at h
    split at h
    · injection h with h1 h2
      exact Except.noConfusion h1
    · rename_i u1 e1 hds
      have hsa := hsome a (List.mem_cons_self a rest)
      cases hda : ec.find? a with
      | none =>
        rw [hda] at hsa
        cases hsa
      | some da =>
        have hnone : ec.find? ec.nextId = none := hnf ec.nextId (Nat.le_refl _)
        have hdsS : dosnap host snapname props a ec = (.ok (), e1) := hds
        obtain ⟨hbi, ⟨nd, hnd1, hfc, hnm, hpar, hty, hst, hctx, hmt, hch,
          hsn, hh, hcl, hor⟩, hoth, hroot, hnext, hpendq, htxgq⟩ :=
          dosnap_success host snapname props a ec da e1 hnone hda hdsS
        have htxg1 : e1.txg = ec.txg := by
          rw [htxgq, if_neg hpend]
        have hlt : ∀ x ∈ a :: rest, x < ec.nextId := by
          intro x hx
          by_contra hge
          have hge2 : ec.nextId ≤ x := Nat.le_of_not_lt hge
          have hno := hnf x hge2
          have hs := hsome x hx
          rw [hno] at hs
          cases hs
        have hane : a < ec.nextId := hlt a (List.mem_cons_self a rest)
        have hnotin : a ∉ rest := (List.nodup_cons.mp hnd).1
        have hnd2 : rest.Nodup := (List.nodup_cons.mp hnd).2
        have hsome1 : ∀ x ∈ rest, (e1.find? x).isSome = true := by
          intro x hx
          have hxa : x ≠ a := fun hc => hnotin (hc ▸ hx)
          rw [hoth x hxa
            (Nat.ne_of_lt (hlt x (List.mem_cons_of_mem a hx)))]
          exact hsome x (List.mem_cons_of_mem a hx)
        have hnf1 : ∀ j, e1.nextId ≤ j → e1.find? j = none := by
          intro j hj
          rw [hnext] at hj
          have hj1 : j ≠ a := by
            intro hc
            subst hc
            omega
          have hj2 : j ≠ ec.nextId := by
            intro hc
            subst hc
            omega
          rw [hoth j hj1 hj2]
          exact hnf j (by omega)
        have hpend1 : e1.pendingTxg ≠ 0 := by
          rw [hpendq]
          exact hpend
        obtain ⟨hall, hframe, hmono, htxgF, hpendF, hnfF⟩ :=
          ih e1 eF u h hnd2 hsome1 hnf1 hpend1
        refine ⟨?_, ?_, ?_, ?_, ?_, hnfF⟩
        · intro x hx
          rcases List.mem_cons.mp hx with hxa | hxr
          · subst hxa
            have hsurv : eF.find? x = e1.find? x := by
              apply hframe
              · intro y hy
                exact fun hc => hnotin (hc ▸ hy)
              · rw [hnext]
                omega
            have hsurv2 : eF.find? ec.nextId = e1.find? ec.nextId := by
              apply hframe
              · intro y hy
                exact Ne.symm
                  (Nat.ne_of_lt (hlt y (List.mem_cons_of_mem x hy)))
              · rw [hnext]
                omega
            refine ⟨da, ec.nextId, nd, hda, ?_, ?_, hnm, hpar, hty, hst,
              hctx⟩
            · rw [hsurv]
              exact hbi
            · rw [hsurv2]
              exact hnd1
          · obtain ⟨dx, nx, ndx, h1, h2, h3, h4, h5, h6, h7, h8⟩ :=
              hall x hxr
            have hxa : x ≠ a := fun hc => hnotin (hc ▸ hxr)
            have hxn : x ≠ ec.nextId :=
              Nat.ne_of_lt (hlt x (List.mem_cons_of_mem a hxr))
            refine ⟨dx, nx, ndx, ?_, h2, h3, h4, h5, h6, h7, ?_⟩
            · rw [← hoth x hxa hxn]
              exact h1
            · rw [h8]
              exact htxg1
        · intro j hj hjlt
          have hja : j ≠ a := hj a (List.mem_cons_self a rest)
          have hjr : ∀ x ∈ rest, j ≠ x :=
            fun x hx => hj x (List.mem_cons_of_mem a hx)
          have hstep : eF.find? j = e1.find? j := by
            apply hframe j hjr
            rw [hnext]
            omega
          rw [hstep]
          exact hoth j hja (Nat.ne_of_lt hjlt)
        · rw [hnext] at hmono
          omega
        · rw [htxgF]
          exact htxg1
        · rw [hpendF]
          exact hpendq
/-- Carry the do-pass results through the fscontent fixup tail of
snapshot(): any step that at most rewrites fscontent slots preserves the
created snapshots and their identifying fields. -/
lemma snapTransfer (E1 e' : Engine) (snapname : String) (tx : Nat)
    (ys : List Nat)
    (htr : ∀ j X, E1.find? j = some X → ∃ Y, e'.find? j = some Y ∧
      Y.snapshots = X.snapshots ∧ Y.dname = X.dname ∧
      Y.parent = X.parent ∧ Y.dtype = X.dtype ∧ Y.state = X.state ∧
      Y.createtxg = X.createtxg)
    (hP : ∀ x ∈ ys, ∃ (dx : Dataset) (nx : Nat) (nd : Dataset),
      E1.find? x = some { dx with snapshots := alPut (alPut dx.snapshots snapname nx) snapname nx } ∧
      E1.find? nx = some nd ∧ nd.dname = snapname ∧ nd.parent = some x ∧
      nd.dtype = DsType.snapshot ∧ nd.state = DsState.active ∧
      nd.createtxg = tx) :
    ∀ x ∈ ys, ∃ nx dx nd, e'.find? x = some dx ∧
      alGet dx.snapshots snapname = some nx ∧ e'.find? nx = some nd ∧
      nd.dname = snapname ∧ nd.parent = some x ∧
      nd.dtype = DsType.snapshot ∧ nd.state = DsState.active ∧
      nd.createtxg = tx := by
  intro x hx
  obtain ⟨dx, nx, nd, h1, h2, h3, h4, h5, h6, h7⟩ := hP x hx
  obtain ⟨dx2, hdx2, hsn2, _, _, _, _, _⟩ := htr x _ h1
  obtain ⟨nd2, hnd2, _, hnm2, hpar2, hty2, hst2, hctx2⟩ := htr nx _ h2
  refine ⟨nx, dx2, nd2, hdx2, ?_, hnd2, hnm2.trans h3, hpar2.trans h4,
    hty2.trans h5, hst2.trans h6, hctx2.trans h7⟩
  rw [hsn2]
  exact alGet_alPut _ _ _

/- The grow relation: reflexivity, transitivity, the generating steps,
and what it preserves. -/

lemma grow_refl (e : Engine) : grow e e :=
  ⟨Nat.le_refl _, fun _ => Or.inl rfl⟩

lemma grow_trans {e1 e2 e3 : Engine} (h1 : grow e1 e2) (h2 : grow e2 e3) :
    grow e1 e3 := by
  refine ⟨Nat.le_trans h1.1 h2.1, fun j => ?_⟩
  rcases h2.2 j with heq2 | ⟨x, x2, hx, hx2, hor2, hty2, hcl2⟩ |
    ⟨hn2, hlt2, d2, hd2, hcl2⟩
  · rcases h1.2 j with heq1 | ⟨d, d1, hd, hd1, hor1, hty1, hcl1⟩ |
      ⟨hn1, hlt1, d1, hd1, hcl1⟩
    · exact Or.inl (heq2.trans heq1)
    · exact Or.inr (Or.inl ⟨d, d1, hd, heq2.trans hd1, hor1, hty1, hcl1⟩)
    · exact Or.inr (Or.inr ⟨hn1, Nat.lt_of_lt_of_le hlt1 h2.1, d1,
        heq2.trans hd1, hcl1⟩)
  · rcases h1.2 j with heq1 | ⟨d, d1, hd, hd1, hor1, hty1, hcl1⟩ |
      ⟨hn1, hlt1, d1, hd1, hcl1⟩
    · rw [heq1] at hx
      exact Or.inr (Or.inl ⟨x, x2, hx, hx2, hor2, hty2, hcl2⟩)
    · rw [hd1] at hx
      injection hx with hx
      subst hx
      exact Or.inr (Or.inl ⟨d, x2, hd, hx2, hor2.trans hor1,
        hty2.trans hty1, fun c hc => hcl1 c (hcl2 c hc)⟩)
    · rw [hd1] at hx
      injection hx with hx
      subst hx
      refine Or.inr (Or.inr ⟨hn1, Nat.lt_of_lt_of_le hlt1 h2.1, x2, hx2,
        ?_⟩)
      rw [hcl1] at hcl2
      exact List.eq_nil_iff_forall_not_mem.mpr
        (fun c hc => List.not_mem_nil c (hcl2 c hc))
  · rcases h1.2 j with heq1 | ⟨d, d1, hd, hd1, hor1, hty1, hcl1⟩ |
      ⟨hn1, hlt1, d1, hd1, hcl1⟩
    · rw [heq1] at hn2
      exact Or.inr (Or.inr ⟨hn2, hlt2, d2, hd2, hcl2⟩)
    · rw [hd1] at hn2
      cases hn2
    · rw [hd1] at hn2
      cases hn2

lemma grow_updDs (e : Engine) (i : Nat) (f : Dataset → Dataset)
    (hf : ∀ x, (f x).origin = x.origin ∧ (f x).dtype = x.dtype ∧
      ∀ c ∈ (f x).clones, c ∈ x.clones) :
    grow e (updDs e i f) := by
  refine ⟨Nat.le_refl _, fun j => ?_⟩
  rw [find_updDs]
  cases h : e.find? j with
  | none => exact Or.inl rfl
  | some d =>
    by_cases hji : j = i
    · refine Or.inr (Or.inl ⟨d, f d, rfl, ?_, (hf d).1, (hf d).2.1,
        (hf d).2.2⟩)
      simp [hji]
    · refine Or.inl ?_
      simp [hji, h]

lemma grow_dsEq {e e' : Engine} (hds : e'.ds = e.ds)
    (hn : e.nextId ≤ e'.nextId) : grow e e' := by
  refine ⟨hn, fun j => Or.inl ?_⟩
  unfold Engine.find?
  rw [hds]

lemma grow_append (e : Engine) (d0 : Dataset) (hnone : e.find? e.nextId = none)
    (hd0 : d0.clones = []) :
    grow e { e with ds := e.ds ++ [(e.nextId, d0)], nextId := e.nextId + 1 } := by
  refine ⟨Nat.le_succ _, fun j => ?_⟩
  cases h : e.find? j with
  | some x => exact Or.inl (find_append_some h)
  | none =>
    by_cases hj : j = e.nextId
    · subst hj
      refine Or.inr (Or.inr ⟨rfl, Nat.lt_succ_self _, d0, ?_, hd0⟩)
      rw [find_append_none h, if_pos rfl]
    · refine Or.inl ?_
      rw [find_append_ne hj, h]

lemma grow_NF {e e' : Engine} (h : grow e e')
    (hnf : ∀ j, e.nextId ≤ j → e.find? j = none) :
    ∀ j, e'.nextId ≤ j → e'.find? j = none := by
  intro j hj
  rcases h.2 j with heq | ⟨d, d', hd, hd', _, _, _⟩ | ⟨hn, hlt, _, _, _⟩
  · rw [heq]
    exact hnf j (Nat.le_trans h.1 hj)
  · exact absurd (hnf j (Nat.le_trans h.1 hj)) (by rw [hd]; simp)
  · omega

lemma grow_push {e e' : Engine} (h : grow e e') :
    ∀ c cd, e.find? c = some cd →
      ∃ cd', e'.find? c = some cd' ∧ cd'.origin = cd.origin := by
  intro c cd hcd
  rcases h.2 c with heq | ⟨x, x', hx, hx', hor, _, _⟩ | ⟨hn, _, _, _, _⟩
  · exact ⟨cd, heq.trans hcd, rfl⟩
  · rw [hcd] at hx
    injection hx with hx
    subst hx
    exact ⟨x', hx', hor⟩
  · rw [hcd] at hn
    cases hn

/-- grow preserves the clone/origin symmetry. -/
lemma grow_cloneEdges {e e' : Engine} (h : grow e e')
    (hok : cloneEdgesOk e.ds) : cloneEdgesOk e'.ds := by
  intro s ds4 hs hsnap c hc
  have hs2 : e'.find? s = some ds4 := hs
  rcases h.2 s with heq | ⟨x, x', hx, hx', hor, hty, hcl⟩ |
    ⟨hn, hlt, d', hd', hcl0⟩
  · have hse : e.find? s = some ds4 := heq.symm.trans hs2
    obtain ⟨cd, hcd, hcor⟩ := hok s ds4 hse hsnap c hc
    obtain ⟨cd', hcd', hor'⟩ := grow_push h c cd hcd
    exact ⟨cd', hcd', hor'.trans hcor⟩
  · rw [hs2] at hx'
    injection hx' with hx'
    subst hx'
    have hxs : x.dtype = DsType.snapshot := hty.symm.trans hsnap
    obtain ⟨cd, hcd, hcor⟩ := hok s x hx hxs c (hcl c hc)
    obtain ⟨cd', hcd', hor'⟩ := grow_push h c cd hcd
    exact ⟨cd', hcd', hor'.trans hcor⟩
  · rw [hs2] at hd'
    injection hd' with hd'
    subst hd'
    rw [hcl0] at hc
    exact absurd hc (List.not_mem_nil c)

lemma spliceOut_subset (l : List Nat) (c : Nat) :
    ∀ x ∈ spliceOut l c, x ∈ l := by
  intro x hx
  unfold spliceOut at hx
  split at hx
  · exact List.eraseIdx_subset _ _ hx
  · exact List.eraseIdx_subset _ _ hx

lemma findClones_updDs {e : Engine} {j k : Nat} {f : Dataset → Dataset}
    (hf : ∀ x, (f x).clones = x.clones) {x : Dataset}
    (hX : e.find? k = some x) :
    ∃ x2, (updDs e j f).find? k = some x2 ∧ x2.clones = x.clones := by
  rw [find_updDs, hX]
  by_cases hkj : k = j
  · subst hkj
    simp only [if_pos rfl, Option.map_some']
    exact ⟨f x, rfl, hf x⟩
  · simp only [if_neg hkj, Option.map_some']
    exact ⟨x, rfl, rfl⟩

/- grow for the mutation primitives of mount, unmount and the property
setters. -/

lemma grow_mnttab (e : Engine) (m : List (String × Nat)) :
    grow e { e with mnttab := m } :=
  grow_dsEq rfl (Nat.le_refl _)

lemma mount_grow (host : HostFs) (ign : Bool) (i : Nat) (e : Engine) :
    grow e (mount host ign i e).2 := by
  unfold mount
  repeat' split
  all_goals
    first
      | exact grow_refl e
      | (rw [notMountableRes_snd]; exact grow_refl e)
      | exact grow_trans (grow_mnttab e _)
          (grow_updDs _ i _ (fun x => ⟨rfl, rfl, fun c hc => hc⟩))

lemma unmount_grow (host : HostFs) (i : Nat) (e : Engine) :
    grow e (unmount host i e).2 := by
  unfold unmount
  repeat' split
  all_goals
    first
      | exact grow_refl e
      | exact grow_trans (grow_mnttab e _)
          (grow_updDs _ i _ (fun x => ⟨rfl, rfl, fun c hc => hc⟩))

lemma setEnumProp_grow (valid : List String)
    (upd : String → Dataset → Dataset)
    (hupd : ∀ sv x, (upd sv x).origin = x.origin ∧
      (upd sv x).dtype = x.dtype ∧ (upd sv x).clones = x.clones)
    (i : Nat) (v : PVal) (e : Engine) :
    grow e (setEnumProp valid upd i v e).2 := by
  unfold setEnumProp
  repeat' split
  all_goals first
    | exact grow_refl e
    | exact grow_updDs e i _ (fun x => ⟨(hupd _ x).1, (hupd _ x).2.1,
        fun c hc => by rw [(hupd _ x).2.2] at hc; exact hc⟩)

lemma setCopies_grow (i : Nat) (v : PVal) (e : Engine) :
    grow e (setCopies i v e).2 := by
  unfold setCopies
  repeat' split
  all_goals first
    | exact grow_refl e
    | exact grow_updDs e i _ (fun x => ⟨rfl, rfl, fun c hc => hc⟩)

lemma setMountpoint_grow (host : HostFs) (i : Nat) (v : PVal)
    (e : Engine) : grow e (setMountpoint host i v e).2 := by
  unfold setMountpoint
  repeat' split
  all_goals first
    | exact grow_refl e
    | skip
  all_goals rename_i heq
  all_goals
    have hu := unmount_grow host i e
  all_goals rw [heq] at hu
  all_goals simp only [] at hu ⊢
  · exact hu
  · refine grow_trans hu (grow_trans (grow_updDs _ i _ ?_)
      (mount_grow host true i _))
    intro x
    exact ⟨rfl, rfl, fun c hc => hc⟩

lemma setQuota_grow (i : Nat) (v : PVal) (e : Engine) :
    grow e (setQuota i v e).2 := by
  unfold setQuota
  repeat' split
  all_goals first
    | exact grow_refl e
    | exact grow_updDs e i _ (fun x => ⟨rfl, rfl, fun c hc => hc⟩)

lemma setReadOnlyProp_grow (i : Nat) (e : Engine) :
    grow e (setReadOnlyProp i e).2 := by
  unfold setReadOnlyProp
  repeat' split
  all_goals exact grow_refl e

lemma setProp_grow (host : HostFs) (i : Nat) (pname : String) (v : PVal)
    (e : Engine) : grow e (setProp host i pname v e).2 := by
  unfold setProp
  repeat' split
  all_goals first
    | (apply setEnumProp_grow
       intro sv x
       exact ⟨rfl, rfl, rfl⟩)
    | exact setCopies_grow i v e
    | exact setMountpoint_grow host i v e
    | exact setQuota_grow i v e
    | exact setReadOnlyProp_grow i e
    | exact grow_refl e

lemma stepList_grow {α : Type} {f : α → Engine → Except Err Unit × Engine}
    (hf : ∀ a e, (∀ j, e.nextId ≤ j → e.find? j = none) →
      grow e (f a e).2) :
    ∀ (l : List α) (e : Engine),
      (∀ j, e.nextId ≤ j → e.find? j = none) →
      grow e (stepList f l e).2 := by
  intro l
  induction l with
  | nil => intro e _; exact grow_refl e
  | cons a rest ih =>
    intro e hnf
    unfold stepList
    split
    · rename_i er e1 heq
      have h1 := hf a e hnf
      rw [heq] at h1
      exact h1
    · rename_i u e1 heq
      have h1 := hf a e hnf
      rw [heq] at h1
      exact grow_trans h1 (ih e1 (grow_NF h1 hnf))

lemma stepList_grow0 {α : Type}
    {f : α → Engine → Except Err Unit × Engine}
    (hf : ∀ a e, grow e (f a e).2) :
    ∀ (l : List α) (e : Engine), grow e (stepList f l e).2 := by
  intro l
  induction l with
  | nil => intro e; exact grow_refl e
  | cons a rest ih =>
    intro e
    unfold stepList
    split
    · rename_i er e1 heq
      have h1 := hf a e
      rw [heq] at h1
      exact h1
    · rename_i u e1 heq
      have h1 := hf a e
      rw [heq] at h1
      exact grow_trans h1 (ih e1)

lemma applyProps_grow (host : HostFs) (i : Nat) (props : Props)
    (e : Engine) : grow e (applyProps host i props e).2 := by
  unfold applyProps
  exact stepList_grow0 (fun a e => setProp_grow host i a.1 a.2 e) props e

lemma register_grow (parent : Option Nat) (dtype : DsType) (name : String)
    (nid : Nat) (e : Engine) : grow e (register parent dtype name nid e) := by
  unfold register
  split
  · exact grow_dsEq rfl (Nat.le_refl _)
  · refine grow_updDs e _ _ (fun x => ?_)
    split
    · exact ⟨rfl, rfl, fun c hc => hc⟩
    · exact ⟨rfl, rfl, fun c hc => hc⟩

lemma grow_of_applyProps {host : HostFs} {i : Nat} {props : Props}
    {e : Engine} {r : Except Err Unit} {e2 : Engine}
    (h : applyProps host i props e = (r, e2)) : grow e e2 := by
  have h1 := applyProps_grow host i props e
  rw [h] at h1
  exact h1

lemma grow_of_mount {host : HostFs} {ign : Bool} {i : Nat} {e : Engine}
    {r : Except Err Unit} {e2 : Engine}
    (h : mount host ign i e = (r, e2)) : grow e e2 := by
  have h1 := mount_grow host ign i e
  rw [h] at h1
  exact h1

lemma grow_of_unmount {host : HostFs} {i : Nat} {e : Engine}
    {r : Except Err Unit} {e2 : Engine}
    (h : unmount host i e = (r, e2)) : grow e e2 := by
  have h1 := unmount_grow host i e
  rw [h] at h1
  exact h1

/-- The constructor only allocates one fresh record (clones empty) and
rewrites collections, flags and local slots: a grow step. -/
lemma grow_of_mkDataset {host : HostFs} {parent : Option Nat}
    {name : String} {dtype : DsType} {props : Props} {fsc : Option Nat}
    {e : Engine} {r : Except Err Nat} {e2 : Engine}
    (hnone : e.find? e.nextId = none)
    (h : mkDataset host parent name dtype props fsc e = (r, e2)) :
    grow e e2 := by
  unfold mkDataset at h
  split at h
  · injection h with h1 h2
    subst h2
    exact grow_refl e
  · split at h
    · injection h with h1 h2
      subst h2
      exact grow_refl e
    · simp only [] at h
      split at h
      · rename_i er e2x hprops
        injection h with h1 h2
        subst h2
        exact grow_trans (grow_append e _ hnone (by exact rfl))
          (grow_of_applyProps hprops)
      · rename_i u e2b hprops
        have g2 : grow e e2b :=
          grow_trans (grow_append e _ hnone (by exact rfl))
            (grow_of_applyProps hprops)
        have g3 : grow e (updDs e2b e.nextId
            (fun x => { x with state := DsState.active })) :=
          grow_trans g2
            (grow_updDs _ _ _ (fun x => ⟨rfl, rfl, fun c hc => hc⟩))
        have g4 : grow e (register parent dtype name e.nextId
            (updDs e2b e.nextId
              (fun x => { x with state := DsState.active }))) :=
          grow_trans g3 (register_grow _ _ _ _ _)
        split at h
        · injection h with h1 h2
          subst h2
          exact g3
        · split at h
          · injection h with h1 h2
            subst h2
            exact g3
          · generalize hR : register parent dtype name e.nextId
              (updDs e2b e.nextId
                (fun x => { x with state := DsState.active })) = R at h g4
            have g6 : grow e
                (if R.pendingTxg = 0 then { R with txg := R.txg + 1 }
                 else R) := by
              split
              · exact grow_trans g4 (grow_dsEq rfl (Nat.le_refl _))
              · exact g4
            repeat' split at h
            all_goals injection h with h1 h2
            all_goals subst h2
            all_goals
              first
                | exact g4
                | exact g6
                | exact grow_trans g4 (grow_dsEq rfl (Nat.le_refl _))
                | exact grow_trans g6 (grow_of_mount (by assumption))
                | exact grow_trans g4 (grow_of_mount (by assumption))
                | exact grow_trans (grow_trans g4
                    (grow_dsEq rfl (Nat.le_refl _)))
                    (grow_of_mount (by assumption))

lemma grow_extend {e e1 e2 : Engine} (g : grow e e1) (hds : e2.ds = e1.ds)
    (hn : e1.nextId ≤ e2.nextId) : grow e e2 :=
  grow_trans g (grow_dsEq hds hn)

lemma grow_setRoot {e e1 : Engine} (g : grow e e1)
    (rc : List (String × Nat)) :
    grow e { e1 with rootChildren := rc } :=
  grow_trans g (grow_dsEq rfl (Nat.le_refl _))

lemma grow_of_dosnap {host : HostFs} {snapname : String} {props : Props}
    {x : Nat} {e : Engine} {r : Except Err Unit} {e2 : Engine}
    (hnone : e.find? e.nextId = none)
    (h : dosnap host snapname props x e = (r, e2)) : grow e e2 := by
  unfold dosnap at h
  split at h
  · rename_i er e1 hmk
    injection h with h1 h2
    subst h2
    exact grow_of_mkDataset hnone hmk
  · rename_i nid e1 hmk
    have g1 : grow e e1 := grow_of_mkDataset hnone hmk
    simp only [] at h
    split at h
    · injection h with h1 h2
      subst h2
      refine grow_trans g1 (grow_updDs _ _ _ ?_)
      exact fun y => ⟨rfl, rfl, fun c hc => hc⟩
    · injection h with h1 h2
      subst h2
      refine grow_trans (grow_trans g1 (grow_updDs _ _ _ ?_))
        (grow_updDs _ _ _ ?_)
      · exact fun y => ⟨rfl, rfl, fun c hc => hc⟩
      · exact fun y => ⟨rfl, rfl, fun c hc => hc⟩

lemma grow_of_stepList0 {α : Type}
    {f : α → Engine → Except Err Unit × Engine} {l : List α} {e : Engine}
    {r : Except Err Unit} {e2 : Engine}
    (hf : ∀ a e, grow e (f a e).2)
    (h : stepList f l e = (r, e2)) : grow e e2 := by
  have h1 := stepList_grow0 hf l e
  rw [h] at h1
  exact h1

lemma grow_of_stepListNF {α : Type}
    {f : α → Engine → Except Err Unit × Engine} {l : List α} {e : Engine}
    {r : Except Err Unit} {e2 : Engine}
    (hf : ∀ a e, (∀ j, e.nextId ≤ j → e.find? j = none) →
      grow e (f a e).2)
    (hnf : ∀ j, e.nextId ≤ j → e.find? j = none)
    (h : stepList f l e = (r, e2)) : grow e e2 := by
  have h1 := stepList_grow hf l e hnf
  rw [h] at h1
  exact h1

lemma grow_of_doDescendants0 {types : List String}
    {chk : Nat → Engine → Except Err Unit}
    {act : Nat → Engine → Except Err Unit × Engine}
    {filt : Option (Nat → Engine → Bool)} {i : Nat} {e : Engine}
    {r : Except Err Unit} {e2 : Engine}
    (hact : ∀ a e, grow e (act a e).2)
    (h : doDescendants types chk act filt i e = (r, e2)) : grow e e2 := by
  unfold doDescendants at h
  repeat'
    first
      | split at h
      | simp only [] at h
  all_goals
    first
      | (injection h with h1 h2
         subst h2
         exact grow_refl e)
      | exact grow_of_stepList0 hact h

lemma grow_of_doDescendantsNF {types : List String}
    {chk : Nat → Engine → Except Err Unit}
    {act : Nat → Engine → Except Err Unit × Engine}
    {filt : Option (Nat → Engine → Bool)} {i : Nat} {e : Engine}
    {r : Except Err Unit} {e2 : Engine}
    (hact : ∀ a e, (∀ j, e.nextId ≤ j → e.find? j = none) →
      grow e (act a e).2)
    (hnf : ∀ j, e.nextId ≤ j → e.find? j = none)
    (h : doDescendants types chk act filt i e = (r, e2)) : grow e e2 := by
  unfold doDescendants at h
  repeat'
    first
      | split at h
      | simp only [] at h
  all_goals
    first
      | (injection h with h1 h2
         subst h2
         exact grow_refl e)
      | exact grow_of_stepListNF hact hnf h

lemma grow_of_snapshotOp {host : HostFs} {recursive : Bool}
    {snapname : String} {props : Props} {i : Nat} {e : Engine}
    {r : Except Err Nat} {e2 : Engine}
    (hnf : ∀ j, e.nextId ≤ j → e.find? j = none)
    (h : snapshotOp host recursive snapname props i e = (r, e2)) :
    grow e e2 := by
  have hnfep : ∀ j, Engine.nextId { e with pendingTxg := e.txg } ≤ j →
      Engine.find? { e with pendingTxg := e.txg } j = none := hnf
  cases recursive with
  | true =>
    unfold snapshotOp at h
    split at h
    · injection h with h1 h2
      subst h2
      exact grow_refl e
    · split at h
      · injection h with h1 h2
        subst h2
        exact grow_refl e
      · split at h
        · injection h with h1 h2
          subst h2
          exact grow_refl e
        · simp only [if_true] at h
          cases hdd : doDescendants ["filesystem", "volume"]
              (fun x e => checksnap snapname x e)
              (fun x e => dosnap host snapname props x e) none i
              { e with pendingTxg := e.txg } with
          | mk rb eb =>
            rw [hdd] at h
            try simp only [] at h
            have gB : grow e eb := by
              refine grow_trans ?_ (grow_of_doDescendantsNF ?_ hnfep hdd)
              · exact grow_dsEq rfl (Nat.le_refl _)
              · intro a e3 hnf3
                exact grow_of_dosnap (hnf3 _ (Nat.le_refl _)) rfl
            cases rb with
            | error er =>
              try simp only [] at h
              injection h with h1 h2
              subst h2
              exact grow_trans gB (grow_dsEq rfl (Nat.le_refl _))
            | ok ub =>
              try simp only [] at h
              have gE1 : grow e
                  { eb with txg := eb.txg + 1, pendingTxg := 0 } :=
                grow_trans gB (grow_dsEq rfl (Nat.le_refl _))
              repeat' split at h
              all_goals injection h with h1 h2
              all_goals subst h2
              all_goals
                first
                  | exact gE1
                  | (refine grow_trans gE1 (grow_updDs _ _ _ ?_)
                     exact fun y => ⟨rfl, rfl, fun c hc => hc⟩)
  | false =>
    unfold snapshotOp at h
    split at h
    · injection h with h1 h2
      subst h2
      exact grow_refl e
    · split at h
      · injection h with h1 h2
        subst h2
        exact grow_refl e
      · split at h
        · injection h with h1 h2
          subst h2
          exact grow_refl e
        · simp only [] at h
          rw [if_neg (show ¬(false = true) by decide)] at h
          cases hchk : checksnap snapname i
              { e with pendingTxg := e.txg } with
          | error er =>
            rw [hchk] at h
            try simp only [] at h
            injection h with h1 h2
            subst h2
            exact grow_dsEq rfl (Nat.le_refl _)
          | ok u1 =>
            rw [hchk] at h
            try simp only [] at h
            cases hds : dosnap host snapname props i
                { e with pendingTxg := e.txg } with
            | mk rb eb =>
              rw [hds] at h
              try simp only [] at h
              have gB : grow e eb := by
                refine grow_trans ?_ (grow_of_dosnap ?_ hds)
                · exact grow_dsEq rfl (Nat.le_refl _)
                · exact hnfep _ (Nat.le_refl _)
              cases rb with
              | error er =>
                try simp only [] at h
                injection h with h1 h2
                subst h2
                exact grow_trans gB (grow_dsEq rfl (Nat.le_refl _))
              | ok ub =>
                try simp only [] at h
                have gE1 : grow e
                    { eb with txg := eb.txg + 1, pendingTxg := 0 } :=
                  grow_trans gB (grow_dsEq rfl (Nat.le_refl _))
                repeat' split at h
                all_goals injection h with h1 h2
                all_goals subst h2
                all_goals
                  first
                    | exact gE1
                    | (refine grow_trans gE1 (grow_updDs _ _ _ ?_)
                       exact fun y => ⟨rfl, rfl, fun c hc => hc⟩)

lemma unregisterDs_grow (i : Nat) (e : Engine) :
    grow e (unregisterDs i e) := by
  unfold unregisterDs
  repeat'
    first
      | split
      | simp only []
  all_goals
    first
      | exact grow_refl e
      | (refine grow_updDs _ _ _ ?_
         exact fun x => ⟨rfl, rfl, fun c hc => hc⟩)
      | (refine grow_updDs _ _ _ ?_
         exact fun x => ⟨rfl, rfl, fun c hc => spliceOut_subset _ _ c hc⟩)
      | exact grow_dsEq rfl (Nat.le_refl _)
      | (refine grow_trans (grow_updDs _ _ _ ?_) (grow_updDs _ _ _ ?_)
         · exact fun x => ⟨rfl, rfl,
             fun c hc => spliceOut_subset _ _ c hc⟩
         · exact fun x => ⟨rfl, rfl, fun c hc => hc⟩)
      | (refine grow_setRoot (grow_updDs _ _ _ ?_) _
         exact fun x => ⟨rfl, rfl, fun c hc => spliceOut_subset _ _ c hc⟩)

lemma grow_of_destroy1 {host : HostFs} {i : Nat} {e : Engine}
    {r : Except Err Unit} {e2 : Engine}
    (h : destroy1 host i e = (r, e2)) : grow e e2 := by
  unfold destroy1 at h
  repeat'
    first
      | split at h
      | simp only [] at h
  all_goals injection h with h1 h2
  all_goals subst h2
  all_goals
    first
      | exact grow_refl e
      | exact grow_of_unmount (by assumption)
      | (refine grow_trans (grow_of_unmount (by assumption))
           (grow_trans (unregisterDs_grow i _) (grow_updDs _ _ _ ?_))
         exact fun x => ⟨rfl, rfl, fun c hc => hc⟩)

lemma grow_of_destroyRec {host : HostFs} {i : Nat} {e : Engine}
    {r : Except Err Unit} {e2 : Engine}
    (h : destroyRec host i e = (r, e2)) : grow e e2 := by
  unfold destroyRec at h
  repeat'
    first
      | split at h
      | simp only [] at h
  all_goals injection h with h1 h2
  all_goals subst h2
  all_goals
    first
      | exact grow_refl e
      | exact grow_of_stepList0 (fun a e3 => grow_of_destroy1 rfl)
          (by assumption)
      | exact grow_trans
          (grow_of_stepList0 (fun a e3 => grow_of_destroy1 rfl)
            (by assumption))
          (grow_of_unmount (by assumption))
      | (refine grow_trans
           (grow_trans
             (grow_of_stepList0 (fun a e3 => grow_of_destroy1 rfl)
               (by assumption))
             (grow_of_unmount (by assumption)))
           (grow_trans (unregisterDs_grow i _) (grow_updDs _ _ _ ?_))
         exact fun x => ⟨rfl, rfl, fun c hc => hc⟩)

lemma grow_of_destroyDs {host : HostFs} {recursive : Bool} {i : Nat}
    {e : Engine} {r : Except Err Unit} {e2 : Engine}
    (h : destroyDs host recursive i e = (r, e2)) : grow e e2 := by
  unfold destroyDs at h
  split at h
  · exact grow_of_destroyRec h
  · exact grow_of_destroy1 h

lemma grow_of_maybeUnmount {host : HostFs} {i : Nat} {e : Engine}
    {mounted : Bool} {r : Except Err Unit} {e1 : Engine}
    (h : (if mounted then unmount host i e else (.ok (), e)) = (r, e1)) :
    grow e e1 := by
  split at h
  · exact grow_of_unmount h
  · injection h with h1 h2
    subst h2
    exact grow_refl e

lemma grow_of_holdOp {recursive : Bool} {reason : String} {i : Nat}
    {e : Engine} {r : Except Err Unit} {e2 : Engine}
    (h : holdOp recursive reason i e = (r, e2)) : grow e e2 := by
  unfold holdOp at h
  simp only [] at h
  repeat' split at h
  all_goals
    first
      | (injection h with h1 h2
         subst h2
         first
           | exact grow_refl e
           | (refine grow_updDs _ _ _ ?_
              intro x
              split
              · exact ⟨rfl, rfl, fun c hc => hc⟩
              · exact ⟨rfl, rfl, fun c hc => hc⟩))
      | (refine grow_of_doDescendants0 ?_ h
         intro a e3
         refine grow_updDs _ _ _ ?_
         intro x
         split
         · exact ⟨rfl, rfl, fun c hc => hc⟩
         · exact ⟨rfl, rfl, fun c hc => hc⟩)

lemma grow_of_releaseOp {recursive : Bool} {reason : String} {i : Nat}
    {e : Engine} {r : Except Err Unit} {e2 : Engine}
    (h : releaseOp recursive reason i e = (r, e2)) : grow e e2 := by
  unfold releaseOp at h
  simp only [] at h
  repeat' split at h
  all_goals
    first
      | (injection h with h1 h2
         subst h2
         first
           | exact grow_refl e
           | (refine grow_updDs _ _ _ ?_
              exact fun x => ⟨rfl, rfl, fun c hc => hc⟩))
      | (refine grow_of_doDescendants0 ?_ h
         intro a e3
         refine grow_updDs _ _ _ ?_
         exact fun x => ⟨rfl, rfl, fun c hc => hc⟩)

lemma grow_of_destroyPool {host : HostFs} {poolname : String} {e : Engine}
    {r : Except Err Unit} {e2 : Engine}
    (h : destroyPoolOp host poolname e = (r, e2)) : grow e e2 := by
  unfold destroyPoolOp at h
  repeat' split at h
  all_goals injection h with h1 h2
  all_goals subst h2
  all_goals
    first
      | exact grow_refl e
      | (refine grow_of_stepList0 ?_ (by assumption)
         intro a e3
         refine grow_trans ?_ (grow_updDs _ _ _ ?_)
         · split
           · exact grow_refl e3
           · split
             · exact unmount_grow host a e3
             · exact grow_refl e3
         · exact fun x => ⟨rfl, rfl, fun c hc => hc⟩)
      | (refine grow_setRoot (grow_of_stepList0 ?_ (by assumption)) _
         intro a e3
         refine grow_trans ?_ (grow_updDs _ _ _ ?_)
         · split
           · exact grow_refl e3
           · split
             · exact unmount_grow host a e3
             · exact grow_refl e3
         · exact fun x => ⟨rfl, rfl, fun c hc => hc⟩)

lemma grow_of_mkParents {host : HostFs} :
    ∀ (names : List String) (pds : Nat) (e : Engine) {r : Except Err Nat}
      {e2 : Engine},
      (∀ j, e.nextId ≤ j → e.find? j = none) →
      mkParents host names pds e = (r, e2) → grow e e2 := by
  intro names
  induction names with
  | nil =>
    intro pds e r e2 hnf h
    unfold mkParents at h
    injection h with h1 h2
    subst h2
    exact grow_refl e
  | cons pname rest ih =>
    intro pds e r e2 hnf h
    unfold mkParents at h
    split at h
    · rename_i er e1 hmk
      injection h with h1 h2
      subst h2
      exact grow_of_mkDataset (hnf _ (Nat.le_refl _)) hmk
    · rename_i nid e1 hmk
      have g1 : grow e e1 := grow_of_mkDataset (hnf _ (Nat.le_refl _)) hmk
      exact grow_trans g1 (ih nid e1 (grow_NF g1 hnf) h)

lemma grow_of_setProp {host : HostFs} {i : Nat} {pname : String}
    {v : PVal} {e : Engine} {r : Except Err Unit} {e2 : Engine}
    (h : setProp host i pname v e = (r, e2)) : grow e e2 := by
  have h1 := setProp_grow host i pname v e
  rw [h] at h1
  exact h1

set_option maxHeartbeats 2000000 in
lemma grow_of_renameOp {host : HostFs} {i : Nat} {newname : String}
    {parents : Bool} {e : Engine} {r : Except Err Unit} {e2 : Engine}
    (h : renameOp host i newname parents e = (r, e2)) : grow e e2 := by
  unfold renameOp at h
  repeat'
    first
      | split at h
      | simp only [] at h
  all_goals
    first
      | (injection h with h1 h2
         subst h2
         first
           | exact grow_refl e
           | (refine grow_updDs _ _ _ ?_
              exact fun x => ⟨rfl, rfl, fun c hc => hc⟩)
           | exact grow_of_maybeUnmount (by assumption)
           | exact grow_of_unmount (by assumption)
           | (refine grow_trans
                (grow_setRoot (grow_of_maybeUnmount (by assumption)) _)
                (grow_trans (grow_updDs _ _ _ ?_) (grow_updDs _ _ _ ?_))
              · exact fun x => ⟨rfl, rfl, fun c hc => hc⟩
              · exact fun x => ⟨rfl, rfl, fun c hc => hc⟩)
           | (refine grow_trans (grow_of_maybeUnmount (by assumption))
                (grow_trans (grow_updDs _ _ _ ?_)
                  (grow_trans (grow_updDs _ _ _ ?_) (grow_updDs _ _ _ ?_)))
              · exact fun x => ⟨rfl, rfl, fun c hc => hc⟩
              · exact fun x => ⟨rfl, rfl, fun c hc => hc⟩
              · exact fun x => ⟨rfl, rfl, fun c hc => hc⟩))
      | (refine grow_trans
           (grow_trans (grow_setRoot (grow_of_maybeUnmount (by assumption)) _)
             (grow_trans (grow_updDs _ _ _ ?_) (grow_updDs _ _ _ ?_)))
           (grow_of_mount h)
         · exact fun x => ⟨rfl, rfl, fun c hc => hc⟩
         · exact fun x => ⟨rfl, rfl, fun c hc => hc⟩)
      | (refine grow_trans
           (grow_trans (grow_of_maybeUnmount (by assumption))
             (grow_trans (grow_updDs _ _ _ ?_)
               (grow_trans (grow_updDs _ _ _ ?_) (grow_updDs _ _ _ ?_))))
           (grow_of_mount h)
         · exact fun x => ⟨rfl, rfl, fun c hc => hc⟩
         · exact fun x => ⟨rfl, rfl, fun c hc => hc⟩
         · exact fun x => ⟨rfl, rfl, fun c hc => hc⟩)

lemma sub_nil_eq {l m : List Nat} (hsub : ∀ x ∈ l, x ∈ m)
    (hm : m = []) : l = [] := by
  cases hl : l with
  | nil => rfl
  | cons a t =>
    have ha := hsub a (by rw [hl]; exact List.mem_cons_self a t)
    rw [hm] at ha
    exact absurd ha (List.not_mem_nil a)

lemma grow_keep {e e' : Engine} (h : grow e e') :
    ∀ c cd, e.find? c = some cd →
      ∃ cd', e'.find? c = some cd' ∧ cd'.origin = cd.origin ∧
        cd'.dtype = cd.dtype ∧ ∀ x ∈ cd'.clones, x ∈ cd.clones := by
  intro c cd hcd
  rcases h.2 c with heq | ⟨x, x', hx, hx', hor, hty, hcl⟩ | ⟨hn, _, _, _, _⟩
  · exact ⟨cd, heq.trans hcd, rfl, rfl, fun y hy => hy⟩
  · rw [hcd] at hx
    injection hx with hx
    subst hx
    exact ⟨x', hx', hor, hty, hcl⟩
  · rw [hcd] at hn
    cases hn

lemma keep_updDs {e : Engine} {j k : Nat} {f : Dataset → Dataset}
    (hf : ∀ x, (f x).origin = x.origin ∧ (f x).dtype = x.dtype ∧
      (f x).clones = x.clones)
    {x : Dataset} (hX : e.find? k = some x) :
    ∃ x2, (updDs e j f).find? k = some x2 ∧ x2.origin = x.origin ∧
      x2.dtype = x.dtype ∧ x2.clones = x.clones := by
  rw [find_updDs, hX]
  by_cases hkj : k = j
  · simp only [if_pos hkj, Option.map_some']
    exact ⟨f x, rfl, (hf x).1, (hf x).2.1, (hf x).2.2⟩
  · simp only [if_neg hkj, Option.map_some']
    exact ⟨x, rfl, rfl, rfl, rfl⟩

lemma register_keep (parent : Option Nat) (dtype : DsType) (name : String)
    (nid : Nat) {e : Engine} {k : Nat} {x : Dataset}
    (hX : e.find? k = some x) :
    ∃ x2, (register parent dtype name nid e).find? k = some x2 ∧
      x2.origin = x.origin ∧ x2.dtype = x.dtype ∧ x2.clones = x.clones := by
  unfold register
  split
  · exact ⟨x, hX, rfl, rfl, rfl⟩
  · refine keep_updDs ?_ hX
    intro y
    split
    · exact ⟨rfl, rfl, rfl⟩
    · exact ⟨rfl, rfl, rfl⟩

lemma nf_of_keys {e : Engine} (hk : ∀ p ∈ e.ds, p.1 < e.nextId) :
    ∀ j, e.nextId ≤ j → e.find? j = none := by
  intro j hj
  cases hfind : e.find? j with
  | none => rfl
  | some d =>
    obtain ⟨p, hp, hp1, hp2⟩ := lookupA_some_mem hfind
    have := hk p hp
    omega

lemma cloneEdgesOk_of_chk {l : List (Nat × Dataset)}
    (h : cloneEdgesChk l = true) : cloneEdgesOk l := by
  unfold cloneEdgesChk at h
  rw [List.all_eq_true] at h
  intro i d hl hsnap c hc
  obtain ⟨p, hp, hp1, hp2⟩ := lookupA_some_mem hl
  have h1 := h p hp
  simp only [] at h1
  rw [hp2] at h1
  rw [if_pos hsnap] at h1
  rw [List.all_eq_true] at h1
  have h2 := h1 c hc
  cases hlc : lookupA l c with
  | none =>
    rw [hlc] at h2
    exact absurd (show false = true from h2) (by decide)
  | some cd =>
    rw [hlc] at h2
    refine ⟨cd, rfl, ?_⟩
    rw [← hp1]
    exact eq_of_beq h2

lemma mkDataset_ok_shape {host : HostFs} {parent : Option Nat}
    {name : String} {dtype : DsType} {props : Props} {fsc : Option Nat}
    {e : Engine} {nid : Nat} {e2 : Engine}
    (hnone : e.find? e.nextId = none)
    (h : mkDataset host parent name dtype props fsc e = (.ok nid, e2)) :
    nid = e.nextId ∧
    ∃ ndc, e2.find? nid = some ndc ∧ ndc.origin = none ∧
      ndc.clones = [] := by
  unfold mkDataset at h
  split at h
  · injection h with h1 h2
    exact Except.noConfusion h1
  · split at h
    · injection h with h1 h2
      exact Except.noConfusion h1
    · simp only [] at h
      split at h
      · injection h with h1 h2
        exact Except.noConfusion h1
      · rename_i u2 e2A hAP
        obtain ⟨dA, hdA, horA, htyA, hclA⟩ :=
          grow_keep (grow_of_applyProps hAP) _ _
            ((find_append_none hnone).trans (if_pos rfl))
        have hclA2 : dA.clones = [] := sub_nil_eq hclA rfl
        have hd3 := find_updDs_self e2A e.nextId
          (fun d => { d with state := DsState.active }) dA hdA
        split at h
        · injection h with h1 h2
          exact Except.noConfusion h1
        · split at h
          · injection h with h1 h2
            exact Except.noConfusion h1
          · try simp only [] at h
            obtain ⟨dR, hdR, horR, htyR, hclR⟩ :=
              register_keep parent dtype name e.nextId hd3
            generalize hR : register parent dtype name e.nextId
              (updDs e2A e.nextId (fun d =>
                { d with state := DsState.active })) = R at h hdR
            by_cases hpt : R.pendingTxg = 0
            · rw [if_pos hpt] at h
              repeat' split at h
              all_goals injection h with h1 h2
              all_goals
                first
                  | exact Except.noConfusion h1
                  | (injection h1 with h1
                     subst h1
                     subst h2
                     first
                       | exact ⟨rfl, dR, hdR, horR.trans horA,
                           hclR.trans hclA2⟩
                       | (rename_i heqM
                          obtain ⟨dM, hdM, horM, htyM, hclM⟩ :=
                            grow_keep (grow_of_mount heqM) _ _ hdR
                          exact ⟨rfl, dM, hdM,
                            horM.trans (horR.trans horA),
                            sub_nil_eq hclM (hclR.trans hclA2)⟩))
            · rw [if_neg hpt] at h
              repeat' split at h
              all_goals injection h with h1 h2
              all_goals
                first
                  | exact Except.noConfusion h1
                  | (injection h1 with h1
                     subst h1
                     subst h2
                     first
                       | exact ⟨rfl, dR, hdR, horR.trans horA,
                           hclR.trans hclA2⟩
                       | (rename_i heqM
                          obtain ⟨dM, hdM, horM, htyM, hclM⟩ :=
                            grow_keep (grow_of_mount heqM) _ _ hdR
                          exact ⟨rfl, dM, hdM,
                            horM.trans (horR.trans horA),
                            sub_nil_eq hclM (hclR.trans hclA2)⟩))

lemma cloneOp_edges {host : HostFs} {i : Nat} {newname : String}
    {parents : Bool} {props : Props} {e : Engine} {r : Except Err Nat}
    {eF : Engine}
    (hok : cloneEdgesOk e.ds)
    (hnf : ∀ j, e.nextId ≤ j → e.find? j = none)
    (h : cloneOp host i newname parents props e = (r, eF)) :
    cloneEdgesOk eF.ds ∧
    ∀ nid, r = .ok nid →
      (∃ nd, eF.find? nid = some nd ∧ nd.origin = some i) ∧
      (∃ sd, eF.find? i = some sd ∧ nid ∈ sd.clones) := by
  unfold cloneOp at h
  split at h
  · injection h with h1 h2
    subst h1
    subst h2
    exact ⟨hok, fun nid hn => Except.noConfusion hn⟩
  · rename_i d hfd
    split at h
    · injection h with h1 h2
      subst h1
      subst h2
      exact ⟨hok, fun nid hn => Except.noConfusion hn⟩
    · split at h
      · injection h with h1 h2
        subst h1
        subst h2
        exact ⟨hok, fun nid hn => Except.noConfusion hn⟩
      · rename_i hty3
        have hdty : d.dtype = DsType.snapshot := not_not.mp hty3
        split at h
        · injection h with h1 h2
          subst h1
          subst h2
          exact ⟨hok, fun nid hn => Except.noConfusion hn⟩
        · split at h
          · injection h with h1 h2
            subst h1
            subst h2
            exact ⟨hok, fun nid hn => Except.noConfusion hn⟩
          · split at h
            · injection h with h1 h2
              subst h1
              subst h2
              exact ⟨hok, fun nid hn => Except.noConfusion hn⟩
            · try simp only [] at h
              split at h
              · injection h with h1 h2
                subst h1
                subst h2
                exact ⟨hok, fun nid hn => Except.noConfusion hn⟩
              · split at h
                · rename_i er e1 hmkp
                  injection h with h1 h2
                  subst h1
                  subst h2
                  exact ⟨grow_cloneEdges
                    (grow_of_mkParents _ _ _ hnf hmkp) hok,
                    fun nid hn => Except.noConfusion hn⟩
                · rename_i pds e1 hmkp
                  have g1 : grow e e1 := grow_of_mkParents _ _ _ hnf hmkp
                  have hnf1 := grow_NF g1 hnf
                  try simp only [] at h
                  split at h
                  · rename_i er e2B hmk
                    injection h with h1 h2
                    subst h1
                    subst h2
                    have g2 : grow e1 e2B := grow_of_mkDataset
                      (hnf1 _ (Nat.le_refl _)) hmk
                    exact ⟨grow_cloneEdges (grow_trans g1 g2) hok,
                      fun nid hn => Except.noConfusion hn⟩
                  · rename_i nid0 e2B hmk
                    try simp only [] at h
                    injection h with h1 h2
                    subst h1
                    subst h2
                    have g2 : grow e1 e2B := grow_of_mkDataset
                      (hnf1 _ (Nat.le_refl _)) hmk
                    have g12 : grow e e2B := grow_trans g1 g2
                    have ok2 : cloneEdgesOk e2B.ds := grow_cloneEdges g12 hok
                    obtain ⟨hnid, ndc, hndc, hornd, hclnd⟩ :=
                      mkDataset_ok_shape (hnf1 _ (Nat.le_refl _)) hmk
                    have hilt : i < e.nextId := by
                      by_contra hle
                      rw [hnf i (Nat.le_of_not_lt hle)] at hfd
                      exact Option.noConfusion hfd
                    have hne : i ≠ nid0 := by
                      have hlt2 : i < nid0 := by
                        rw [hnid]
                        exact Nat.lt_of_lt_of_le hilt g1.1
                      omega
                    obtain ⟨d2i, hd2i, hord2, htyd2, hcld2⟩ :=
                      grow_keep g12 _ _ hfd
                    have hE3i : (updDs e2B nid0 (fun nd =>
                        { nd with origin := some i })).find? i = some d2i := by
                      rw [find_updDs_ne e2B nid0 _ i hne]
                      exact hd2i
                    have hiF : (updDs (updDs e2B nid0 (fun nd =>
                        { nd with origin := some i })) i (fun sd =>
                        { sd with clones := sd.clones ++ [nid0] })).find? i =
                        some { d2i with clones := d2i.clones ++ [nid0] } :=
                      find_updDs_self _ i _ d2i hE3i
                    have hnidF : (updDs (updDs e2B nid0 (fun nd =>
                        { nd with origin := some i })) i (fun sd =>
                        { sd with clones := sd.clones ++ [nid0] })).find?
                          nid0 = some { ndc with origin := some i } := by
                      rw [find_updDs_ne _ i _ nid0 (Ne.symm hne)]
                      exact find_updDs_self e2B nid0 _ ndc hndc
                    have hoth : ∀ j, j ≠ i → j ≠ nid0 →
                        (updDs (updDs e2B nid0 (fun nd =>
                          { nd with origin := some i })) i (fun sd =>
                          { sd with clones := sd.clones ++ [nid0] })).find?
                            j = e2B.find? j := by
                      intro j hji hjn
                      rw [find_updDs_ne _ i _ j hji,
                        find_updDs_ne e2B nid0 _ j hjn]
                    generalize hE4 : updDs (updDs e2B nid0 (fun nd =>
                      { nd with origin := some i })) i (fun sd =>
                      { sd with clones := sd.clones ++ [nid0] }) = E4
                      at hiF hnidF hoth ⊢
                    refine ⟨?_, ?_⟩
                    · intro j dj hj hsnap c hc
                      have hj2 : E4.find? j = some dj := hj
                      by_cases hji : j = i
                      · subst hji
                        rw [hiF] at hj2
                        injection hj2 with hj2
                        subst hj2
                        have hc2 : c ∈ d2i.clones ++ [nid0] := hc
                        rcases List.mem_append.mp hc2 with hcL | hcR
                        · have htyd2s : d2i.dtype = DsType.snapshot :=
                            htyd2.trans hdty
                          obtain ⟨cd2, hcd2, horc2⟩ :=
                            ok2 j d2i hd2i htyd2s c hcL
                          have hcd3 : e2B.find? c = some cd2 := hcd2
                          have hcnn : c ≠ nid0 := by
                            intro hceq
                            subst hceq
                            have hcc : some ndc = some cd2 :=
                              hndc.symm.trans hcd3
                            injection hcc with hcc
                            rw [← hcc] at horc2
                            rw [hornd] at horc2
                            exact Option.noConfusion horc2
                          by_cases hci : c = j
                          · subst hci
                            have hcc : some d2i = some cd2 :=
                              hd2i.symm.trans hcd3
                            injection hcc with hcc
                            rw [← hcc] at horc2
                            exact ⟨_, hiF, horc2⟩
                          · rw [← hoth c hci hcnn] at hcd3
                            exact ⟨cd2, hcd3, horc2⟩
                        · have hceq : c = nid0 := List.mem_singleton.mp hcR
                          subst hceq
                          exact ⟨_, hnidF, rfl⟩
                      · by_cases hjn : j = nid0
                        · subst hjn
                          rw [hnidF] at hj2
                          injection hj2 with hj2
                          subst hj2
                          have hc2 : c ∈ ndc.clones := hc
                          rw [hclnd] at hc2
                          exact absurd hc2 (List.not_mem_nil c)
                        · rw [hoth j hji hjn] at hj2
                          obtain ⟨cd2, hcd2, horc2⟩ :=
                            ok2 j dj hj2 hsnap c hc
                          have hcd3 : e2B.find? c = some cd2 := hcd2
                          have hcnn : c ≠ nid0 := by
                            intro hceq
                            subst hceq
                            have hcc : some ndc = some cd2 :=
                              hndc.symm.trans hcd3
                            injection hcc with hcc
                            rw [← hcc] at horc2
                            rw [hornd] at horc2
                            exact Option.noConfusion horc2
                          by_cases hci : c = i
                          · subst hci
                            have hcc : some d2i = some cd2 :=
                              hd2i.symm.trans hcd3
                            injection hcc with hcc
                            rw [← hcc] at horc2
                            exact ⟨_, hiF, horc2⟩
                          · rw [← hoth c hci hcnn] at hcd3
                            exact ⟨cd2, hcd3, horc2⟩
                    · intro nid hn
                      injection hn with hn
                      subst hn
                      constructor
                      · exact ⟨{ ndc with origin := some i }, hnidF, rfl⟩
                      · exact ⟨{ d2i with clones := d2i.clones ++ [nid0] },
                          hiF, List.mem_append.mpr (Or.inr
                            (List.mem_singleton.mpr rfl))⟩

lemma destroy_clone_splice {host : HostFs} {c o : Nat} {e : Engine}
    {d od : Dataset}
    (hc : e.find? c = some d) (hst : d.state = .active)
    (hty : d.dtype ≠ .snapshot) (hm : d.mounted = false)
    (hcl : d.clones = []) (hch : d.children = []) (hsn : d.snapshots = [])
    (hor : d.origin = some o) (hoc : o ≠ c) (ho : e.find? o = some od) :
    (destroyDs host false c e).1 = .ok () ∧
    ∃ od2, (destroyDs host false c e).2.find? o = some od2 ∧
      od2.clones = spliceOut od.clones c := by
  have hda : d.assertActive = .ok () := by
    unfold Dataset.assertActive
    rw [if_pos (Or.inl hst)]
  have hcd : checkDestroy false d = .ok () := by
    unfold checkDestroy
    rw [if_neg (fun hand => hty hand.1)]
    rw [if_neg (fun hand => hand.2.elim (fun hh => hh hch)
      (fun hh => hh hsn))]
  have hum : unmount host c e = (.ok (), e) := by
    unfold unmount
    simp [hc, hda, hm]
  have h1 : destroy1 host c e =
      (.ok (), updDs (unregisterDs c e) c
        (fun x => { x with state := DsState.destroyed })) := by
    unfold destroy1
    simp only [hc, hda, hcd, hcl, hum]
    rw [if_neg (fun hh => hh rfl)]
  have h2 : destroyDs host false c e =
      (.ok (), updDs (unregisterDs c e) c
        (fun x => { x with state := DsState.destroyed })) := h1
  refine ⟨by rw [h2], ?_⟩
  rw [h2]
  show ∃ od2, (updDs (unregisterDs c e) c
    (fun x => { x with state := DsState.destroyed })).find? o = some od2 ∧
    od2.clones = spliceOut od.clones c
  rw [find_updDs_ne _ c _ o hoc]
  unfold unregisterDs
  simp only [hc]
  rw [if_neg hty]
  simp only [hor]
  cases hp : d.parent with
  | some p =>
    simp only [hp]
    rw [find_updDs, find_updDs_self e o _ od ho]
    simp only [Option.map_some']
    refine ⟨_, rfl, ?_⟩
    split
    · rfl
    · rfl
  | none =>
    simp only [hp]
    exact ⟨{ od with clones := spliceOut od.clones c },
      find_updDs_self e o
        (fun x => { x with clones := spliceOut x.clones c }) od ho, rfl⟩

/-- The shared frame argument for the duplicate-name error site of the
constructor: the arena was extended by one fresh record with empty
collections, then stepped by collection-preserving mutations only. -/
lemma existsFrameCore (host : HostFs) (props : Props) (u : Unit)
    (e2 e e' : Engine) (d0 : Dataset)
    (hd0c : d0.children = []) (hd0s : d0.snapshots = [])
    (hd0cl : d0.clones = [])
    (hprops : applyProps host e.nextId props
      { e with ds := e.ds ++ [(e.nextId, d0)], nextId := e.nextId + 1 } =
        (.ok u, e2))
    (h2 : updDs e2 e.nextId (fun d => { d with state := DsState.active }) =
      e')
    (hfresh : refsFresh e)
    (parent : Option Nat) (dtype : DsType) (name : String)
    (hsib : (alGet (siblingsOf e' parent dtype) name).isSome = true) :
    (parent = none → e'.rootChildren = e.rootChildren) ∧
    (∀ p pd, parent = some p → e.find? p = some pd →
      ∃ pd', e'.find? p = some pd' ∧ pd'.children = pd.children ∧
        pd'.snapshots = pd.snapshots) ∧
    (alGet (siblingsOf e parent dtype) name).isSome = true ∧
    alGet (siblingsOf e' parent dtype) name =
      alGet (siblingsOf e parent dtype) name ∧
    (∀ j d', e'.find? j = some d' →
      e.nextId ∉ d'.children.map Prod.snd ∧
      e.nextId ∉ d'.snapshots.map Prod.snd ∧
      e.nextId ∉ d'.clones) ∧
    e.nextId ∉ e'.rootChildren.map Prod.snd := by
  have hcf : collFrame
      { e with ds := e.ds ++ [(e.nextId, d0)], nextId := e.nextId + 1 }
      e' := by
    have h0 := applyProps_collFrame host e.nextId props
      { e with ds := e.ds ++ [(e.nextId, d0)], nextId := e.nextId + 1 }
    rw [hprops] at h0
    rw [← h2]
    refine collFrame_trans h0 (collFrame_updDs _ _ _ ?_)
    intro d
    exact ⟨rfl, rfl, rfl⟩
  have hrootE : e'.rootChildren = e.rootChildren := hcf.1
  have hne : e.find? e.nextId = none := by
    cases hje : e.find? e.nextId with
    | none => rfl
    | some x =>
      exfalso
      obtain ⟨q, hqmem, hq1, hq2⟩ := lookupA_some_mem hje
      have hlt := hfresh.1 q hqmem
      rw [hq1] at hlt
      exact Nat.lt_irrefl _ hlt
  have hfind1 : Engine.find?
      { e with ds := e.ds ++ [(e.nextId, d0)], nextId := e.nextId + 1 }
      e.nextId = some d0 := by
    rw [find_append_none hne, if_pos rfl]
  have hxfer : ∀ j x, e.find? j = some x →
      ∃ x', e'.find? j = some x' ∧ x'.children = x.children ∧
        x'.snapshots = x.snapshots ∧ x'.clones = x.clones := by
    intro j x hx
    have h1 : Engine.find?
        { e with ds := e.ds ++ [(e.nextId, d0)], nextId := e.nextId + 1 }
        j = some x := find_append_some hx
    rcases hcf.2 j with ⟨ha, hb⟩ | ⟨d, d', ha, hb, hc⟩
    · rw [h1] at ha; cases ha
    · rw [h1] at ha
      injection ha with ha
      subst ha
      exact ⟨d', hb, hc.1, hc.2.1, hc.2.2⟩
  have hnewE : ∃ x', e'.find? e.nextId = some x' ∧ x'.children = [] ∧
      x'.snapshots = [] ∧ x'.clones = [] := by
    rcases hcf.2 e.nextId with ⟨ha, hb⟩ | ⟨d, d', ha, hb, hc⟩
    · rw [hfind1] at ha; cases ha
    · rw [hfind1] at ha
      injection ha with ha
      subst ha
      exact ⟨d', hb, hc.1.trans hd0c, hc.2.1.trans hd0s,
        hc.2.2.trans hd0cl⟩
  have hnone : ∀ j, j ≠ e.nextId → e.find? j = none → e'.find? j = none := by
    intro j hj hx
    have h1 : Engine.find?
        { e with ds := e.ds ++ [(e.nextId, d0)], nextId := e.nextId + 1 }
        j = none := by
      rw [find_append_none hx, if_neg hj]
    rcases hcf.2 j with ⟨ha, hb⟩ | ⟨d, d', ha, hb, hc⟩
    · exact hb
    · rw [h1] at ha; cases ha
  have hsibs : siblingsOf e' parent dtype = siblingsOf e parent dtype := by
    cases parent with
    | none =>
      simp only [siblingsOf]
      exact hrootE
    | some p =>
      cases hp : e.find? p with
      | some pd =>
        obtain ⟨pd', hb, hc1, hc2, hc3⟩ := hxfer p pd hp
        simp only [siblingsOf, hb, hp, hc1, hc2]
      | none =>
        by_cases hpn : p = e.nextId
        · subst hpn
          obtain ⟨x', hb, hxc, hxs, hxcl⟩ := hnewE
          exfalso
          have hempty : siblingsOf e' (some e.nextId) dtype = [] := by
            simp only [siblingsOf, hb]
            split
            · exact hxs
            · exact hxc
          rw [hempty] at hsib
          simp [alGet] at hsib
        · have hb := hnone p hpn hp
          exfalso
          have hempty : siblingsOf e' (some p) dtype = [] := by
            simp only [siblingsOf, hb]
          rw [hempty] at hsib
          simp [alGet] at hsib
  refine ⟨fun _ => hrootE, ?_, ?_, ?_, ?_, ?_⟩
  · intro p pd hpp hp
    obtain ⟨pd', hb, hc1, hc2, hc3⟩ := hxfer p pd hp
    exact ⟨pd', hb, hc1, hc2⟩
  · rw [← hsibs]
    exact hsib
  · rw [hsibs]
  · intro j d' hd'
    cases hj : e.find? j with
    | some x =>
      obtain ⟨x', hb, hc1, hc2, hc3⟩ := hxfer j x hj
      rw [hd'] at hb
      injection hb with hb
      subst hb
      have hk := hfresh.2.2.1 j x hj
      refine ⟨?_, ?_, ?_⟩
      · intro hmem
        rw [hc1] at hmem
        rw [List.mem_map] at hmem
        obtain ⟨q, hq, hq2⟩ := hmem
        have hlt := hk.1 q hq
        rw [hq2] at hlt
        exact Nat.lt_irrefl _ hlt
      · intro hmem
        rw [hc2] at hmem
        rw [List.mem_map] at hmem
        obtain ⟨q, hq, hq2⟩ := hmem
        have hlt := hk.2 q hq
        rw [hq2] at hlt
        exact Nat.lt_irrefl _ hlt
      · intro hmem
        rw [hc3] at hmem
        exact Nat.lt_irrefl _ (hfresh.2.1 j x hj e.nextId hmem)
    | none =>
      by_cases hjn : j = e.nextId
      · subst hjn
        obtain ⟨x', hb, hxc, hxs, hxcl⟩ := hnewE
        rw [hd'] at hb
        injection hb with hb
        subst hb
        refine ⟨?_, ?_, ?_⟩
        · rw [hxc]; simp
        · rw [hxs]; simp
        · rw [hxcl]; simp
      · have hn := hnone j hjn hj
        rw [hd'] at hn
        cases hn
  · rw [hrootE]
    intro hmem
    rw [List.mem_map] at hmem
    obtain ⟨q, hq, hq2⟩ := hmem
    have hlt := hfresh.2.2.2 q hq
    rw [hq2] at hlt
    exact Nat.lt_irrefl _ hlt

/-- Claim C10: when the Dataset constructor raises DatasetExistsError
because the sibling collection of the parent (children, or snapshots for
a snapshot; the pools root for a top-level dataset) already maps the
requested name, the collections of every object and of the pools root
are unchanged, the previously registered sibling is still mapped under
that name, and the newly constructed object is registered nowhere in the
graph: no children map, snapshots map, clones array or pools root entry
names its fresh identity. -/
theorem C10_constructor_exists_frame
    (host : HostFs) (parent : Option Nat) (name : String) (dtype : DsType)
    (props : Props) (fscontent : Option Nat) (e e' : Engine)
    (hfresh : refsFresh e)
    (hrun : mkDataset host parent name dtype props fscontent e =
      (.error .datasetExists, e')) :
    (parent = none → e'.rootChildren = e.rootChildren) ∧
    (∀ p pd, parent = some p → e.find? p = some pd →
      ∃ pd', e'.find? p = some pd' ∧ pd'.children = pd.children ∧
        pd'.snapshots = pd.snapshots) ∧
    (alGet (siblingsOf e parent dtype) name).isSome = true ∧
    alGet (siblingsOf e' parent dtype) name =
      alGet (siblingsOf e parent dtype) name ∧
    (∀ j d', e'.find? j = some d' →
      e.nextId ∉ d'.children.map Prod.snd ∧
      e.nextId ∉ d'.snapshots.map Prod.snd ∧
      e.nextId ∉ d'.clones) ∧
    e.nextId ∉ e'.rootChildren.map Prod.snd := by
  unfold mkDataset at hrun
  split at hrun
  · rename_i er hnc
    injection hrun with h1 h2
    injection h1 with h1
    rw [namecheck_err hnc] at h1
    cases h1
  · split at hrun
    · injection hrun with h1 h2
      injection h1 with h1
      cases h1
    · simp only [] at hrun
      split at hrun
      · rename_i er e2x hprops
        injection hrun with h1 h2
        injection h1 with h1
        subst h1
        exact absurd rfl (applyProps_ne_exists hprops)
      · rename_i u e2 hprops
        split at hrun
        · rename_i er hpt
          exfalso
          injection hrun with h1 h2
          injection h1 with h1
          subst h1
          repeat' split at hpt
          all_goals
            first
              | exact Except.noConfusion hpt
              | (injection hpt with hpt
                 exact absurd hpt (by decide))
              | (rename_i er2 ha
                 injection hpt with hpt
                 rw [assertActive_err ha] at hpt
                 exact absurd hpt (by decide))
        · split at hrun
          · rename_i hsib
            injection hrun with h1 h2
            rw [h2] at hsib
            refine existsFrameCore host props u e2 e e' _ ?_ ?_ ?_
              hprops h2 hfresh parent dtype name hsib
            · rfl
            · rfl
            · rfl
          · exfalso
            repeat' split at hrun
            all_goals
              injection hrun with h1 h2
            all_goals
              first
                | exact Except.noConfusion h1
                | (injection h1 with h1
                   first
                     | exact getCanmount_err (by assumption) h1
                     | exact mount_ne_exists (by assumption) h1)

/-- The single-pool engine is well-formed for allocation freshness. -/
lemma refsFresh_engPool : refsFresh engPool := by
  have hk : engPool.ds.all
      (fun q => decide (q.1 < engPool.nextId)) = true := by decide
  have hcl : engPool.ds.all
      (fun q => q.2.clones.all
        (fun c => decide (c < engPool.nextId))) = true := by decide
  have hkid : engPool.ds.all (fun q =>
      q.2.children.all (fun r => decide (r.2 < engPool.nextId)) &&
      q.2.snapshots.all
        (fun r => decide (r.2 < engPool.nextId))) = true := by decide
  have hroot : engPool.rootChildren.all
      (fun q => decide (q.2 < engPool.nextId)) = true := by decide
  refine ⟨?_, ?_, ?_, ?_⟩
  · intro q hq
    exact of_decide_eq_true (List.all_eq_true.mp hk q hq)
  · intro i d h c hc
    obtain ⟨q, hqmem, hq1, hq2⟩ := lookupA_some_mem h
    have h1 := List.all_eq_true.mp hcl q hqmem
    rw [hq2] at h1
    exact of_decide_eq_true (List.all_eq_true.mp h1 c hc)
  · intro i d h
    obtain ⟨q, hqmem, hq1, hq2⟩ := lookupA_some_mem h
    have h1 := List.all_eq_true.mp hkid q hqmem
    rw [hq2] at h1
    rw [Bool.and_eq_true] at h1
    exact ⟨fun r hr => of_decide_eq_true (List.all_eq_true.mp h1.1 r hr),
      fun r hr => of_decide_eq_true (List.all_eq_true.mp h1.2 r hr)⟩
  · intro q hq
    exact of_decide_eq_true (List.all_eq_true.mp hroot q hq)

/-- Witness for C10: creating a second pool named p over the single-pool
engine raises DatasetExistsError, p stays mapped at the pools root and
the fresh identity appears in no root entry afterwards. -/
theorem C10_witness :
    (alGet (siblingsOf engPool none DsType.filesystem) "p").isSome = true ∧
    engPool.nextId ∉
      ((mkDataset hostA none "p" DsType.filesystem [] none
        engPool).2).rootChildren.map Prod.snd := by
  have h := C10_constructor_exists_frame hostA none "p" DsType.filesystem
    [] none engPool
    (mkDataset hostA none "p" DsType.filesystem [] none engPool).2
    refsFresh_engPool rfl
  exact ⟨h.2.2.1, h.2.2.2.2.2⟩

/-- Claim C4, amended: for a successful non-recursive snapshot of d, the
snapshot fscontent is copied from d when d has one; otherwise the code
archives the mountpoint of d exactly when the PARENT of d is mounted
(self._parent._mounted in the source, not self._mounted), and leaves the
snapshot fscontent empty when the parent is not mounted — regardless of
whether d itself is mounted. -/
theorem C4_snapshot_fscontent
    (host : HostFs) (snapname : String) (props : Props) (i : Nat)
    (e : Engine) (d : Dataset) (nid : Nat) (e' : Engine)
    (hkeys : keysUnder e.nextId e.ds)
    (hfind : e.find? i = some d)
    (hrun : snapshotOp host false snapname props i e = (.ok nid, e')) :
    ∃ nd, e'.find? nid = some nd ∧
      (d.fscontent ≠ none → nd.fscontent = d.fscontent) ∧
      (d.fscontent = none → parentMounted e' d = true →
        ∃ mp c, mountpointGet e' i = .ok (some mp) ∧
          host.archiveAt mp = some c ∧ nd.fscontent = some c) ∧
      (d.fscontent = none → parentMounted e' d = false →
        nd.fscontent = none) := by
  unfold snapshotOp at hrun
  simp only [hfind] at hrun
  split at hrun
  · injection hrun with h1 h2
    exact Except.noConfusion h1
  · split at hrun
    · injection hrun with h1 h2
      exact Except.noConfusion h1
    · rw [if_neg (show ¬(false = true) by decide)] at hrun
      cases hchk : checksnap snapname i { e with pendingTxg := e.txg } with
      | error er =>
        rw [hchk] at hrun
        try simp only [] at hrun
        injection hrun with h1 h2
        exact Except.noConfusion h1
      | ok u1 =>
        rw [hchk] at hrun
        cases hds : dosnap host snapname props i
            { e with pendingTxg := e.txg } with
        | mk r2 eb =>
          rw [hds] at hrun
          try simp only [] at hrun
          cases r2 with
          | error er =>
            try simp only [] at hrun
            injection hrun with h1 h2
            exact Except.noConfusion h1
          | ok u2 =>
            try simp only [] at hrun
            have hdsS : dosnap host snapname props i
                { e with pendingTxg := e.txg } = (.ok (), eb) := by
              rw [hds]
            have hnone2 : Engine.find? { e with pendingTxg := e.txg }
                (Engine.nextId { e with pendingTxg := e.txg }) = none := by
              cases hje : e.find? e.nextId with
              | none => exact hje
              | some x =>
                exfalso
                obtain ⟨q, hq, hq1, hq2⟩ := lookupA_some_mem hje
                have hlt := hkeys q hq
                rw [hq1] at hlt
                exact Nat.lt_irrefl _ hlt
            have hfind2 : Engine.find? { e with pendingTxg := e.txg } i =
                some d := hfind
            obtain ⟨hbi, ⟨nd0, hnd0, hfc0, hnm0, hpar0, hty0, hst0, hctx0,
              hmt0, hch0, hsn0, hh0, hcl0, hor0⟩, hothb, hrootb, hnextb,
              hpendb, htxgb⟩ :=
              dosnap_success host snapname props i
                { e with pendingTxg := e.txg } d eb hnone2 hfind2 hdsS
            have hfiE1 : Engine.find?
                { eb with txg := eb.txg + 1, pendingTxg := 0 } i =
                some { d with snapshots := alPut (alPut d.snapshots snapname e.nextId) snapname e.nextId } := hbi
            rw [hfiE1] at hrun
            simp only [] at hrun
            rw [alGet_alPut] at hrun
            simp only [] at hrun
            have hndE1 : Engine.find?
                { eb with txg := eb.txg + 1, pendingTxg := 0 } e.nextId =
                some nd0 := hnd0
            split at hrun
            · -- d has fscontent: copied
              rename_i c heq
              injection hrun with h1 h2
              injection h1 with h1
              subst h1
              refine ⟨{ nd0 with fscontent := some c }, ?_, ?_, ?_, ?_⟩
              · rw [← h2]
                exact find_updDs_self _ e.nextId _ nd0 hndE1
              · intro _
                exact heq.symm
              · intro h0 _
                rw [heq] at h0
                exact Option.noConfusion h0
              · intro h0 _
                rw [heq] at h0
                exact Option.noConfusion h0
            · -- no fscontent on d
              rename_i heq
              split at hrun
              · -- parent of d mounted: archive of the mountpoint of d
                rename_i hpm
                split at hrun
                · injection hrun with h1 h2
                  exact Except.noConfusion h1
                · injection hrun with h1 h2
                  exact Except.noConfusion h1
                · rename_i mp hmg
                  split at hrun
                  · injection hrun with h1 h2
                    exact Except.noConfusion h1
                  · rename_i c harch
                    injection hrun with h1 h2
                    injection h1 with h1
                    subst h1
                    refine ⟨{ nd0 with fscontent := some c }, ?_, ?_, ?_,
                      ?_⟩
                    · rw [← h2]
                      exact find_updDs_self _ e.nextId _ nd0 hndE1
                    · intro hne
                      exact absurd heq hne
                    · intro _ _
                      refine ⟨mp, c, ?_, harch, rfl⟩
                      rw [← h2]
                      rw [mountpointGet_updDs
                        { eb with txg := eb.txg + 1, pendingTxg := 0 }
                        e.nextId (fun x => { x with fscontent := some c })
                        (fun x => ⟨rfl, rfl, rfl, rfl, rfl⟩) i]
                      exact hmg
                    · intro _ hpmf
                      exfalso
                      have hpt : parentMounted e' d = true := by
                        rw [← h2]
                        rw [parentMounted_updDs
                          { eb with txg := eb.txg + 1, pendingTxg := 0 }
                          e.nextId
                          (fun x => { x with fscontent := some c })
                          (fun x => rfl) d]
                        exact hpm
                      rw [hpt] at hpmf
                      exact Bool.noConfusion hpmf
              · -- parent of d not mounted: fscontent stays empty
                rename_i hpm
                injection hrun with h1 h2
                injection h1 with h1
                subst h1
                refine ⟨nd0, ?_, ?_, ?_, ?_⟩
                · rw [← h2]
                  exact hndE1
                · intro hne
                  exact absurd heq hne
                · intro _ hpmt
                  exfalso
                  apply hpm
                  rw [← h2] at hpmt
                  exact hpmt
                · intro _ _
                  exact hfc0.trans heq

/-- Counterexample for C4: in engAMounted the dataset p/a (identity 1) is
itself mounted at /p/a with no fscontent, and archiving /p/a would yield
a value, yet its snapshot gets no fscontent — the code consults the
mounted flag of the PARENT p, which is unmounted. -/
theorem C4_counterexample :
    (engAMounted.find? 1).map Dataset.mounted = some true ∧
    (engAMounted.find? 1).map Dataset.fscontent = some none ∧
    mountpointGet engAMounted 1 = .ok (some "/p/a") ∧
    hostA.archiveAt "/p/a" = some 4 ∧
    (snapshotOp hostA false "s" [] 1 engAMounted).1 = .ok 2 ∧
    ((snapshotOp hostA false "s" [] 1 engAMounted).2.find? 2).map
      Dataset.fscontent = some none := by
  exact ⟨rfl, rfl, rfl, rfl, rfl, rfl⟩

/-- Witness for C4: a snapshot of the pool p (mounted, empty fscontent,
parent is the pools root which is never mounted) gets an empty
fscontent through the third branch of the amended theorem. -/
theorem C4_witness :
    keysUnder engPool.nextId engPool.ds ∧
    ∃ nd, ((snapshotOp hostA false "s" [] 0 engPool).2).find? 1 =
      some nd ∧ nd.fscontent = none := by
  have hk : keysUnder engPool.nextId engPool.ds := by
    have hall : engPool.ds.all
        (fun q => decide (q.1 < engPool.nextId)) = true := by decide
    intro q hq
    exact of_decide_eq_true (List.all_eq_true.mp hall q hq)
  have h := C4_snapshot_fscontent hostA "s" [] 0 engPool
    ((engPool.find? 0).getD default) 1
    (snapshotOp hostA false "s" [] 0 engPool).2 hk rfl rfl
  obtain ⟨nd, hnd, hc1, hc2, hc3⟩ := h
  exact ⟨hk, nd, hnd, hc3 rfl rfl⟩

/-- Claim C2, amended: for snapshot(snapname, recursive) on an active
filesystem or volume, with ys the filesystem/volume subtree listed by
iterDescendants: (a) when any member already has a snapshot named
snapname the call raises DatasetExistsError from the check pass and the
arena is untouched (only the transaction counters move); (b) whenever
the call returns successfully, no member had such a snapshot before,
and every member now maps snapname to a fresh active snapshot, all
sharing createtxg equal to the txg at call entry.  (The original claim
also asserted that a collision-free call always succeeds; an invalid
snapname passes the check pass and then raises DatasetNameError from
the constructor, creating nothing.) -/
theorem C2_recursive_snapshot
    (host : HostFs) (snapname : String) (props : Props) (i : Nat)
    (e : Engine) (d : Dataset) (ys vis : List Nat)
    (hkeys : keysUnder e.nextId e.ds)
    (hfind : e.find? i = some d)
    (hact : d.assertActive = .ok ())
    (hct : childTypesHasSnapshot d.dtype = true)
    (htxg : e.txg ≠ 0)
    (hiter : iterDesc e.ds ["filesystem", "volume"] (defaultFuel e.ds) i
      [] = .ok (ys, vis)) :
    ((∃ x ∈ ys, ∃ dxc, e.find? x = some dxc ∧
        (alGet dxc.snapshots snapname).isSome = true) →
      snapshotOp host true snapname props i e =
        (.error .datasetExists,
          { e with txg := e.txg + 1, pendingTxg := 0 })) ∧
    (∀ nid e', snapshotOp host true snapname props i e = (.ok nid, e') →
      ys.Nodup ∧
      ∀ x ∈ ys, ∃ dx, e.find? x = some dx ∧
        alGet dx.snapshots snapname = none ∧
        ∃ nx dx2 nd, e'.find? x = some dx2 ∧
          alGet dx2.snapshots snapname = some nx ∧
          e'.find? nx = some nd ∧ nd.dname = snapname ∧
          nd.parent = some x ∧ nd.dtype = DsType.snapshot ∧
          nd.state = DsState.active ∧ nd.createtxg = e.txg) := by
  constructor
  · intro hcol
    unfold snapshotOp
    simp only [hfind, hact]
    rw [if_neg (show ¬((!childTypesHasSnapshot d.dtype) = true) from by
      rw [hct]; decide)]
    simp only [if_true]
    unfold doDescendants
    try simp only []
    rw [hiter]
    try simp only []
    have hfe : firstErr
        (fun x => checksnap snapname x { e with pendingTxg := e.txg })
        ys = .error .datasetExists := by
      apply firstErr_mem_error
      · intro x hx
        exact checksnap_cases snapname x _
      · obtain ⟨x, hx, dxc, hfx, hcolx⟩ := hcol
        refine ⟨x, hx, ?_⟩
        exact checksnap_error_of
          (show Engine.find? { e with pendingTxg := e.txg } x = some dxc
            from hfx) hcolx
    rw [hfe]
  · intro nid e' hrun
    unfold snapshotOp at hrun
    simp only [hfind, hact] at hrun
    split at hrun
    · injection hrun with h1 h2
      exact Except.noConfusion h1
    · simp only [if_true] at hrun
      unfold doDescendants at hrun
      try simp only [] at hrun
      rw [hiter] at hrun
      try simp only [] at hrun
      cases hfe : firstErr
          (fun x => checksnap snapname x { e with pendingTxg := e.txg })
          ys with
      | error er =>
        rw [hfe] at hrun
        try simp only [] at hrun
        injection hrun with h1 h2
        exact Except.noConfusion h1
      | ok u0 =>
        rw [hfe] at hrun
        try simp only [] at hrun
        cases hsl : stepList (fun x e => dosnap host snapname props x e)
            ys { e with pendingTxg := e.txg } with
        | mk r2 eb =>
          rw [hsl] at hrun
          try simp only [] at hrun
          cases r2 with
          | error er =>
            try simp only [] at hrun
            injection hrun with h1 h2
            exact Except.noConfusion h1
          | ok u2 =>
            try simp only [] at hrun
            have hpost := iterGo_post e.ds ["filesystem", "volume"]
              (defaultFuel e.ds) [i] [] ys vis hiter
            obtain ⟨hsub, hnodup, hys1, hys2⟩ := hpost
            have hsome0 : ∀ x ∈ ys,
                (Engine.find? { e with pendingTxg := e.txg } x).isSome =
                  true := by
              intro x hx
              obtain ⟨dx, hdx, _, _⟩ := hys2 x hx
              rw [show Engine.find? { e with pendingTxg := e.txg } x =
                some dx from hdx]
              rfl
            have hnf0 : ∀ j,
                Engine.nextId { e with pendingTxg := e.txg } ≤ j →
                Engine.find? { e with pendingTxg := e.txg } j = none := by
              intro j hj
              cases hje : e.find? j with
              | none => exact hje
              | some x =>
                exfalso
                obtain ⟨q, hq, hq1, hq2⟩ := lookupA_some_mem hje
                have hlt := hkeys q hq
                rw [hq1] at hlt
                have hj2 : e.nextId ≤ j := hj
                omega
            have hpend0 : Engine.pendingTxg { e with pendingTxg := e.txg }
                ≠ 0 := htxg
            obtain ⟨hall, hframe, hmono, htxgF, hpendF, hnfF⟩ :=
              stepSnapList host snapname props ys _ eb u2 hsl hnodup
                hsome0 hnf0 hpend0
            have hpre : ∀ x ∈ ys, ∃ dx, e.find? x = some dx ∧
                alGet dx.snapshots snapname = none := by
              intro x hx
              obtain ⟨dx, hdx, _, _⟩ := hys2 x hx
              refine ⟨dx, hdx, ?_⟩
              exact checksnap_ok_none
                (show Engine.find? { e with pendingTxg := e.txg } x =
                  some dx from hdx)
                (firstErr_ok_mem _ ys u0 hfe x hx)
            have hP : ∀ x ∈ ys, ∃ (dx : Dataset) (nx : Nat) (nd : Dataset),
                Engine.find? { eb with txg := eb.txg + 1, pendingTxg := 0 }
                  x = some { dx with snapshots := alPut (alPut dx.snapshots snapname nx) snapname nx } ∧
                Engine.find? { eb with txg := eb.txg + 1, pendingTxg := 0 }
                  nx = some nd ∧ nd.dname = snapname ∧ nd.parent = some x ∧
                nd.dtype = DsType.snapshot ∧ nd.state = DsState.active ∧
                nd.createtxg = e.txg := by
              intro x hx
              obtain ⟨dx, nx, ndx, h1, h2, h3, h4, h5, h6, h7, h8⟩ :=
                hall x hx
              exact ⟨dx, nx, ndx, h2, h3, h4, h5, h6, h7, h8⟩
            split at hrun
            · injection hrun with h1 h2
              exact Except.noConfusion h1
            · rename_i d1 hd1
              split at hrun
              · injection hrun with h1 h2
                exact Except.noConfusion h1
              · rename_i nid1 hnid1
                split at hrun
                · rename_i c hfsc
                  injection hrun with h1 h2
                  refine ⟨hnodup, ?_⟩
                  intro x hx
                  obtain ⟨dx, hdx, hnn⟩ := hpre x hx
                  refine ⟨dx, hdx, hnn, ?_⟩
                  refine snapTransfer _ e' snapname e.txg ys ?_ hP x hx
                  intro j X hX
                  rw [← h2]
                  rw [find_updDs, hX]
                  by_cases hjk : j = nid1
                  · subst hjk
                    simp only [if_pos rfl, Option.map_some']
                    exact ⟨_, rfl, rfl, rfl, rfl, rfl, rfl, rfl⟩
                  · simp only [if_neg hjk, Option.map_some']
                    exact ⟨X, rfl, rfl, rfl, rfl, rfl, rfl, rfl⟩
                · rename_i hfsc
                  split at hrun
                  · rename_i hpm
                    split at hrun
                    · injection hrun with h1 h2
                      exact Except.noConfusion h1
                    · injection hrun with h1 h2
                      exact Except.noConfusion h1
                    · rename_i mp hmg
                      split at hrun
                      · injection hrun with h1 h2
                        exact Except.noConfusion h1
                      · rename_i c harch
                        injection hrun with h1 h2
                        refine ⟨hnodup, ?_⟩
                        intro x hx
                        obtain ⟨dx, hdx, hnn⟩ := hpre x hx
                        refine ⟨dx, hdx, hnn, ?_⟩
                        refine snapTransfer _ e' snapname e.txg ys ?_ hP
                          x hx
                        intro j X hX
                        rw [← h2]
                        rw [find_updDs, hX]
                        by_cases hjk : j = nid1
                        · subst hjk
                          simp only [if_pos rfl, Option.map_some']
                          exact ⟨_, rfl, rfl, rfl, rfl, rfl, rfl, rfl⟩
                        · simp only [if_neg hjk, Option.map_some']
                          exact ⟨X, rfl, rfl, rfl, rfl, rfl, rfl, rfl⟩
                  · rename_i hpm
                    injection hrun with h1 h2
                    refine ⟨hnodup, ?_⟩
                    intro x hx
                    obtain ⟨dx, hdx, hnn⟩ := hpre x hx
                    refine ⟨dx, hdx, hnn, ?_⟩
                    refine snapTransfer _ e' snapname e.txg ys ?_ hP x hx
                    intro j X hX
                    rw [← h2]
                    exact ⟨X, hX, rfl, rfl, rfl, rfl, rfl, rfl⟩

/-- Counterexample for C2: a recursive snapshot with the empty snapname
on the single pool p.  The subtree is collision-free (p has no snapshot
named at all), so the claim requires a snapshot to be created on p; the
call instead raises DatasetNameError from the constructor in the do
pass and creates nothing. -/
theorem C2_counterexample :
    iterDesc engPool.ds ["filesystem", "volume"] (defaultFuel engPool.ds)
      0 [] = .ok ([0], [0]) ∧
    (engPool.find? 0).map (fun dx => alGet dx.snapshots "") = some none ∧
    (snapshotOp hostA true "" [] 0 engPool).1 = .error .datasetName ∧
    ((snapshotOp hostA true "" [] 0 engPool).2.find? 0).map
      (fun dx => alGet dx.snapshots "") = some none := by
  exact ⟨rfl, rfl, rfl, rfl⟩

/-- Witness for C2: recursive snapshot s over the pool p with child p/a
creates one snapshot on each; shown here for the child (identity 1),
whose snapshot carries createtxg equal to the txg at call entry. -/
theorem C2_witness :
    engPA.txg ≠ 0 ∧
    iterDesc engPA.ds ["filesystem", "volume"] (defaultFuel engPA.ds) 0
      [] = .ok ([0, 1], [0, 1]) ∧
    ∃ dx, engPA.find? 1 = some dx ∧ alGet dx.snapshots "s" = none ∧
      ∃ nx dx2 nd,
        ((snapshotOp hostA true "s" [] 0 engPA).2).find? 1 = some dx2 ∧
        alGet dx2.snapshots "s" = some nx ∧
        ((snapshotOp hostA true "s" [] 0 engPA).2).find? nx = some nd ∧
        nd.dname = "s" ∧ nd.parent = some 1 ∧
        nd.dtype = DsType.snapshot ∧ nd.state = DsState.active ∧
        nd.createtxg = engPA.txg := by
  have hk : keysUnder engPA.nextId engPA.ds := by
    have hall : engPA.ds.all
        (fun q => decide (q.1 < engPA.nextId)) = true := by decide
    intro q hq
    exact of_decide_eq_true (List.all_eq_true.mp hall q hq)
  have htxg : engPA.txg ≠ 0 := by decide
  have h := C2_recursive_snapshot hostA "s" [] 0 engPA
    ((engPA.find? 0).getD default) [0, 1] [0, 1] hk rfl rfl rfl htxg rfl
  have hB := h.2 2 (snapshotOp hostA true "s" [] 0 engPA).2 rfl
  exact ⟨htxg, rfl, hB.2 1 (by decide)⟩


/-- C3: clone/origin symmetry is an invariant preserved by every engine
operation: on any engine whose clone edges are symmetric and whose arena
keys all lie below the allocation counter, applying any operation keeps
every clones entry of every snapshot resolving to a record whose origin
is that snapshot (the clone operation is handled directly, every other
operation through the grow simulation relation).  Moreover a successful
clone() sets the new dataset's origin to the snapshot and appends its
identity to the snapshot's clones list, and a non-recursive destroy of an
unmounted clone removes it from the clones list of its origin by the
splice. -/
theorem C3_clone_origin_symmetry :
    (∀ (host : HostFs) (op : Op) (e : Engine),
      cloneEdgesOk e.ds →
      (∀ j, e.nextId ≤ j → e.find? j = none) →
      cloneEdgesOk (applyOp host op e).ds) ∧
    (∀ (host : HostFs) (i : Nat) (newname : String) (parents : Bool)
      (props : Props) (e : Engine) (nid : Nat) (e2 : Engine),
      cloneEdgesOk e.ds →
      (∀ j, e.nextId ≤ j → e.find? j = none) →
      cloneOp host i newname parents props e = (.ok nid, e2) →
      (∃ nd, e2.find? nid = some nd ∧ nd.origin = some i) ∧
      (∃ sd, e2.find? i = some sd ∧ nid ∈ sd.clones)) ∧
    (∀ (host : HostFs) (c o : Nat) (e : Engine) (d od : Dataset),
      e.find? c = some d → d.state = .active → d.dtype ≠ .snapshot →
      d.mounted = false → d.clones = [] → d.children = [] →
      d.snapshots = [] → d.origin = some o → o ≠ c →
      e.find? o = some od →
      (destroyDs host false c e).1 = .ok () ∧
      ∃ od2, (destroyDs host false c e).2.find? o = some od2 ∧
        od2.clones = spliceOut od.clones c) := by
  refine ⟨?_, ?_, ?_⟩
  · intro host op e hok hnf
    cases op with
    | createC parent name dtype props fscontent =>
      exact grow_cloneEdges
        (grow_of_mkDataset (hnf _ (Nat.le_refl _)) rfl) hok
    | mountC i ignore =>
      exact grow_cloneEdges (mount_grow host ignore i e) hok
    | unmountC i => exact grow_cloneEdges (unmount_grow host i e) hok
    | destroyC i recursive =>
      exact grow_cloneEdges (grow_of_destroyDs rfl) hok
    | snapshotC i snapname recursive props =>
      exact grow_cloneEdges (grow_of_snapshotOp hnf rfl) hok
    | cloneC i newname parents props => exact (cloneOp_edges hok hnf rfl).1
    | renameC i newname parents =>
      exact grow_cloneEdges (grow_of_renameOp rfl) hok
    | holdC i reason recursive =>
      exact grow_cloneEdges (grow_of_holdOp rfl) hok
    | releaseC i reason recursive =>
      exact grow_cloneEdges (grow_of_releaseOp rfl) hok
    | setPropC i pname v => exact grow_cloneEdges (grow_of_setProp rfl) hok
    | destroyPoolC pool =>
      exact grow_cloneEdges (grow_of_destroyPool rfl) hok
  · intro host i newname parents props e nid e2 hok hnf h
    exact (cloneOp_edges hok hnf h).2 nid rfl
  · intro host c o e d od h1 h2 h3 h4 h5 h6 h7 h8 h9 h10
    exact destroy_clone_splice h1 h2 h3 h4 h5 h6 h7 h8 h9 h10

/-- Witness for C3: the invariant survives running the clone operation on
the snapshot engine, the clone of p@s receives identity 2 with origin p@s
and appears in the clones list of p@s, and destroying the unmounted clone
splices it back out of that list. -/
theorem C3_witness :
    cloneEdgesOk (applyOp hostA (Op.cloneC 1 "p/c" false []) engSnap).ds ∧
    ((∃ nd, ((cloneOp hostA 1 "p/c" false [] engSnap).2).find? 2 =
        some nd ∧ nd.origin = some 1) ∧
     (∃ sd, ((cloneOp hostA 1 "p/c" false [] engSnap).2).find? 1 =
        some sd ∧ 2 ∈ sd.clones)) ∧
    ((destroyDs hostA false 2 engCloneU).1 = .ok () ∧
     ∃ od2, (destroyDs hostA false 2 engCloneU).2.find? 1 = some od2 ∧
       od2.clones =
         spliceOut ((engCloneU.find? 1).getD default).clones 2) := by
  have hok : cloneEdgesOk engSnap.ds := cloneEdgesOk_of_chk (by decide)
  have hnf : ∀ j, engSnap.nextId ≤ j → engSnap.find? j = none :=
    nf_of_keys (by decide)
  refine ⟨C3_clone_origin_symmetry.1 hostA _ engSnap hok hnf,
    C3_clone_origin_symmetry.2.1 hostA 1 "p/c" false [] engSnap 2
      (cloneOp hostA 1 "p/c" false [] engSnap).2 hok hnf (by decide),
    C3_clone_origin_symmetry.2.2 hostA 2 1 engCloneU
      ((engCloneU.find? 2).getD default)
      ((engCloneU.find? 1).getD default)
      (by decide) (by decide) (by decide) (by decide) (by decide)
      (by decide) (by decide) (by decide) (by decide) (by decide)⟩

end MockZfs
